import Mathlib

/-!
# uqfacedetect / uqfaceclient: wire protocol and connection handler

A shallow embedding of `src/A4/protocol.c` and of the request handling part of
`src/A4/uqfacedetect.c`, followed by theorems about the framing codec and the
per-connection protocol state machine.

Conventions of the embedding
* a byte (`unsigned char`, `uint8_t`) is a `Fin 256`; `uint32_t` and `size_t`
  values are natural numbers, reduced `% 2 ^ 32` where the source converts to
  `uint32_t`;
* a stdio stream is a value of type `FILE`; every stdio call takes the stream and
  returns the C result together with the stream afterwards;
* `exit` is modelled by the result `Outcome.exited status`;
* loops carry a fuel argument; the wrappers pass a fuel that is proved sufficient.
-/

namespace UQFace

/-! ## Bytes and 32-bit values -/

/-- An `unsigned char`. -/
abbrev Byte := Fin 256

/-- The conversion `(unsigned char)n`. -/
def toByte (n : Nat) : Byte := ⟨n % 256, Nat.mod_lt n (by decide)⟩

/-- The conversion `(uint32_t)n`. -/
def toU32 (n : Nat) : Nat := n % 2 ^ 32

/-- The bytes of a C string literal (without the terminating NUL). -/
def cstr (s : String) : List Byte := s.toList.map (fun c => toByte c.toNat)

/-- The value of `EOF`. -/
def EOF : Int := -1

/-! ## stdio streams -/

/-- A stdio stream in the simple model. The socket stream of the server is opened
`r+b`, so one value carries both directions. The stream is unbuffered in the model:
what `fwrite` accepts has reached the peer, and a write leaves the bytes that are
still to be read as they are. That is how a stream behaves that is used in one
direction (the streams of the client, the response file), and how the `r+b` stream
of the server behaves as long as no unread byte is in its buffer when it is written
to, for one after a read that ended at end-of-file. What the `r+b` stream does
otherwise needs its buffer: `Sock.FILE` below, over which the statements on a
response that follows unread input are made. -/
structure FILE where
  /-- bytes that can still be read before the stream ends -/
  input : List Byte
  /-- whether the end of `input` is a read error rather than end-of-file -/
  readFails : Bool
  /-- end-of-file indicator, tested by `feof` -/
  eof : Bool
  /-- error indicator, tested by `ferror` -/
  err : Bool
  /-- bytes written so far, oldest first -/
  output : List Byte
  /-- number of bytes the stream still accepts; a write beyond it is cut short -/
  room : Nat
  /-- whether `fflush` succeeds -/
  flushOk : Bool
  /-- byte order of the host that runs the process owning this stream: the object
  representation of a `uint32_t` in memory is big-endian when set -/
  bigEndian : Bool
  deriving DecidableEq, Repr

/-- `fread(buf, 1, n, s)`: the bytes stored in `buf` (their number is the return
value) and the stream afterwards. A count short of `n` sets the end-of-file or the
error indicator. (On the `r+b` stream of the server a read that follows a failed
flush returns 0 with neither indicator set: `Sock.fread`.) -/
def fread (s : FILE) (n : Nat) : List Byte × FILE :=
  let got := s.input.take n
  let short := decide (got.length < n)
  (got, { s with input := s.input.drop n,
                 eof := s.eof || (short && !s.readFails),
                 err := s.err || (short && s.readFails) })

/-- `fgetc(s)`: the next byte as an `int`, or `EOF`. -/
def fgetc (s : FILE) : Int × FILE :=
  match s.input with
  | [] => (EOF, { s with eof := s.eof || !s.readFails, err := s.err || s.readFails })
  | b :: rest => ((b.val : Int), { s with input := rest })

/-- `fwrite(data, 1, data.length, s)`: the number of bytes written and the stream
afterwards. -/
def fwrite (s : FILE) (data : List Byte) : Nat × FILE :=
  let n := min data.length s.room
  (n, { s with output := s.output ++ data.take n, room := s.room - n,
               err := s.err || decide (n < data.length) })

/-- `fputc(c, s)`: the byte written as an `int`, or `EOF`. -/
def fputc (c : Byte) (s : FILE) : Int × FILE :=
  if s.room = 0 then (EOF, { s with err := true })
  else ((c.val : Int), { s with output := s.output ++ [c], room := s.room - 1 })

/-- `fflush(s)`: `0`, or `EOF` when the flush fails; whether it fails is given with
the stream. (On the `r+b` stream of the server the flush also fails when unread
bytes were in the buffer at the first write: `Sock.fflush`.) -/
def fflush (s : FILE) : Int × FILE :=
  if s.flushOk then (0, s) else (EOF, { s with err := true })

/-- The object representation of a `uint32_t` in the memory of a host: what
`fwrite(&v, 1, 4, s)` sends. -/
def uint32_to_mem (bigEndian : Bool) (v : Nat) : List Byte :=
  let le := [toByte v, toByte (v / 2 ^ 8), toByte (v / 2 ^ 16), toByte (v / 2 ^ 24)]
  if bigEndian then le.reverse else le

/-! ## protocol.h -/

def PROTOCOL_PREFIX : Nat := 0x23107231

def OP_FACE_DETECT : Nat := 0
def OP_FACE_REPLACE : Nat := 1
def OP_OUTPUT_IMAGE : Nat := 2
def OP_ERROR_MSG : Nat := 3

/-! ## protocol.c -/

def BYTE_MASK : Nat := 0xFF
def BYTE_SHIFT_1 : Nat := 8
def BYTE_SHIFT_2 : Nat := 16
def BYTE_SHIFT_3 : Nat := 24
def UINT32_NUM_BYTES : Nat := 4
def EXIT_COMMERR_STATUS : Nat := 13
def EXIT_ERRMESSAGE_STATUS : Nat := 9

/-- How a call of a client function ends: it returns a value, or the process
exits with a status. -/
inductive Outcome where
  | returned (value : Int)
  | exited (status : Nat)
  deriving DecidableEq, Repr

/-- The loop of `write_all`: the last argument is `totalWritten`, the result is the return
value and the stream; `none` when the fuel runs out. -/
def write_all_loop : Nat → FILE → List Byte → Nat → Option (Int × FILE)
  | 0, _, _, _ => none
  | fuel + 1, stream, buffer, totalWritten =>
    if totalWritten < buffer.length then
      let w := fwrite stream (buffer.drop totalWritten)
      if w.1 = 0 then some (-1, w.2)
      else write_all_loop fuel w.2 buffer (totalWritten + w.1)
    else some (0, stream)

/-- `write_all(stream, buffer, size)` with `size = buffer.length`. Every pass of the
loop that goes on has written at least one byte, so `size + 1` passes suffice
(`write_all_loop_fuel`). -/
def write_all (stream : FILE) (buffer : List Byte) : Int × FILE :=
  (write_all_loop (buffer.length + 1) stream buffer 0).getD (-1, stream)

/-- The loop of `read_all`: `buf` holds the `totalRead` bytes read so far; the
result is the return value, the buffer and the stream; `none` when the fuel runs
out. -/
def read_all_loop : Nat → FILE → List Byte → Nat → Option (Int × List Byte × FILE)
  | 0, _, _, _ => none
  | fuel + 1, stream, buf, size =>
    if buf.length < size then
      let r := fread stream (size - buf.length)
      let buf1 := buf ++ r.1
      if buf1.length < size then
        if r.2.eof then some (-1, buf1, r.2)
        else if r.2.err then some (-1, buf1, r.2)
        else read_all_loop fuel r.2 buf1 size
      else read_all_loop fuel r.2 buf1 size
    else some (0, buf, stream)

/-- `read_all(stream, buffer, size)`: the return value, the buffer contents and the
stream. A short `fread` sets an indicator and ends the loop, so `size + 1` passes
suffice (`read_all_loop_fuel`). -/
def read_all (stream : FILE) (size : Nat) : Int × List Byte × FILE :=
  (read_all_loop (size + 1) stream [] size).getD (-1, [], stream)

/-- `write_uint32_le(stream, value)`. -/
def write_uint32_le (stream : FILE) (value : Nat) : Int × FILE :=
  let bytes : List Byte :=
    [ toByte (value &&& BYTE_MASK),
      toByte ((value >>> BYTE_SHIFT_1) &&& BYTE_MASK),
      toByte ((value >>> BYTE_SHIFT_2) &&& BYTE_MASK),
      toByte ((value >>> BYTE_SHIFT_3) &&& BYTE_MASK) ]
  let w := fwrite stream bytes
  (if w.1 = UINT32_NUM_BYTES then 0 else -1, w.2)

/-- `read_uint32_le(stream, outvalue)`: the return value, the value stored through
`outvalue` (`none` when nothing is stored) and the stream. -/
def read_uint32_le (stream : FILE) : Int × Option Nat × FILE :=
  let r := read_all stream UINT32_NUM_BYTES
  if r.1 ≠ 0 then (-1, none, r.2.2)
  else
    let bytes := r.2.1
    let value := (bytes.getD 0 0).val ||| ((bytes.getD 1 0).val <<< BYTE_SHIFT_1)
      ||| ((bytes.getD 2 0).val <<< BYTE_SHIFT_2)
      ||| ((bytes.getD 3 0).val <<< BYTE_SHIFT_3)
    (0, some (toU32 value), r.2.2)

/-- `send_request(to, detectData, detectSize, replaceData, replaceSize)`; the
stream `to` is named `to_` here.
A buffer argument is `none` for a NULL pointer, and the size argument that goes
with it is the length of the buffer. `communication_error()` exits with status 13. -/
def send_request (to_ : FILE) (detectData replaceData : Option (List Byte)) :
    Outcome × FILE :=
  match detectData with
  | none => (.exited EXIT_COMMERR_STATUS, to_)
  | some detect =>
    if detect.length = 0 then (.exited EXIT_COMMERR_STATUS, to_) else
    let r1 := write_uint32_le to_ PROTOCOL_PREFIX
    if r1.1 ≠ 0 then (.exited EXIT_COMMERR_STATUS, r1.2) else
    let opType : Nat :=
      match replaceData with
      | some replace => if replace.length > 0 then OP_FACE_REPLACE else OP_FACE_DETECT
      | none => OP_FACE_DETECT
    let r2 := fputc (toByte opType) r1.2
    if r2.1 = EOF then (.exited EXIT_COMMERR_STATUS, r2.2) else
    let r3 := write_uint32_le r2.2 (toU32 detect.length)
    if r3.1 ≠ 0 then (.exited EXIT_COMMERR_STATUS, r3.2) else
    let r4 := write_all r3.2 detect
    if r4.1 ≠ 0 then (.exited EXIT_COMMERR_STATUS, r4.2) else
    let replace := replaceData.getD []
    let r5 : Int × FILE :=
      if opType = OP_FACE_REPLACE then write_uint32_le r4.2 (toU32 replace.length)
      else (0, r4.2)
    if r5.1 ≠ 0 then (.exited EXIT_COMMERR_STATUS, r5.2) else
    let r6 : Int × FILE :=
      if opType = OP_FACE_REPLACE then write_all r5.2 replace else (0, r5.2)
    if r6.1 ≠ 0 then (.exited EXIT_COMMERR_STATUS, r6.2) else
    let r7 := fflush r6.2
    if r7.1 ≠ 0 then (.exited EXIT_COMMERR_STATUS, r7.2) else
    (.returned 0, r7.2)

/-- `send_protocol_error_file(sockf, msg)`; `msg` is the text of the C string. -/
def send_protocol_error_file (sockf : FILE) (msg : List Byte) : FILE :=
  let len := toU32 msg.length
  let r1 := write_uint32_le sockf PROTOCOL_PREFIX
  if r1.1 ≠ 0 then r1.2 else
  let r2 := fputc (toByte OP_ERROR_MSG) r1.2
  if r2.1 = EOF then r2.2 else
  let r3 := write_uint32_le r2.2 len
  if r3.1 ≠ 0 then r3.2 else
  let r4 := fwrite r3.2 (msg.take len)
  if r4.1 ≠ len then r4.2 else
  (fflush r4.2).2

/-! ## uqfacedetect.c -/

def invalidOpType : List Byte := cstr "invalid operation type"
def invalidMessage : List Byte := cstr "invalid message"
def imageZeroBytes : List Byte := cstr "image is 0 bytes"
def imageTooLarge : List Byte := cstr "image too large"
def invalidImage : List Byte := cstr "invalid image"
def invalidNoFaces : List Byte := cstr "no faces detected in image"

def BUFFER_SIZE : Nat := 4096

inductive ProtocolResult where
  | PROTOCOL_SUCCESS
  | PROTOCOL_ERROR
  | COMMUNICATION_ERROR
  deriving DecidableEq, Repr

open ProtocolResult

def OPENCV_SUCCESS : Int := 0
def OPENCV_INVALID_IMAGE : Int := -1
def OPENCV_NO_FACES : Int := -2

structure CmdLineParams where
  maxconnections : Nat
  maxsize : Nat
  deriving DecidableEq, Repr

/-- The counters of `SharedState`; the mutex is not a field, as a handler is
followed on its own here and locking then changes nothing. -/
structure SharedState where
  totalThreadCount : Int
  activeThreadCount : Int
  activeSocketCount : Int
  deriving DecidableEq, Repr

/-- The fields of `ClientArgs` that hold data (`clientFd` and `shared` are the
connection and the world below). -/
structure ClientArgs where
  imgSize : Nat
  params : CmdLineParams
  opType : Int
  deriving DecidableEq, Repr

/-- What the handler relies on from outside the repository: the allocator, the
file system, and the OpenCV based image analysis. -/
structure Env where
  /-- whether `malloc(n)` returns a buffer -/
  malloc_ok : Nat → Bool
  /-- whether `fdopen(fd, "r+b")` succeeds -/
  fdopen_ok : Bool
  /-- whether `fopen(imageFile, "wb")` succeeds -/
  fopen_wb_ok : Bool
  /-- number of bytes that can be written to `imageFile` -/
  disk_room : Nat
  /-- whether the counter files can be opened for writing -/
  count_files_ok : Bool
  /-- contents of `responseFile`, `none` when it cannot be opened -/
  responseFile : Option (List Byte)
  /-- `detect_and_draw_faces(filename)`, as a function of the contents of the file:
  the return value and the contents of the file afterwards -/
  detect_and_draw_faces : Option (List Byte) → Int × Option (List Byte)
  /-- `replace_faces_in_memory(filename)`, in the same way -/
  replace_faces_in_memory : Option (List Byte) → Int × Option (List Byte)

/-- The state shared by all handlers: the counters, the three counter files and
the one working image file `/tmp/imagefile.jpg`. -/
structure World where
  shared : SharedState
  totalThreadCountFile : Option Int
  activeThreadCountFile : Option Int
  activeSocketCountFile : Option Int
  imageFile : Option (List Byte)
  deriving DecidableEq, Repr

/-- One accepted connection as its handler sees it. -/
structure Conn where
  sockf : FILE
  /-- the socket is open: cleared by `fclose(sockf)` and by `close(fd)` -/
  isOpen : Bool
  /-- `shutdown(fd, SHUT_WR)` has been called -/
  shutWr : Bool
  clientArgs : ClientArgs
  deriving DecidableEq, Repr

/-- `write_count_to_file(path, count)`: the contents of the file afterwards. -/
def write_count_to_file (env : Env) (file : Option Int) (count : Int) : Option Int :=
  if env.count_files_ok then some count else file

/-- `decrement_thread_and_socket_counts(shared)`. -/
def decrement_thread_and_socket_counts (env : Env) (w : World) : World :=
  let w1 := { w with shared := { w.shared with
    activeThreadCount := w.shared.activeThreadCount - 1 } }
  let w2 := { w1 with activeThreadCountFile :=
    write_count_to_file env w1.activeThreadCountFile w1.shared.activeThreadCount }
  let w3 := { w2 with shared := { w2.shared with
    activeSocketCount := w2.shared.activeSocketCount - 1 } }
  { w3 with activeSocketCountFile :=
    write_count_to_file env w3.activeSocketCountFile w3.shared.activeSocketCount }

/-- The copy loop of `send_responsefile`; `resp` is the stream of the response
file. -/
def send_responsefile_loop : Nat → FILE → FILE → Option FILE
  | 0, _, _ => none
  | fuel + 1, resp, sockf =>
    let r := fread resp BUFFER_SIZE
    if r.1.length > 0 then send_responsefile_loop fuel r.2 (fwrite sockf r.1).2
    else some sockf

/-- `send_responsefile(sockf, fd)`. Every pass of the loop that goes on has read
at least one byte of the file, so a fuel above the length of the file is enough
(`send_responsefile_loop_fuel`). -/
def send_responsefile (env : Env) (c : Conn) : Conn :=
  match env.responseFile with
  | none => c
  | some content =>
    let resp : FILE :=
      { input := content, readFails := false, eof := false, err := false,
        output := [], room := 0, flushOk := true, bigEndian := c.sockf.bigEndian }
    let sockf1 := (send_responsefile_loop (content.length + 1) resp c.sockf).getD c.sockf
    { c with sockf := (fflush sockf1).2, shutWr := true }

/-- `handle_protocol_prefix(sockf, fd)`. -/
def handle_protocol_prefix (env : Env) (c : Conn) : ProtocolResult × Conn :=
  let r := read_uint32_le c.sockf
  if r.1 ≠ 0 then
    let s1 := send_protocol_error_file r.2.2 invalidMessage
    (COMMUNICATION_ERROR, { c with sockf := (fflush s1).2 })
  else
    let prefix_ := r.2.1.getD 0
    if prefix_ ≠ PROTOCOL_PREFIX then
      (COMMUNICATION_ERROR, send_responsefile env { c with sockf := r.2.2 })
    else (PROTOCOL_SUCCESS, { c with sockf := r.2.2 })

/-- `handle_protocol_header(sockf, args)`. -/
def handle_protocol_header (c : Conn) : ProtocolResult × Conn :=
  let g := fgetc c.sockf
  if g.1 = EOF then
    (COMMUNICATION_ERROR, { c with sockf := send_protocol_error_file g.2 invalidMessage })
  else
    let opTypeByte : Nat := (toByte g.1.toNat).val
    if opTypeByte ≠ OP_FACE_DETECT ∧ opTypeByte ≠ OP_FACE_REPLACE then
      let s1 := send_protocol_error_file g.2 invalidOpType
      (PROTOCOL_ERROR, { c with sockf := (fflush s1).2 })
    else
      let r := read_uint32_le g.2
      if r.1 ≠ 0 then
        (COMMUNICATION_ERROR,
          { c with sockf := send_protocol_error_file r.2.2 invalidMessage })
      else
        let imgSize := r.2.1.getD 0
        if imgSize = 0 then
          let s1 := send_protocol_error_file r.2.2 imageZeroBytes
          (PROTOCOL_ERROR, { c with sockf := (fflush s1).2 })
        else
          let maxImageSize := c.clientArgs.params.maxsize
          if maxImageSize ≠ 0 ∧ imgSize > maxImageSize then
            let s1 := send_protocol_error_file r.2.2 imageTooLarge
            (PROTOCOL_ERROR, { c with sockf := (fflush s1).2 })
          else
            let args1 : ClientArgs :=
              { c.clientArgs with opType := (opTypeByte : Int), imgSize := imgSize }
            (PROTOCOL_SUCCESS, { c with sockf := r.2.2, clientArgs := args1 })

/-- `save_image(filename, data, size)`: the return value and the contents of the
file afterwards. -/
def save_image (env : Env) (file : Option (List Byte)) (data : List Byte) :
    Bool × Option (List Byte) :=
  if !env.fopen_wb_ok then (false, file)
  else
    let written := min data.length env.disk_room
    (decide (written = data.length), some (data.take written))

/-- `read_and_save_image(sockf, filename, size)`: the return value, the stream and
the contents of the file afterwards. -/
def read_and_save_image (env : Env) (sockf : FILE) (file : Option (List Byte))
    (size : Nat) : Bool × FILE × Option (List Byte) :=
  if !env.malloc_ok size then (false, sockf, file)
  else
    let r := fread sockf size
    if r.1.length ≠ size then (false, r.2, file)
    else
      let sv := save_image env file r.1
      (sv.1, r.2, sv.2)

/-- `detect_and_draw_faces_mutexed(shared, filename)`. -/
def detect_and_draw_faces_mutexed (env : Env) (file : Option (List Byte)) :
    Int × Option (List Byte) :=
  env.detect_and_draw_faces file

/-- `replace_faces_mutexed(shared, filename)`. -/
def replace_faces_mutexed (env : Env) (file : Option (List Byte)) :
    Int × Option (List Byte) :=
  env.replace_faces_in_memory file

/-- `read_file_to_buffer(filename, length)`: the buffer, `none` for NULL. -/
def read_file_to_buffer (env : Env) (file : Option (List Byte)) : Option (List Byte) :=
  match file with
  | none => none
  | some content => if env.malloc_ok content.length then some content else none

/-- `send_protocol_image(sockf, size, data)` with `size = data.length`. The prefix
and the size are written from their object representation in memory. -/
def send_protocol_image (sockf : FILE) (data : List Byte) : Bool × FILE :=
  let prefix_ := PROTOCOL_PREFIX
  let imageSize := toU32 data.length
  let opType := toByte OP_OUTPUT_IMAGE
  let r1 := fwrite sockf (uint32_to_mem sockf.bigEndian prefix_)
  if r1.1 ≠ UINT32_NUM_BYTES then (false, r1.2) else
  let r2 := fputc opType r1.2
  if r2.1 = EOF then (false, r2.2) else
  let r3 := fwrite r2.2 (uint32_to_mem sockf.bigEndian imageSize)
  if r3.1 ≠ UINT32_NUM_BYTES then (false, r3.2) else
  let r4 := fwrite r3.2 data
  if r4.1 ≠ data.length then (false, r4.2) else
  let r5 := fflush r4.2
  if r5.1 ≠ 0 then (false, r5.2) else
  (true, r5.2)

/-- The second half of `handle_protocol_image`, from `switch (opencvResult)` to the
end: `sockf` is the stream and `w` the world once the engine has returned
`opencvResult`. -/
def handle_protocol_image_respond (env : Env) (w : World) (c : Conn) (sockf : FILE)
    (opencvResult : Int) : ProtocolResult × World × Conn :=
  if opencvResult = OPENCV_INVALID_IMAGE then
    let s1 := send_protocol_error_file sockf invalidImage
    (PROTOCOL_ERROR, w, { c with sockf := (fflush s1).2 })
  else if opencvResult = OPENCV_NO_FACES then
    let s1 := send_protocol_error_file sockf invalidNoFaces
    (PROTOCOL_ERROR, w, { c with sockf := (fflush s1).2 })
  else if opencvResult = OPENCV_SUCCESS then
    match read_file_to_buffer env w.imageFile with
    | none => (COMMUNICATION_ERROR, w, { c with sockf := sockf })
    | some outBuf =>
      let r := send_protocol_image sockf outBuf
      if !r.1 then (COMMUNICATION_ERROR, w, { c with sockf := r.2 })
      else (PROTOCOL_SUCCESS, w, { c with sockf := r.2 })
  else
    let s1 := send_protocol_error_file sockf invalidImage
    (PROTOCOL_ERROR, w, { c with sockf := (fflush s1).2 })

/-- `handle_protocol_image(sockf, args)`: the first half reads the request body and
runs the engine, the second half is `handle_protocol_image_respond`. -/
def handle_protocol_image (env : Env) (w : World) (c : Conn) :
    ProtocolResult × World × Conn :=
  let r1 := read_and_save_image env c.sockf w.imageFile c.clientArgs.imgSize
  if !r1.1 then
    (COMMUNICATION_ERROR, { w with imageFile := r1.2.2 }, { c with sockf := r1.2.1 })
  else if c.clientArgs.opType = (OP_FACE_REPLACE : Int) then
    let rs := read_uint32_le r1.2.1
    if rs.1 ≠ 0 then
      (COMMUNICATION_ERROR, { w with imageFile := r1.2.2 }, { c with sockf := rs.2.2 })
    else
      let faceSize := rs.2.1.getD 0
      -- the face image is saved to the same file, overwriting the first image
      let r2 := read_and_save_image env rs.2.2 r1.2.2 faceSize
      if !r2.1 then
        (COMMUNICATION_ERROR, { w with imageFile := r2.2.2 }, { c with sockf := r2.2.1 })
      else
        let e := replace_faces_mutexed env r2.2.2
        handle_protocol_image_respond env { w with imageFile := e.2 } c r2.2.1 e.1
  else
    let e := detect_and_draw_faces_mutexed env r1.2.2
    handle_protocol_image_respond env { w with imageFile := e.2 } c r1.2.1 e.1

/-- The outcome of one pass of the `while (true)` loop of `client_handler`:
whether the loop goes on (`continue`, or the end of the body) or is left
(`break`), with the state afterwards. -/
def client_handler_pass (env : Env) (w : World) (c : Conn) : Bool × World × Conn :=
  let p := handle_protocol_prefix env c
  if p.1 = COMMUNICATION_ERROR then (false, w, p.2)
  else if p.1 = PROTOCOL_ERROR then (true, w, p.2)
  else
    let h := handle_protocol_header p.2
    if h.1 = COMMUNICATION_ERROR then (false, w, h.2)
    else if h.1 = PROTOCOL_ERROR then (true, w, h.2)
    else
      let i := handle_protocol_image env w h.2
      if i.1 = COMMUNICATION_ERROR then (false, i.2.1, i.2.2)
      else if i.1 = PROTOCOL_SUCCESS then (true, i.2.1, i.2.2)
      else (true, i.2.1, i.2.2)

/-- The `while (true)` loop of `client_handler`: the state when the loop is left,
`none` when the fuel runs out. -/
def client_handler_loop (env : Env) : Nat → World → Conn → Option (World × Conn)
  | 0, _, _ => none
  | fuel + 1, w, c =>
    let r := client_handler_pass env w c
    if r.1 then client_handler_loop env fuel r.2.1 r.2.2
    else some r.2

/-- The start of `client_handler` once `fdopen` has succeeded: the two counters are
incremented and mirrored to their files. -/
def client_handler_start (env : Env) (w : World) : World :=
  let w1 := { w with shared := { w.shared with
    totalThreadCount := w.shared.totalThreadCount + 1,
    activeThreadCount := w.shared.activeThreadCount + 1 } }
  let w2 := { w1 with totalThreadCountFile :=
    write_count_to_file env w1.totalThreadCountFile w1.shared.totalThreadCount }
  { w2 with activeThreadCountFile :=
    write_count_to_file env w2.activeThreadCountFile w2.shared.activeThreadCount }

/-- `client_handler(args)`: the world and the connection when the handler returns.
In the simple stream model a pass that goes on has consumed at least five bytes of
the input (`client_handler_pass_consumes`), so `input.length + 1` passes are enough
for the loop to end (`client_handler_loop_terminates`). -/
def client_handler (env : Env) (w : World) (c : Conn) : Option (World × Conn) :=
  if !env.fdopen_ok then some (w, { c with isOpen := false })
  else
    match client_handler_loop env (c.sockf.input.length + 1) (client_handler_start env w) c with
    | none => none
    | some (w3, c3) =>
      some (decrement_thread_and_socket_counts env w3, { c3 with isOpen := false })

/-! ## Vocabulary for the statements -/

/-- The 4-byte unsigned little-endian encoding of a value, least significant
byte first: the encoding of every numeric field on the wire. -/
def le32 (v : Nat) : List Byte :=
  [toByte v, toByte (v / 2 ^ 8), toByte (v / 2 ^ 16), toByte (v / 2 ^ 24)]

/-- The segments of a frame on the wire: each one is its length as `le32`
followed by its bytes. -/
def wire_segments : List (List Byte) → List Byte
  | [] => []
  | seg :: rest => le32 seg.length ++ seg ++ wire_segments rest

/-- A frame on the wire: the prefix `0x23107231` as `le32`, the opcode byte, the
segments. -/
def wire_frame (opcode : Nat) (segments : List (List Byte)) : List Byte :=
  le32 0x23107231 ++ [toByte opcode] ++ wire_segments segments

/-- The stream after `n` bytes have been read from it. -/
def FILE.consume (s : FILE) (n : Nat) : FILE := { s with input := s.input.drop n }

/-- The stream after the end of its input has been hit by a read. -/
def FILE.hitEnd (s : FILE) : FILE :=
  { s with input := [], eof := s.eof || !s.readFails, err := s.err || s.readFails }

/-- The stream after `bytes` have been written to it in full. -/
def FILE.emit (s : FILE) (bytes : List Byte) : FILE :=
  { s with output := s.output ++ bytes, room := s.room - bytes.length }

/-- The bytes written to a stream between the state `before` and the state
`after`. -/
def written (before after : FILE) : List Byte := after.output.drop before.output.length

/-- A stream on a little-endian host with the given input and room and nothing
written yet; used for concrete instances. -/
def stream_of (input : List Byte) (room : Nat) : FILE :=
  { input := input, readFails := false, eof := false, err := false, output := [],
    room := room, flushOk := true, bigEndian := false }

/-- The request on the wire for a detect image and an optional replacement image:
a detect frame with one segment, or a replace frame with the target image first
and the replacement image second. -/
def wire_request (d : List Byte) (r : Option (List Byte)) : List Byte :=
  match r with
  | none => wire_frame 0 [d]
  | some x => wire_frame 1 [d, x]

/-- The connection with its stream replaced. -/
def Conn.setSockf (c : Conn) (s : FILE) : Conn := { c with sockf := s }

/-- The connection after a header with the given opcode and size was accepted. -/
def Conn.setHeader (c : Conn) (opType : Int) (imgSize : Nat) : Conn :=
  { c with clientArgs := { c.clientArgs with opType := opType, imgSize := imgSize } }

/-- The connection after `fclose(sockf)`. -/
def Conn.close (c : Conn) : Conn := { c with isOpen := false }

/-- An open connection whose peer has sent `input` and accepts `room` bytes, with
the given `maxsize`; used for concrete instances. -/
def conn_of (input : List Byte) (room : Nat) (maxsize : Nat) : Conn :=
  { sockf := stream_of input room, isOpen := true, shutWr := false,
    clientArgs := { imgSize := 0, params := { maxconnections := 1, maxsize := maxsize },
                    opType := 0 } }

/-- A world with all counters at zero and no image file yet; used for concrete
instances. -/
def world_zero : World :=
  { shared := { totalThreadCount := 0, activeThreadCount := 0, activeSocketCount := 0 },
    totalThreadCountFile := some 0, activeThreadCountFile := some 0,
    activeSocketCountFile := some 0, imageFile := none }

/-- An environment in which allocation and file access succeed, used for concrete
instances. Its stand-in for the image analysis finds the image invalid when the
file is missing or starts with the byte 0, finds no face when it starts with the
byte 1, and otherwise succeeds and writes the bytes of the file in reverse order. -/
def env_example : Env :=
  let engine : Option (List Byte) → Int × Option (List Byte) := fun file =>
    match file with
    | none => (-1, none)
    | some [] => (-1, some [])
    | some (b :: rest) =>
      if b.val = 0 then (-1, some (b :: rest))
      else if b.val = 1 then (-2, some (b :: rest))
      else (0, some (b :: rest).reverse)
  { malloc_ok := fun _ => true, fdopen_ok := true, fopen_wb_ok := true, disk_room := 4096,
    count_files_ok := true, responseFile := some (cstr "HTTP/1.1 400 Bad Request"),
    detect_and_draw_faces := engine, replace_faces_in_memory := engine }

/-- The world with the contents of the working image file replaced. -/
def World.setImageFile (w : World) (file : Option (List Byte)) : World :=
  { w with imageFile := file }

/-- The bytes of an output-image response as `send_protocol_image` lays them out on
a host of the given byte order: the prefix and the length are the object
representations of the two `uint32_t` variables. -/
def host_image_frame (bigEndian : Bool) (data : List Byte) : List Byte :=
  uint32_to_mem bigEndian 0x23107231 ++ [2] ++ uint32_to_mem bigEndian data.length ++ data

/-- A connection on which the header of a replace request with a target image of
`size` bytes has been accepted and whose input holds the rest of the request: the
target image `t`, then the length and the bytes of the replacement image `r`; used
for concrete instances. -/
def replace_body_conn (t r : List Byte) (room : Nat) : Conn :=
  (conn_of (t ++ (le32 r.length ++ r)) room 10).setHeader 1 t.length

/-! ## The client side: `receive_request` (protocol.c) -/

/-- The format `serverErrorMessage` up to its `%s`. -/
def serverErrorMessage_head : List Byte :=
  cstr "uqfaceclient: received the following error message: \""

/-- The format `serverErrorMessage` after its `%s`. -/
def serverErrorMessage_tail : List Byte := cstr "\"\n"

def communicationErrorMessage : List Byte :=
  cstr "uqfaceclient: a communication error occurred\n"

/-- What `receive_request` works on: the stream `from`, the stream `outputFile`
and what the process has printed to `stderr`. -/
structure Client where
  from_ : FILE
  outputFile : FILE
  stderr : List Byte
  deriving DecidableEq, Repr

/-- What the client process leaves to its C library. -/
structure ClientEnv where
  /-- whether `malloc(n)` returns a buffer -/
  malloc_ok : Nat → Bool
  /-- the bytes that lie in memory behind the buffer `malloc` returned -/
  after_buffer : List Byte

/-- `communication_error()`: prints `communicationErrorMessage` to `stderr` and exits
with status 13. -/
def communication_error (st : Client) : Outcome × Client :=
  (.exited EXIT_COMMERR_STATUS, { st with stderr := st.stderr ++ communicationErrorMessage })

/-- What the conversion `%s` of `fprintf` prints for a pointer to `mem`: the bytes up
to the first NUL byte. -/
def c_string (mem : List Byte) : List Byte := mem.takeWhile (fun b => b.val ≠ 0)

/-- `receive_request(from, outputFile)` with both streams non-NULL. -/
def receive_request (env : ClientEnv) (st : Client) : Outcome × Client :=
  let r1 := read_uint32_le st.from_
  let st1 : Client := { st with from_ := r1.2.2 }
  if r1.1 ≠ 0 ∨ r1.2.1.getD 0 ≠ PROTOCOL_PREFIX then communication_error st1 else
  let g := fgetc st1.from_
  let st2 : Client := { st1 with from_ := g.2 }
  if g.1 = EOF then communication_error st2 else
  let opType : Nat := (toByte g.1.toNat).val
  let r3 := read_uint32_le st2.from_
  let st3 : Client := { st2 with from_ := r3.2.2 }
  if r3.1 ≠ 0 then communication_error st3 else
  let dataSize := r3.2.1.getD 0
  if dataSize = 0 then communication_error st3 else
  if env.malloc_ok dataSize = false then communication_error st3 else
  let r4 := read_all st3.from_ dataSize
  let st4 : Client := { st3 with from_ := r4.2.2 }
  if r4.1 ≠ 0 then communication_error st4 else
  let buffer := r4.2.1
  if opType = OP_OUTPUT_IMAGE then
    let r5 := write_all st4.outputFile buffer
    let st5 : Client := { st4 with outputFile := r5.2 }
    if r5.1 ≠ 0 then communication_error st5 else
    let r6 := fflush st5.outputFile
    let st6 : Client := { st5 with outputFile := r6.2 }
    if r6.1 ≠ 0 then communication_error st6 else
    (.returned 0, st6)
  else if opType = OP_ERROR_MSG then
    (.exited EXIT_ERRMESSAGE_STATUS,
      { st4 with stderr := st4.stderr ++ (serverErrorMessage_head
          ++ c_string (buffer ++ env.after_buffer) ++ serverErrorMessage_tail) })
  else communication_error st4

/-- A client that reads `input` on a little-endian host, with an output stream of
the given room and nothing printed yet; used for concrete instances. -/
def client_of (input : List Byte) (room : Nat) : Client :=
  { from_ := stream_of input 0, outputFile := stream_of [] room, stderr := [] }

/-- A client C library whose `malloc` succeeds and that has the bytes `after` behind
the buffer. -/
def client_env (after : List Byte) : ClientEnv :=
  { malloc_ok := fun _ => true, after_buffer := after }

/-- The client after `receive_request` has read `n` bytes and written `bytes` to the
output stream. -/
def Client.advance (st : Client) (n : Nat) (bytes : List Byte) : Client :=
  { st with from_ := st.from_.consume n, outputFile := st.outputFile.emit bytes }

/-- The stream `s` when the process that owns it runs on a big-endian host. -/
def FILE.onBigEndianHost (s : FILE) : FILE := { s with bigEndian := true }

/-! ## The accept loop of `start_server` and the connections of the server -/

/-- What one pass of the accept loop of `start_server` relies on from outside the
repository. -/
structure AcceptEnv where
  /-- whether `malloc(sizeof(ClientArgs))` returns a buffer -/
  malloc_ok : Bool
  /-- whether `pthread_create` starts the handler thread -/
  pthread_create_ok : Bool
  deriving DecidableEq, Repr

/-- The world `main` hands to `start_server`: the three counters are 0 and 0 has
been written to the three counter files; `w0` is the file system before. -/
def main_init (env : Env) (w0 : World) : World :=
  { shared := { totalThreadCount := 0, activeThreadCount := 0, activeSocketCount := 0 },
    totalThreadCountFile := write_count_to_file env w0.totalThreadCountFile 0,
    activeThreadCountFile := write_count_to_file env w0.activeThreadCountFile 0,
    activeSocketCountFile := write_count_to_file env w0.activeSocketCountFile 0,
    imageFile := w0.imageFile }

/-- The locked section of a pass of the accept loop: `activeSocketCount` is
incremented and mirrored to its file. -/
def start_server_count (env : Env) (w : World) : World :=
  let w1 := { w with shared := { w.shared with
    activeSocketCount := w.shared.activeSocketCount + 1 } }
  { w1 with activeSocketCountFile :=
    write_count_to_file env w1.activeSocketCountFile w1.shared.activeSocketCount }

/-- One pass of the `while (1)` loop of `start_server`; `accepted` is what `accept`
returned, `none` for a negative descriptor. The result is the world, the connection
and whether a handler thread has been started for it. -/
def start_server_pass (env : Env) (a : AcceptEnv) (params : CmdLineParams) (w : World)
    (accepted : Option Conn) : World × Option Conn × Bool :=
  match accepted with
  | none => (w, none, false)
  | some c =>
    let w1 := start_server_count env w
    if !a.malloc_ok then (w1, some c.close, false)
    else
      let c1 : Conn := { c with clientArgs := { c.clientArgs with params := params } }
      if !a.pthread_create_ok then (w1, some c1.close, false)
      else (w1, some c1, true)

/-- An accepted connection from the pass of the accept loop that takes it to the
return of its handler, when nothing else runs in between. -/
def connection_life (env : Env) (a : AcceptEnv) (params : CmdLineParams) (w : World)
    (c : Conn) : Option (World × Conn) :=
  let r := start_server_pass env a params w (some c)
  if r.2.2 then client_handler env r.1 (r.2.1.getD c) else some (r.1, r.2.1.getD c)

/-- The environment `env_example` with a failing `fdopen`. -/
def env_fdopen_fails : Env := { env_example with fdopen_ok := false }

/-- An accept pass in which `malloc` and `pthread_create` succeed. -/
def accept_ok : AcceptEnv := { malloc_ok := true, pthread_create_ok := true }

/-- The accepted connections of a running server, counted by where they stand, and
the world the threads share. Between the steps below the counters do not change:
`start_server` and `client_handler` touch them only inside their three locked
sections, and no step holds more than one of those. -/
structure Server where
  w : World
  /-- connections for which a handler thread was created and is not past `fdopen` -/
  spawned : Nat
  /-- connections whose handler is between its start section and its `fclose` -/
  running : Nat
  /-- connections whose handler has called `fclose` and has not yet entered
  `decrement_thread_and_socket_counts` -/
  closing : Nat
  /-- connections whose handler has left through `decrement_thread_and_socket_counts` -/
  ended : Nat
  /-- connections closed on another way out: `malloc` or `pthread_create` failed in
  `start_server`, or `fdopen` failed in `client_handler` -/
  dropped : Nat
  deriving DecidableEq, Repr

/-- The steps that `start_server` and the handler threads take, in any order. -/
inductive ServerStep where
  /-- a pass of the accept loop in which `accept` returned the connection `c` -/
  | accept (a : AcceptEnv) (params : CmdLineParams) (c : Conn)
  /-- `client_handler` from its entry to the end of its start section -/
  | handler_start
  /-- a pass of the request loop of a handler on its connection `c` -/
  | handler_pass (c : Conn)
  /-- `fclose(sockf)` behind the request loop of a handler -/
  | handler_close
  /-- `client_handler` from `decrement_thread_and_socket_counts` to its return -/
  | handler_exit

/-- One step of the server; `none` when no thread is at the point where the step
starts. -/
def Server.step (env : Env) (s : Server) : ServerStep → Option Server
  | .accept a params c =>
    let r := start_server_pass env a params s.w (some c)
    if r.2.2 then some { s with w := r.1, spawned := s.spawned + 1 }
    else some { s with w := r.1, dropped := s.dropped + 1 }
  | .handler_start =>
    if s.spawned = 0 then none
    else if !env.fdopen_ok then
      some { s with spawned := s.spawned - 1, dropped := s.dropped + 1 }
    else
      some { s with w := client_handler_start env s.w, spawned := s.spawned - 1,
                    running := s.running + 1 }
  | .handler_pass c =>
    if s.running = 0 then none
    else some { s with w := (client_handler_pass env s.w c).2.1 }
  | .handler_close =>
    if s.running = 0 then none
    else some { s with running := s.running - 1, closing := s.closing + 1 }
  | .handler_exit =>
    if s.closing = 0 then none
    else
      some { s with w := decrement_thread_and_socket_counts env s.w,
                    closing := s.closing - 1, ended := s.ended + 1 }

/-- A run of the server: the steps in the order in which they are taken, each with
the environment it meets. -/
def Server.run : List (Env × ServerStep) → Server → Option Server
  | [], s => some s
  | (env, st) :: rest, s =>
    match s.step env st with
    | none => none
    | some s1 => Server.run rest s1

/-- The server when `main` calls `start_server`. -/
def Server.start (env : Env) (w0 : World) : Server :=
  { w := main_init env w0, spawned := 0, running := 0, closing := 0, ended := 0,
    dropped := 0 }

/-- The number of accepted connections that are open: those whose handler has not
closed them yet. -/
def Server.open_connections (s : Server) : Nat := s.spawned + s.running

/-- What the three counters count: `activeSocketCount` the connections that were
accepted and have not left through `decrement_thread_and_socket_counts`,
`activeThreadCount` the handlers between their start section and their exit
section, and `totalThreadCount` the handlers that started. -/
def Server.counts_ok (s : Server) : Prop :=
  s.w.shared.activeSocketCount = (s.spawned + s.running + s.closing + s.dropped : Nat)
  ∧ s.w.shared.activeThreadCount = (s.running + s.closing : Nat)
  ∧ s.w.shared.totalThreadCount = (s.running + s.closing + s.ended : Nat)

/-! ## The locked sections, statement by statement -/

/-- The statements that occur in the sections of `start_server`, `client_handler`,
`decrement_thread_and_socket_counts` and the two engine wrappers that lock
`shared->fileAndCascadeMutex`. A `write_` statement is the call
`write_count_to_file(file, shared->counter)` for that counter; the call of an
engine function is split into its entry and its return. -/
inductive Op where
  | lock
  | unlock
  | inc_activeSocketCount
  | dec_activeSocketCount
  | inc_totalThreadCount
  | inc_activeThreadCount
  | dec_activeThreadCount
  | write_totalThreadCount
  | write_activeThreadCount
  | write_activeSocketCount
  | enter_engine (replace : Bool)
  | leave_engine (replace : Bool)
  deriving DecidableEq, Repr

/-- The locked section of a pass of the accept loop of `start_server`. -/
def start_server_count_ops : List Op :=
  [.lock, .inc_activeSocketCount, .write_activeSocketCount, .unlock]

/-- The start section of `client_handler`. -/
def client_handler_start_ops : List Op :=
  [.lock, .inc_totalThreadCount, .inc_activeThreadCount, .write_totalThreadCount,
    .write_activeThreadCount, .unlock]

/-- The body of `decrement_thread_and_socket_counts`. -/
def decrement_thread_and_socket_counts_ops : List Op :=
  [.lock, .dec_activeThreadCount, .write_activeThreadCount, .dec_activeSocketCount,
    .write_activeSocketCount, .unlock]

/-- The body of `detect_and_draw_faces_mutexed`. -/
def detect_and_draw_faces_mutexed_ops : List Op :=
  [.lock, .enter_engine false, .leave_engine false, .unlock]

/-- The body of `replace_faces_mutexed`. -/
def replace_faces_mutexed_ops : List Op :=
  [.lock, .enter_engine true, .leave_engine true, .unlock]

/-- The world with the counters replaced. -/
def World.setShared (w : World) (sh : SharedState) : World := { w with shared := sh }

/-- What a statement does to the world; the mutex is kept by `Machine` below. The
engine has done its work on the image file when it returns. -/
def Op.exec (env : Env) (w : World) : Op → World
  | .lock => w
  | .unlock => w
  | .inc_activeSocketCount =>
    w.setShared { w.shared with activeSocketCount := w.shared.activeSocketCount + 1 }
  | .dec_activeSocketCount =>
    w.setShared { w.shared with activeSocketCount := w.shared.activeSocketCount - 1 }
  | .inc_totalThreadCount =>
    w.setShared { w.shared with totalThreadCount := w.shared.totalThreadCount + 1 }
  | .inc_activeThreadCount =>
    w.setShared { w.shared with activeThreadCount := w.shared.activeThreadCount + 1 }
  | .dec_activeThreadCount =>
    w.setShared { w.shared with activeThreadCount := w.shared.activeThreadCount - 1 }
  | .write_totalThreadCount =>
    { w with totalThreadCountFile :=
      write_count_to_file env w.totalThreadCountFile w.shared.totalThreadCount }
  | .write_activeThreadCount =>
    { w with activeThreadCountFile :=
      write_count_to_file env w.activeThreadCountFile w.shared.activeThreadCount }
  | .write_activeSocketCount =>
    { w with activeSocketCountFile :=
      write_count_to_file env w.activeSocketCountFile w.shared.activeSocketCount }
  | .enter_engine _ => w
  | .leave_engine replace =>
    if replace then w.setImageFile (replace_faces_mutexed env w.imageFile).2
    else w.setImageFile (detect_and_draw_faces_mutexed env w.imageFile).2

/-- The statements of a list, one after the other, by one thread on its own. -/
def exec_ops (env : Env) (w : World) (ops : List Op) : World :=
  ops.foldl (Op.exec env) w

/-- Whether a list of statements uses the mutex properly, for a thread that holds
the mutex or not (`held`) and is inside an engine function or not (`inside`): it
locks only when it does not hold the mutex, unlocks only when it holds it, executes
every other statement while it holds it, enters and leaves the engine in turn, and
stops outside the engine without the mutex. -/
def guarded : Bool → Bool → List Op → Bool
  | held, inside, [] => !held && !inside
  | held, inside, .lock :: rest => !held && !inside && guarded true false rest
  | held, inside, .unlock :: rest => held && !inside && guarded false false rest
  | held, inside, .enter_engine _ :: rest => held && !inside && guarded true true rest
  | held, inside, .leave_engine _ :: rest => held && inside && guarded true false rest
  | held, inside, _ :: rest => held && !inside && guarded held false rest

/-- The mirrored values agree with the counters. -/
def mirrors_agree (w : World) : Prop :=
  w.totalThreadCountFile = some w.shared.totalThreadCount
  ∧ w.activeThreadCountFile = some w.shared.activeThreadCount
  ∧ w.activeSocketCountFile = some w.shared.activeSocketCount

/-! ## Threads that share the mutex -/

/-- A thread of the server: the statements it still has to execute and whether it
is inside an engine function. -/
structure Thread where
  todo : List Op
  inside : Bool
  deriving DecidableEq, Repr

/-- The threads of the server with the world they share and the mutex: `mutex` is
the index of the thread that holds `fileAndCascadeMutex`, `none` when it is free. -/
structure Machine where
  w : World
  mutex : Option Nat
  threads : List Thread
  deriving DecidableEq, Repr

/-- The holder of the mutex after thread `i` has executed a statement. -/
def Op.mutex_after (i : Nat) (mutex : Option Nat) : Op → Option Nat
  | .lock => some i
  | .unlock => none
  | _ => mutex

/-- Whether a thread is inside an engine function after a statement. -/
def Op.inside_after (inside : Bool) : Op → Bool
  | .enter_engine _ => true
  | .leave_engine _ => false
  | _ => inside

/-- Thread `i` executes its next statement; `none` when there is no such thread,
when it has finished, or when it is blocked: `pthread_mutex_lock` goes through only
while the mutex is free. -/
def Machine.step (env : Env) (m : Machine) (i : Nat) : Option Machine :=
  match m.threads[i]? with
  | none => none
  | some t =>
    match t.todo with
    | [] => none
    | op :: rest =>
      if op = .lock ∧ m.mutex.isSome then none
      else
        some ⟨op.exec env m.w, op.mutex_after i m.mutex,
          m.threads.set i ⟨rest, op.inside_after t.inside⟩⟩

/-- A run of the machine under a schedule, the list of the threads that take the
steps. -/
def Machine.run (env : Env) : List Nat → Machine → Option Machine
  | [], m => some m
  | i :: rest, m =>
    match m.step env i with
    | none => none
    | some m1 => Machine.run env rest m1

/-- The machine before any thread has taken a step. -/
def Machine.init (w : World) (programs : List (List Op)) : Machine :=
  ⟨w, none, programs.map (fun p => ⟨p, false⟩)⟩

/-- The engine calls of the request passes of a handler, `true` for a replace
request: each is the body of its `_mutexed` wrapper. -/
def engine_ops : List Bool → List Op
  | [] => []
  | replace :: rest =>
    (if replace then replace_faces_mutexed_ops else detect_and_draw_faces_mutexed_ops)
      ++ engine_ops rest

/-- The locked sections that `client_handler` executes, in order: its start section,
the engine calls of its request passes, and `decrement_thread_and_socket_counts`. -/
def handler_ops (calls : List Bool) : List Op :=
  client_handler_start_ops ++ (engine_ops calls ++ decrement_thread_and_socket_counts_ops)

/-- The locked sections of `n` passes of the accept loop of `start_server`. -/
def start_server_ops : Nat → List Op
  | 0 => []
  | n + 1 => start_server_count_ops ++ start_server_ops n

/-- Every thread uses the mutex properly from where it stands, and the mutex is
held by the thread that has locked it. -/
def Machine.inv (m : Machine) : Prop :=
  ∀ (i : Nat) (t : Thread), m.threads[i]? = some t →
    guarded (decide (m.mutex = some i)) t.inside t.todo = true

/-! ## `validate_prefix` (protocol.c) -/

/-- The value of a `uint32_t` whose four bytes in the memory of a host are `mem`:
what `fread(&v, 1, 4, s)` leaves in `v`. -/
def uint32_of_mem (bigEndian : Bool) (mem : List Byte) : Nat :=
  let le := if bigEndian then mem.reverse else mem
  (le.getD 0 0).val + 2 ^ 8 * (le.getD 1 0).val + 2 ^ 16 * (le.getD 2 0).val
    + 2 ^ 24 * (le.getD 3 0).val

/-- `validate_prefix(from)`: the return value and the stream. -/
def validate_prefix (from_ : FILE) : Int × FILE :=
  let r := fread from_ 4
  if r.1.length ≠ 4 then (-2, r.2)
  else if uint32_of_mem from_.bigEndian r.1 ≠ PROTOCOL_PREFIX then (-1, r.2)
  else (0, r.2)

/-! ## A stream that delivers its bytes in pieces -/

/-- A stream for reading whose bytes arrive in pieces: a read returns at most what
the next piece holds, without an indicator; the indicators are set by the read that
finds no piece left. (`FILE` above is the case of one piece.) -/
structure ChunkedFILE where
  /-- the pieces that can still be read before the stream ends -/
  chunks : List (List Byte)
  /-- whether the end of the pieces is a read error rather than end-of-file -/
  readFails : Bool
  /-- end-of-file indicator, tested by `feof` -/
  eof : Bool
  /-- error indicator, tested by `ferror` -/
  err : Bool
  deriving DecidableEq, Repr

/-- The bytes of a list of pieces, in order. -/
def all_bytes : List (List Byte) → List Byte
  | [] => []
  | c :: rest => c ++ all_bytes rest

/-- `fread(buf, 1, n, s)` on a stream in pieces: a partial read. -/
def fread_chunked (s : ChunkedFILE) (n : Nat) : List Byte × ChunkedFILE :=
  match s.chunks with
  | [] => ([], { s with eof := s.eof || !s.readFails, err := s.err || s.readFails })
  | c :: rest =>
    if c.length ≤ n then (c, { s with chunks := rest })
    else (c.take n, { s with chunks := c.drop n :: rest })

/-- The loop of `read_all` on a stream in pieces, statement by statement as
`read_all_loop`. -/
def read_all_chunked_loop :
    Nat → ChunkedFILE → List Byte → Nat → Option (Int × List Byte × ChunkedFILE)
  | 0, _, _, _ => none
  | fuel + 1, stream, buf, size =>
    if buf.length < size then
      let r := fread_chunked stream (size - buf.length)
      let buf1 := buf ++ r.1
      if buf1.length < size then
        if r.2.eof then some (-1, buf1, r.2)
        else if r.2.err then some (-1, buf1, r.2)
        else read_all_chunked_loop fuel r.2 buf1 size
      else read_all_chunked_loop fuel r.2 buf1 size
    else some (0, buf, stream)

/-- `read_all(stream, buffer, size)` on a stream in pieces. A pass of the loop that
goes on has taken a byte or a piece from the stream, so `size` plus the number of
pieces plus one passes suffice (`read_all_chunked_loop_spec`). -/
def read_all_chunked (stream : ChunkedFILE) (size : Nat) : Int × List Byte × ChunkedFILE :=
  (read_all_chunked_loop (size + stream.chunks.length + 1) stream [] size).getD
    (-1, [], stream)

/-- The stream of one piece that a `FILE` is. -/
def ChunkedFILE.ofFILE (s : FILE) : ChunkedFILE :=
  { chunks := [s.input], readFails := s.readFails, eof := s.eof, err := s.err }

/-! ## The command line of the server: `is_number` and `valid_range` -/

/-- `isdigit(c)` in the C locale. -/
def isdigit (c : Byte) : Bool := decide (48 ≤ c.val ∧ c.val ≤ 57)

/-- `strcmp(a, b)` on the texts of two C strings: the difference of the first bytes
that differ, the end of a string counting as the byte 0. -/
def strcmp : List Byte → List Byte → Int
  | [], [] => 0
  | [], b :: _ => -(b.val : Int)
  | a :: _, [] => (a.val : Int)
  | a :: as, b :: bs => if a = b then strcmp as bs else (a.val : Int) - (b.val : Int)

/-- `is_number(str)` for a non-NULL `str`, given by its text. -/
def is_number (str : List Byte) : Bool :=
  match str with
  | [] => false
  | c :: rest =>
    if c.val = 43 then
      if rest = [] then false else rest.all isdigit
    else (c :: rest).all isdigit

/-- `valid_range(str, maxValue)`. -/
def valid_range (str maxValue : List Byte) : Bool :=
  let strLength := str.length
  let maxLength := maxValue.length
  if strLength < maxLength then true
  else if strLength > maxLength then false
  else decide (strcmp str maxValue ≤ 0)

def maxConnections : List Byte := cstr "10000"
def maxSize : List Byte := cstr "4294967295"

/-- The number that a string of decimal digits represents behind the digits read so
far, whose number is `acc`. -/
def decimal_value_from (acc : Nat) : List Byte → Nat
  | [] => acc
  | c :: rest => decimal_value_from (10 * acc + (c.val - 48)) rest

/-- The number that a string of decimal digits represents. -/
def decimal_value (str : List Byte) : Nat := decimal_value_from 0 str

/-- Whether a string consists of decimal digits. -/
def all_digits (str : List Byte) : Bool := str.all isdigit

/-! ## The socket stream of the server, with its stdio buffer

`client_handler` opens one stream on the socket with `fdopen(fd, "r+b")` and reads
and writes through it with no positioning call in between. What such a stream does
depends on its buffer, which `FILE` above leaves out: `Sock.FILE` keeps it, and the
functions of the handler are given again over it. A function that can fail to
return gives `none` in that case.

The stream is that of the GNU C library. A read fills the buffer with what one
`read` on the socket returns, so bytes that arrived together with the ones asked for
stay in the buffer. The first write after a read gives up those unread bytes and
notes that the file position has to be moved back over them before the buffer is
written out; on a socket that `lseek` fails, so the flush fails, with nothing written
and no indicator set, and it fails again whenever it is tried: by `fflush`, and by
every later read, which has to flush first and then returns nothing. With no unread
byte in the buffer at the first write there is nothing to move back over, and the
response is written out. -/

namespace Sock

/-- The stream of a connection with its stdio buffer. One buffer serves both
directions. The buffer is taken to be large enough for what is written between two
flushes and for each piece that arrives, and every read to ask for less than a
buffer: requests and responses of less than 4096 bytes. -/
structure FILE where
  /-- bytes that a `read` on the socket has put into the buffer and that no call has
  consumed yet -/
  buffered : List Byte
  /-- what the later `read` calls on the socket return, one piece a call; after the
  last piece the peer has shut down its side -/
  arriving : List (List Byte)
  /-- whether the end of the pieces is a read error rather than end-of-file -/
  readFails : Bool
  /-- end-of-file indicator, tested by `feof` -/
  eof : Bool
  /-- error indicator, tested by `ferror` -/
  err : Bool
  /-- the stream is in write mode: its last operation was a write -/
  putting : Bool
  /-- bytes written into the buffer and not flushed yet -/
  pending : List Byte
  /-- the stream went from reading to writing while unread bytes were in the buffer:
  a flush first has to move the file position back over them, and `lseek` fails on
  a socket -/
  wedged : Bool
  /-- bytes that have reached the peer, oldest first -/
  sent : List Byte
  /-- number of bytes the socket still accepts -/
  room : Nat
  /-- byte order of the host -/
  bigEndian : Bool
  deriving DecidableEq, Repr

/-- The flush of the pending bytes: whether it succeeded, and the stream. On a
wedged stream nothing is written and no indicator is set. -/
def do_flush (s : FILE) : Bool × FILE :=
  if s.pending = [] then (true, s)
  else if s.wedged then (false, s)
  else
    let n := min s.pending.length s.room
    if n < s.pending.length then
      (false, { s with sent := s.sent ++ s.pending.take n, room := s.room - n,
                       pending := s.pending.drop n, err := true })
    else (true, { s with sent := s.sent ++ s.pending, room := s.room - n, pending := [] })

/-- What a read does first on a stream in write mode: the pending bytes are
flushed; `false` when that fails, and the stream then stays in write mode. -/
def to_get_mode (s : FILE) : Bool × FILE :=
  if !s.putting then (true, s)
  else
    let r := do_flush s
    if r.1 then (true, { r.2 with putting := false }) else (false, r.2)

/-- What a write does first on a stream in read mode: the write position is set to
the read position, and the unread bytes of the buffer are given up. -/
def to_put_mode (s : FILE) : FILE :=
  if s.putting then s
  else { s with putting := true, wedged := s.wedged || decide (s.buffered ≠ []),
                buffered := [] }

/-- The bytes that a read of `n` bytes gets from the buffer and, piece by piece,
from the socket: the bytes, the buffer and the pieces afterwards, and whether the
end of the pieces was met. -/
def take_bytes : List (List Byte) → List Byte → Nat
    → List Byte × List Byte × List (List Byte) × Bool
  | [], buffered, n =>
    if n ≤ buffered.length then (buffered.take n, buffered.drop n, [], false)
    else (buffered, [], [], true)
  | piece :: rest, buffered, n =>
    if n ≤ buffered.length then (buffered.take n, buffered.drop n, piece :: rest, false)
    else
      let r := take_bytes rest piece (n - buffered.length)
      (buffered ++ r.1, r.2.1, r.2.2.1, r.2.2.2)

/-- `fread(buf, 1, n, s)`: the bytes stored and the stream afterwards. A count short
of `n` sets an indicator, except when the stream cannot leave write mode: then no
byte is read and no indicator is set. -/
def fread (s : FILE) (n : Nat) : List Byte × FILE :=
  if n = 0 then ([], s)
  else
    let g := to_get_mode s
    if !g.1 then ([], g.2)
    else
      let r := take_bytes g.2.arriving g.2.buffered n
      (r.1, { g.2 with buffered := r.2.1, arriving := r.2.2.1,
                       eof := g.2.eof || (r.2.2.2 && !g.2.readFails),
                       err := g.2.err || (r.2.2.2 && g.2.readFails) })

/-- `fgetc(s)`. -/
def fgetc (s : FILE) : Int × FILE :=
  let r := fread s 1
  match r.1 with
  | [] => (EOF, r.2)
  | b :: _ => ((b.val : Int), r.2)

/-- `fwrite(data, 1, data.length, s)`: the bytes go into the buffer. -/
def fwrite (s : FILE) (data : List Byte) : Nat × FILE :=
  if data = [] then (0, s)
  else
    let s1 := to_put_mode s
    (data.length, { s1 with pending := s1.pending ++ data })

/-- `fputc(c, s)`. -/
def fputc (c : Byte) (s : FILE) : Int × FILE :=
  let s1 := to_put_mode s
  ((c.val : Int), { s1 with pending := s1.pending ++ [c] })

/-- `fflush(s)`. -/
def fflush (s : FILE) : Int × FILE :=
  let r := do_flush s
  if r.1 then (0, r.2) else (EOF, r.2)

/-- One accepted connection as its handler sees it. -/
structure Conn where
  sockf : FILE
  isOpen : Bool
  shutWr : Bool
  clientArgs : ClientArgs
  deriving DecidableEq, Repr

/-- The loop of `read_all`; `none` when the fuel runs out. -/
def read_all_loop : Nat → FILE → List Byte → Nat → Option (Int × List Byte × FILE)
  | 0, _, _, _ => none
  | fuel + 1, stream, buf, size =>
    if buf.length < size then
      let r := fread stream (size - buf.length)
      let buf1 := buf ++ r.1
      if buf1.length < size then
        if r.2.eof then some (-1, buf1, r.2)
        else if r.2.err then some (-1, buf1, r.2)
        else read_all_loop fuel r.2 buf1 size
      else read_all_loop fuel r.2 buf1 size
    else some (0, buf, stream)

/-- `read_all(stream, buffer, size)`. A `fread` either fills the buffer, or sets an
indicator, or reads nothing and leaves the stream as it was; so the loop ends within
two passes or not at all (`sock_read_all_loop_fuel`), and `none` stands for a call
that does not return (`sock_read_all_loop_spins`). -/
def read_all (stream : FILE) (size : Nat) : Option (Int × List Byte × FILE) :=
  read_all_loop 2 stream [] size

/-- `write_uint32_le(stream, value)`. -/
def write_uint32_le (stream : FILE) (value : Nat) : Int × FILE :=
  let bytes : List Byte :=
    [ toByte (value &&& BYTE_MASK),
      toByte ((value >>> BYTE_SHIFT_1) &&& BYTE_MASK),
      toByte ((value >>> BYTE_SHIFT_2) &&& BYTE_MASK),
      toByte ((value >>> BYTE_SHIFT_3) &&& BYTE_MASK) ]
  let w := fwrite stream bytes
  (if w.1 = UINT32_NUM_BYTES then 0 else -1, w.2)

/-- `read_uint32_le(stream, outvalue)`. -/
def read_uint32_le (stream : FILE) : Option (Int × Option Nat × FILE) :=
  match read_all stream UINT32_NUM_BYTES with
  | none => none
  | some r =>
    if r.1 ≠ 0 then some (-1, none, r.2.2)
    else
      let bytes := r.2.1
      let value := (bytes.getD 0 0).val ||| ((bytes.getD 1 0).val <<< BYTE_SHIFT_1)
        ||| ((bytes.getD 2 0).val <<< BYTE_SHIFT_2)
        ||| ((bytes.getD 3 0).val <<< BYTE_SHIFT_3)
      some (0, some (toU32 value), r.2.2)

/-- `send_protocol_error_file(sockf, msg)`. -/
def send_protocol_error_file (sockf : FILE) (msg : List Byte) : FILE :=
  let len := toU32 msg.length
  let r1 := write_uint32_le sockf PROTOCOL_PREFIX
  if r1.1 ≠ 0 then r1.2 else
  let r2 := fputc (toByte OP_ERROR_MSG) r1.2
  if r2.1 = EOF then r2.2 else
  let r3 := write_uint32_le r2.2 len
  if r3.1 ≠ 0 then r3.2 else
  let r4 := fwrite r3.2 (msg.take len)
  if r4.1 ≠ len then r4.2 else
  (fflush r4.2).2

/-- The copy loop of `send_responsefile`; `resp` is the stream of the response
file. -/
def send_responsefile_loop : Nat → UQFace.FILE → FILE → Option FILE
  | 0, _, _ => none
  | fuel + 1, resp, sockf =>
    let r := UQFace.fread resp BUFFER_SIZE
    if r.1.length > 0 then send_responsefile_loop fuel r.2 (fwrite sockf r.1).2
    else some sockf

/-- `send_responsefile(sockf, fd)`. Every pass of the loop that goes on has read at
least one byte of the file, so a fuel above the length of the file is enough
(`sock_send_responsefile_loop_fuel`). -/
def send_responsefile (env : Env) (c : Conn) : Conn :=
  match env.responseFile with
  | none => c
  | some content =>
    let resp : UQFace.FILE :=
      { input := content, readFails := false, eof := false, err := false,
        output := [], room := 0, flushOk := true, bigEndian := c.sockf.bigEndian }
    let sockf1 := (send_responsefile_loop (content.length + 1) resp c.sockf).getD c.sockf
    { c with sockf := (fflush sockf1).2, shutWr := true }

/-- `handle_protocol_prefix(sockf, fd)`. -/
def handle_protocol_prefix (env : Env) (c : Conn) : Option (ProtocolResult × Conn) :=
  match read_uint32_le c.sockf with
  | none => none
  | some r =>
    if r.1 ≠ 0 then
      let s1 := send_protocol_error_file r.2.2 invalidMessage
      some (COMMUNICATION_ERROR, { c with sockf := (fflush s1).2 })
    else
      let prefix_ := r.2.1.getD 0
      if prefix_ ≠ PROTOCOL_PREFIX then
        some (COMMUNICATION_ERROR, send_responsefile env { c with sockf := r.2.2 })
      else some (PROTOCOL_SUCCESS, { c with sockf := r.2.2 })

/-- `handle_protocol_header(sockf, args)`. -/
def handle_protocol_header (c : Conn) : Option (ProtocolResult × Conn) :=
  let g := fgetc c.sockf
  if g.1 = EOF then
    some (COMMUNICATION_ERROR,
      { c with sockf := send_protocol_error_file g.2 invalidMessage })
  else
    let opTypeByte : Nat := (toByte g.1.toNat).val
    if opTypeByte ≠ OP_FACE_DETECT ∧ opTypeByte ≠ OP_FACE_REPLACE then
      let s1 := send_protocol_error_file g.2 invalidOpType
      some (PROTOCOL_ERROR, { c with sockf := (fflush s1).2 })
    else
      match read_uint32_le g.2 with
      | none => none
      | some r =>
        if r.1 ≠ 0 then
          some (COMMUNICATION_ERROR,
            { c with sockf := send_protocol_error_file r.2.2 invalidMessage })
        else
          let imgSize := r.2.1.getD 0
          if imgSize = 0 then
            let s1 := send_protocol_error_file r.2.2 imageZeroBytes
            some (PROTOCOL_ERROR, { c with sockf := (fflush s1).2 })
          else
            let maxImageSize := c.clientArgs.params.maxsize
            if maxImageSize ≠ 0 ∧ imgSize > maxImageSize then
              let s1 := send_protocol_error_file r.2.2 imageTooLarge
              some (PROTOCOL_ERROR, { c with sockf := (fflush s1).2 })
            else
              let args1 : ClientArgs :=
                { c.clientArgs with opType := (opTypeByte : Int), imgSize := imgSize }
              some (PROTOCOL_SUCCESS, { c with sockf := r.2.2, clientArgs := args1 })

/-- `read_and_save_image(sockf, filename, size)`. -/
def read_and_save_image (env : Env) (sockf : FILE) (file : Option (List Byte))
    (size : Nat) : Bool × FILE × Option (List Byte) :=
  if !env.malloc_ok size then (false, sockf, file)
  else
    let r := fread sockf size
    if r.1.length ≠ size then (false, r.2, file)
    else
      let sv := save_image env file r.1
      (sv.1, r.2, sv.2)

/-- `send_protocol_image(sockf, size, data)` with `size = data.length`. -/
def send_protocol_image (sockf : FILE) (data : List Byte) : Bool × FILE :=
  let prefix_ := PROTOCOL_PREFIX
  let imageSize := toU32 data.length
  let opType := toByte OP_OUTPUT_IMAGE
  let r1 := fwrite sockf (uint32_to_mem sockf.bigEndian prefix_)
  if r1.1 ≠ UINT32_NUM_BYTES then (false, r1.2) else
  let r2 := fputc opType r1.2
  if r2.1 = EOF then (false, r2.2) else
  let r3 := fwrite r2.2 (uint32_to_mem sockf.bigEndian imageSize)
  if r3.1 ≠ UINT32_NUM_BYTES then (false, r3.2) else
  let r4 := fwrite r3.2 data
  if r4.1 ≠ data.length then (false, r4.2) else
  let r5 := fflush r4.2
  if r5.1 ≠ 0 then (false, r5.2) else
  (true, r5.2)

/-- The second half of `handle_protocol_image`, from `switch (opencvResult)` to the
end. -/
def handle_protocol_image_respond (env : Env) (w : World) (c : Conn) (sockf : FILE)
    (opencvResult : Int) : ProtocolResult × World × Conn :=
  if opencvResult = OPENCV_INVALID_IMAGE then
    let s1 := send_protocol_error_file sockf invalidImage
    (PROTOCOL_ERROR, w, { c with sockf := (fflush s1).2 })
  else if opencvResult = OPENCV_NO_FACES then
    let s1 := send_protocol_error_file sockf invalidNoFaces
    (PROTOCOL_ERROR, w, { c with sockf := (fflush s1).2 })
  else if opencvResult = OPENCV_SUCCESS then
    match read_file_to_buffer env w.imageFile with
    | none => (COMMUNICATION_ERROR, w, { c with sockf := sockf })
    | some outBuf =>
      let r := send_protocol_image sockf outBuf
      if !r.1 then (COMMUNICATION_ERROR, w, { c with sockf := r.2 })
      else (PROTOCOL_SUCCESS, w, { c with sockf := r.2 })
  else
    let s1 := send_protocol_error_file sockf invalidImage
    (PROTOCOL_ERROR, w, { c with sockf := (fflush s1).2 })

/-- `handle_protocol_image(sockf, args)`. -/
def handle_protocol_image (env : Env) (w : World) (c : Conn) :
    Option (ProtocolResult × World × Conn) :=
  let r1 := read_and_save_image env c.sockf w.imageFile c.clientArgs.imgSize
  if !r1.1 then
    some (COMMUNICATION_ERROR, { w with imageFile := r1.2.2 }, { c with sockf := r1.2.1 })
  else if c.clientArgs.opType = (OP_FACE_REPLACE : Int) then
    match read_uint32_le r1.2.1 with
    | none => none
    | some rs =>
      if rs.1 ≠ 0 then
        some (COMMUNICATION_ERROR, { w with imageFile := r1.2.2 },
          { c with sockf := rs.2.2 })
      else
        let faceSize := rs.2.1.getD 0
        let r2 := read_and_save_image env rs.2.2 r1.2.2 faceSize
        if !r2.1 then
          some (COMMUNICATION_ERROR, { w with imageFile := r2.2.2 },
            { c with sockf := r2.2.1 })
        else
          let e := replace_faces_mutexed env r2.2.2
          some (handle_protocol_image_respond env { w with imageFile := e.2 } c r2.2.1 e.1)
  else
    let e := detect_and_draw_faces_mutexed env r1.2.2
    some (handle_protocol_image_respond env { w with imageFile := e.2 } c r1.2.1 e.1)

/-- One pass of the `while (true)` loop of `client_handler`: whether the loop goes
on, with the state afterwards; `none` when the pass does not end. -/
def client_handler_pass (env : Env) (w : World) (c : Conn) : Option (Bool × World × Conn) :=
  match handle_protocol_prefix env c with
  | none => none
  | some p =>
    if p.1 = COMMUNICATION_ERROR then some (false, w, p.2)
    else if p.1 = PROTOCOL_ERROR then some (true, w, p.2)
    else
      match handle_protocol_header p.2 with
      | none => none
      | some h =>
        if h.1 = COMMUNICATION_ERROR then some (false, w, h.2)
        else if h.1 = PROTOCOL_ERROR then some (true, w, h.2)
        else
          match handle_protocol_image env w h.2 with
          | none => none
          | some i =>
            if i.1 = COMMUNICATION_ERROR then some (false, i.2.1, i.2.2)
            else if i.1 = PROTOCOL_SUCCESS then some (true, i.2.1, i.2.2)
            else some (true, i.2.1, i.2.2)

/-- The `while (true)` loop of `client_handler`: the state when the loop is left;
`none` when a pass does not end or the fuel runs out. -/
def client_handler_loop (env : Env) : Nat → World → Conn → Option (World × Conn)
  | 0, _, _ => none
  | fuel + 1, w, c =>
    match client_handler_pass env w c with
    | none => none
    | some r => if r.1 then client_handler_loop env fuel r.2.1 r.2.2 else some r.2

/-- `client_handler(args)` with the given number of passes of its loop as fuel: the
world and the connection when the handler returns. The flush of `fclose` sends
nothing: what is pending then is pending because a flush has failed, on a wedged
stream or on a socket that accepts no more. -/
def client_handler (env : Env) (fuel : Nat) (w : World) (c : Conn) : Option (World × Conn) :=
  if !env.fdopen_ok then some (w, { c with isOpen := false })
  else
    match client_handler_loop env fuel (client_handler_start env w) c with
    | none => none
    | some (w3, c3) =>
      some (decrement_thread_and_socket_counts env w3, { c3 with isOpen := false })

/-- A stream on a little-endian host on which nothing has been read or written yet:
the peer's bytes arrive in the given pieces, and the socket accepts `room` bytes. -/
def stream_of (pieces : List (List Byte)) (room : Nat) : FILE :=
  { buffered := [], arriving := pieces, readFails := false, eof := false, err := false,
    putting := false, pending := [], wedged := false, sent := [], room := room,
    bigEndian := false }

/-- An open connection whose peer's bytes arrive in the given pieces; used for
concrete instances. -/
def conn_of (pieces : List (List Byte)) (room : Nat) (maxsize : Nat) : Conn :=
  { sockf := stream_of pieces room, isOpen := true, shutWr := false,
    clientArgs := { imgSize := 0, params := { maxconnections := 1, maxsize := maxsize },
                    opType := 0 } }

/-- The connection `c` once its header is accepted with the given opcode and size. -/
def Conn.setHeader (c : Conn) (opType : Int) (imgSize : Nat) : Conn :=
  { c with clientArgs := { c.clientArgs with opType := opType, imgSize := imgSize } }

/-- The connection `c` with another state of its stream. -/
def Conn.setSockf (c : Conn) (s : FILE) : Conn := { c with sockf := s }

/-- The bytes of the peer that no call has consumed yet: those in the buffer, then
those still to arrive. -/
def FILE.unread (s : FILE) : List Byte := s.buffered ++ s.arriving.flatten

/-- The stream `s1` is in read mode with nothing pending, and its output side is
that of `s`: what reads alone make of a stream `s` with nothing pending. -/
def FILE.reads_to (s s1 : FILE) : Prop :=
  s1.pending = [] ∧ s1.wedged = s.wedged ∧ s1.putting = false ∧ s1.sent = s.sent
    ∧ s1.room = s.room ∧ s1.bigEndian = s.bigEndian

end Sock

/-! ## Lemmas on stdio and on the codec -/

theorem emit_nil (s : FILE) : s.emit [] = s := by
  simp [FILE.emit]

theorem emit_emit (s : FILE) (a b : List Byte) : (s.emit a).emit b = s.emit (a ++ b) := by
  simp [FILE.emit, Nat.sub_sub]

theorem consume_consume (s : FILE) (m n : Nat) :
    (s.consume m).consume n = s.consume (m + n) := by
  simp [FILE.consume, List.drop_drop, Nat.add_comm]

theorem written_emit (s : FILE) (a : List Byte) : written s (s.emit a) = a := by
  simp [written, FILE.emit]

theorem fwrite_of_le (s : FILE) (data : List Byte) (h : data.length ≤ s.room) :
    fwrite s data = (data.length, s.emit data) := by
  simp [fwrite, FILE.emit, Nat.min_eq_left h]

theorem fputc_of_pos (c : Byte) (s : FILE) (h : 0 < s.room) :
    fputc c s = ((c.val : Int), s.emit [c]) := by
  have : s.room ≠ 0 := by omega
  simp [fputc, FILE.emit, this]

theorem fflush_of_ok (s : FILE) (h : s.flushOk = true) : fflush s = (0, s) := by
  simp [fflush, h]

theorem fread_of_le (s : FILE) (n : Nat) (h : n ≤ s.input.length) :
    fread s n = (s.input.take n, s.consume n) := by
  simp [fread, FILE.consume, Nat.min_eq_left h]

theorem fread_of_lt (s : FILE) (n : Nat) (h : s.input.length < n) :
    fread s n = (s.input, s.hitEnd) := by
  have h1 : min n s.input.length = s.input.length := Nat.min_eq_right (by omega)
  have h2 : s.input.take n = s.input := List.take_of_length_le (by omega)
  have h3 : s.input.drop n = [] := List.drop_of_length_le (by omega)
  simp [fread, FILE.hitEnd, h1, h2, h3, h]

theorem read_all_of_le (s : FILE) (size : Nat) (h : size ≤ s.input.length) :
    read_all s size = (0, s.input.take size, s.consume size) := by
  cases size with
  | zero => simp [read_all, read_all_loop, FILE.consume]
  | succ n => simp [read_all, read_all_loop, fread_of_le s (n + 1) h, Nat.min_eq_left h]

theorem read_all_of_lt (s : FILE) (size : Nat) (h : s.input.length < size) :
    read_all s size = (-1, s.input, s.hitEnd) := by
  cases size with
  | zero => omega
  | succ n =>
    cases hr : s.readFails <;>
      simp [read_all, read_all_loop, fread_of_lt s (n + 1) h, h, hr, FILE.hitEnd]

/-- The fuel that `read_all` passes to its loop is enough. -/
theorem read_all_loop_fuel (s : FILE) (size : Nat) :
    read_all_loop (size + 1) s [] size = some (read_all s size) := by
  rcases Nat.lt_or_ge s.input.length size with h | h
  · cases size with
    | zero => omega
    | succ n =>
      cases hr : s.readFails <;>
        simp [read_all, read_all_loop, fread_of_lt s (n + 1) h, h, hr, FILE.hitEnd]
  · cases size with
    | zero => simp [read_all, read_all_loop]
    | succ n => simp [read_all, read_all_loop, fread_of_le s (n + 1) h, Nat.min_eq_left h]

theorem write_all_of_le (s : FILE) (buffer : List Byte) (h : buffer.length ≤ s.room) :
    write_all s buffer = (0, s.emit buffer) := by
  cases hb : buffer with
  | nil => simp [write_all, write_all_loop, emit_nil]
  | cons b rest =>
    subst hb
    have hlen : 0 < (b :: rest).length := by simp
    have h0 : (b :: rest).length ≠ 0 := by omega
    simp only [write_all, write_all_loop, hlen, if_true, List.drop_zero,
      fwrite_of_le s (b :: rest) h, h0, if_false, Nat.zero_add, Nat.lt_irrefl,
      Option.getD_some]

/-- The fuel that `write_all` passes to its loop is enough, whatever the stream
accepts. -/
theorem write_all_loop_fuel (fuel : Nat) :
    ∀ (s : FILE) (buffer : List Byte) (totalWritten : Nat),
      buffer.length - totalWritten < fuel →
      ∃ r, write_all_loop fuel s buffer totalWritten = some r := by
  induction fuel with
  | zero => intro s buffer tw h; omega
  | succ n ih =>
    intro s buffer tw h
    simp only [write_all_loop]
    split
    · split
      · exact ⟨_, rfl⟩
      · rename_i hlt hw
        apply ih
        have : 0 < (fwrite s (List.drop tw buffer)).1 := Nat.pos_of_ne_zero hw
        omega
    · exact ⟨_, rfl⟩

theorem toByte_and_mask (v : Nat) : toByte (v &&& BYTE_MASK) = toByte v := by
  have : v &&& 255 = v % 256 := Nat.and_pow_two_sub_one_eq_mod v 8
  simp [toByte, BYTE_MASK, this]

theorem write_bytes_eq (value : Nat) :
    ([ toByte (value &&& BYTE_MASK),
      toByte ((value >>> BYTE_SHIFT_1) &&& BYTE_MASK),
      toByte ((value >>> BYTE_SHIFT_2) &&& BYTE_MASK),
      toByte ((value >>> BYTE_SHIFT_3) &&& BYTE_MASK) ] : List Byte) = le32 value := by
  simp [toByte_and_mask, le32, BYTE_SHIFT_1, BYTE_SHIFT_2, BYTE_SHIFT_3,
    Nat.shiftRight_eq_div_pow]

theorem le32_length (v : Nat) : (le32 v).length = 4 := rfl

theorem le32_toU32 (v : Nat) : le32 (toU32 v) = le32 v := by
  simp only [le32, toU32, toByte, List.cons.injEq, Fin.mk.injEq, and_true]
  refine ⟨?_, ?_, ?_, ?_⟩ <;> omega

theorem write_uint32_le_of_le (s : FILE) (v : Nat) (h : 4 ≤ s.room) :
    write_uint32_le s v = (0, s.emit (le32 v)) := by
  simp only [write_uint32_le, write_bytes_eq]
  rw [fwrite_of_le s (le32 v) (by simpa [le32_length] using h)]
  simp [le32_length, UINT32_NUM_BYTES]

theorem or_shl_eq_add (a b i : Nat) (h : a < 2 ^ i) : a ||| (b <<< i) = a + b * 2 ^ i := by
  rw [Nat.lor_comm, Nat.shiftLeft_eq, Nat.mul_comm, ← Nat.mul_add_lt_is_or h, Nat.add_comm]

theorem le_value (b0 b1 b2 b3 : Byte) :
    b0.val ||| (b1.val <<< BYTE_SHIFT_1) ||| (b2.val <<< BYTE_SHIFT_2)
        ||| (b3.val <<< BYTE_SHIFT_3)
      = b0.val + 2 ^ 8 * b1.val + 2 ^ 16 * b2.val + 2 ^ 24 * b3.val := by
  have h0 := b0.isLt
  have h1 := b1.isLt
  have h2 := b2.isLt
  have h3 := b3.isLt
  simp only [BYTE_SHIFT_1, BYTE_SHIFT_2, BYTE_SHIFT_3]
  rw [or_shl_eq_add _ _ 8 (by omega), or_shl_eq_add _ _ 16 (by omega),
    or_shl_eq_add _ _ 24 (by omega)]
  omega

theorem read_uint32_le_of_bytes (s : FILE) (b0 b1 b2 b3 : Byte) (rest : List Byte)
    (h : s.input = b0 :: b1 :: b2 :: b3 :: rest) :
    read_uint32_le s
      = (0, some (b0.val + 2 ^ 8 * b1.val + 2 ^ 16 * b2.val + 2 ^ 24 * b3.val),
          s.consume 4) := by
  have hlen : 4 ≤ s.input.length := by simp [h]
  have h0 := b0.isLt
  have h1 := b1.isLt
  have h2 := b2.isLt
  have h3 := b3.isLt
  simp only [read_uint32_le, UINT32_NUM_BYTES, read_all_of_le s 4 hlen, h]
  simp only [ne_eq, not_true_eq_false, if_false, List.take, List.getD_cons_zero,
    List.getD_cons_succ, le_value, toU32]
  rw [Nat.mod_eq_of_lt (by omega)]

theorem read_uint32_le_of_short (s : FILE) (h : s.input.length < 4) :
    read_uint32_le s = (-1, none, s.hitEnd) := by
  simp [read_uint32_le, UINT32_NUM_BYTES, read_all_of_lt s 4 h]

theorem le32_value (v : Nat) (hv : v < 2 ^ 32) :
    (toByte v).val + 2 ^ 8 * (toByte (v / 2 ^ 8)).val + 2 ^ 16 * (toByte (v / 2 ^ 16)).val
      + 2 ^ 24 * (toByte (v / 2 ^ 24)).val = v := by
  simp only [toByte]
  omega

theorem read_uint32_le_of_le32 (s : FILE) (v : Nat) (hv : v < 2 ^ 32) (rest : List Byte)
    (h : s.input = le32 v ++ rest) :
    read_uint32_le s = (0, some v, s.consume 4) := by
  have h1 := read_uint32_le_of_bytes s (toByte v) (toByte (v / 2 ^ 8))
    (toByte (v / 2 ^ 16)) (toByte (v / 2 ^ 24)) rest (by simpa [le32] using h)
  rw [le32_value v hv] at h1
  exact h1

/-! ## C3, C4: the 32-bit little-endian codec -/

/-- C3: for every value `v < 2 ^ 32`, `write_uint32_le` on a stream `w` that accepts
four bytes returns 0 and writes exactly the four bytes `le32 v`; `read_uint32_le` on
a stream `r` whose input starts with the bytes written returns 0, stores exactly
`v`, and consumes exactly those four bytes (the input left is `rest`). Neither the
bytes written nor the result read change when the byte order of the host of either
stream is changed. -/
theorem C3_uint32_le_round_trip (v : Nat) (hv : v < 2 ^ 32) (w r : FILE)
    (rest : List Byte) (hroom : 4 ≤ w.room)
    (hin : r.input = written w (write_uint32_le w v).2 ++ rest) :
    (write_uint32_le w v).1 = 0
    ∧ written w (write_uint32_le w v).2 = le32 v
    ∧ read_uint32_le r = (0, some v, r.consume 4)
    ∧ (r.consume 4).input = rest
    ∧ ∀ host : Bool,
        written { w with bigEndian := host }
            (write_uint32_le { w with bigEndian := host } v).2
          = written w (write_uint32_le w v).2
        ∧ (read_uint32_le { r with bigEndian := host }).1 = (read_uint32_le r).1
        ∧ (read_uint32_le { r with bigEndian := host }).2.1 = (read_uint32_le r).2.1 := by
  have hw : ∀ s : FILE, 4 ≤ s.room → written s (write_uint32_le s v).2 = le32 v := by
    intro s hs
    rw [write_uint32_le_of_le s v hs, written_emit]
  rw [hw w hroom] at hin
  have hr := read_uint32_le_of_le32 r v hv rest hin
  refine ⟨by rw [write_uint32_le_of_le w v hroom], hw w hroom, hr, ?_, ?_⟩
  · simp [FILE.consume, hin, le32]
  · intro host
    refine ⟨?_, ?_, ?_⟩
    · exact (hw { w with bigEndian := host } hroom).trans (hw w hroom).symm
    · rw [hr, read_uint32_le_of_le32 { r with bigEndian := host } v hv rest hin]
    · rw [hr, read_uint32_le_of_le32 { r with bigEndian := host } v hv rest hin]

/-- C3 at `v = 0x12345678`, written to an empty stream and read back in front of
the byte `AB`. -/
theorem C3_uint32_le_round_trip_witness :
    read_uint32_le (stream_of [0x78, 0x56, 0x34, 0x12, 0xAB] 0)
      = (0, some 0x12345678, (stream_of [0x78, 0x56, 0x34, 0x12, 0xAB] 0).consume 4) :=
  (C3_uint32_le_round_trip 0x12345678 (by decide) (stream_of [] 4)
    (stream_of [0x78, 0x56, 0x34, 0x12, 0xAB] 0) [0xAB] (by decide) (by decide)).2.2.1

/-- C4: `read_uint32_le` returns -1 if and only if fewer than four bytes are left
on the stream before it ends (and then stores nothing); in every other case it
returns 0, and for the next four bytes `b0 b1 b2 b3` it stores
`b0 + 2^8 * b1 + 2^16 * b2 + 2^24 * b3` and leaves the stream just after them. -/
theorem C4_read_uint32_le_short_or_value (s : FILE) :
    ((read_uint32_le s).1 = -1 ↔ s.input.length < 4)
    ∧ (¬ s.input.length < 4 → (read_uint32_le s).1 = 0)
    ∧ (s.input.length < 4 → (read_uint32_le s).2.1 = none)
    ∧ ∀ (b0 b1 b2 b3 : Byte) (rest : List Byte), s.input = b0 :: b1 :: b2 :: b3 :: rest →
        read_uint32_le s
          = (0, some (b0.val + 2 ^ 8 * b1.val + 2 ^ 16 * b2.val + 2 ^ 24 * b3.val),
              { s with input := rest }) := by
  have hfull : ∀ (b0 b1 b2 b3 : Byte) (rest : List Byte),
      s.input = b0 :: b1 :: b2 :: b3 :: rest →
        read_uint32_le s
          = (0, some (b0.val + 2 ^ 8 * b1.val + 2 ^ 16 * b2.val + 2 ^ 24 * b3.val),
              { s with input := rest }) := by
    intro b0 b1 b2 b3 rest h
    rw [read_uint32_le_of_bytes s b0 b1 b2 b3 rest h]
    simp [FILE.consume, h]
  have hge : ¬ s.input.length < 4 → (read_uint32_le s).1 = 0 := by
    intro h
    match hi : s.input with
    | [] | [_] | [_, _] | [_, _, _] => simp [hi] at h
    | b0 :: b1 :: b2 :: b3 :: rest => rw [hfull b0 b1 b2 b3 rest hi]
  refine ⟨⟨?_, ?_⟩, hge, ?_, hfull⟩
  · intro h
    by_contra hlt
    rw [hge hlt] at h
    exact absurd h (by decide)
  · intro h
    rw [read_uint32_le_of_short s h]
  · intro h
    rw [read_uint32_le_of_short s h]

/-- C4 on the input `01 02 03 04 05`: the value stored and the stream left. -/
theorem C4_read_uint32_le_short_or_value_witness :
    read_uint32_le (stream_of [1, 2, 3, 4, 5] 0)
      = (0, some (1 + 2 ^ 8 * 2 + 2 ^ 16 * 3 + 2 ^ 24 * 4), stream_of [5] 0) :=
  (C4_read_uint32_le_short_or_value (stream_of [1, 2, 3, 4, 5] 0)).2.2.2 1 2 3 4 [5] rfl

/-! ## Lemmas on `send_request` -/

@[simp] theorem emit_room (s : FILE) (a : List Byte) : (s.emit a).room = s.room - a.length := rfl
@[simp] theorem emit_flushOk (s : FILE) (a : List Byte) : (s.emit a).flushOk = s.flushOk := rfl
@[simp] theorem emit_bigEndian (s : FILE) (a : List Byte) :
    (s.emit a).bigEndian = s.bigEndian := rfl
@[simp] theorem emit_input (s : FILE) (a : List Byte) : (s.emit a).input = s.input := rfl
@[simp] theorem emit_output (s : FILE) (a : List Byte) :
    (s.emit a).output = s.output ++ a := rfl
@[simp] theorem consume_room (s : FILE) (n : Nat) : (s.consume n).room = s.room := rfl
@[simp] theorem consume_flushOk (s : FILE) (n : Nat) : (s.consume n).flushOk = s.flushOk := rfl
@[simp] theorem consume_input (s : FILE) (n : Nat) : (s.consume n).input = s.input.drop n := rfl
@[simp] theorem consume_output (s : FILE) (n : Nat) : (s.consume n).output = s.output := rfl
@[simp] theorem consume_bigEndian (s : FILE) (n : Nat) :
    (s.consume n).bigEndian = s.bigEndian := rfl

theorem fputc_ne_EOF (c : Byte) : ((c.val : Nat) : Int) ≠ EOF := by
  simp only [EOF]; omega

theorem send_request_detect (s : FILE) (d : List Byte) (hd : d ≠ [])
    (hflush : s.flushOk = true) (hroom : 9 + d.length ≤ s.room) :
    send_request s (some d) none = (.returned 0, s.emit (wire_frame 0 [d])) := by
  have hd0 : d.length ≠ 0 := by simpa using hd
  simp only [send_request, hd0, if_false]
  rw [write_uint32_le_of_le s _ (by omega)]
  simp only [ne_eq, not_true_eq_false, if_false]
  rw [fputc_of_pos _ _ (by simp [le32_length]; omega)]
  simp only [fputc_ne_EOF, if_false, emit_emit]
  rw [write_uint32_le_of_le _ _ (by simp [le32_length]; omega)]
  simp only [ne_eq, not_true_eq_false, if_false, emit_emit]
  rw [write_all_of_le _ _ (by simp [le32_length]; omega)]
  simp only [ne_eq, not_true_eq_false, if_false, emit_emit, OP_FACE_DETECT, OP_FACE_REPLACE,
    Nat.zero_ne_one]
  rw [fflush_of_ok _ (by simpa using hflush)]
  simp [wire_frame, wire_segments, le32_toU32, PROTOCOL_PREFIX]

theorem send_request_replace (s : FILE) (d x : List Byte) (hd : d ≠ []) (hx : x ≠ [])
    (hflush : s.flushOk = true) (hroom : 13 + d.length + x.length ≤ s.room) :
    send_request s (some d) (some x) = (.returned 0, s.emit (wire_frame 1 [d, x])) := by
  have hd0 : d.length ≠ 0 := by simpa using hd
  have hx0 : x.length > 0 := List.length_pos.mpr hx
  simp only [send_request, hd0, if_false, hx0, if_true]
  rw [write_uint32_le_of_le s _ (by omega)]
  simp only [ne_eq, not_true_eq_false, if_false]
  rw [fputc_of_pos _ _ (by simp [le32_length]; omega)]
  simp only [fputc_ne_EOF, if_false, emit_emit]
  rw [write_uint32_le_of_le _ _ (by simp [le32_length]; omega)]
  simp only [ne_eq, not_true_eq_false, if_false, emit_emit]
  rw [write_all_of_le _ _ (by simp [le32_length]; omega)]
  simp only [ne_eq, not_true_eq_false, if_false, emit_emit, if_true, Option.getD_some]
  rw [write_uint32_le_of_le _ _ (by simp [le32_length]; omega)]
  simp only [ne_eq, not_true_eq_false, if_false, emit_emit]
  rw [write_all_of_le _ _ (by simp [le32_length]; omega)]
  simp only [ne_eq, not_true_eq_false, if_false, emit_emit]
  rw [fflush_of_ok _ (by simpa using hflush)]
  simp [wire_frame, wire_segments, le32_toU32, PROTOCOL_PREFIX, OP_FACE_REPLACE]

theorem wire_frame_one_length (op : Nat) (a : List Byte) :
    (wire_frame op [a]).length = 9 + a.length := by
  simp [wire_frame, wire_segments, le32_length]; omega

theorem wire_frame_two_length (op : Nat) (a b : List Byte) :
    (wire_frame op [a, b]).length = 13 + a.length + b.length := by
  simp [wire_frame, wire_segments, le32_length]; omega

theorem le32_prefix : le32 0x23107231 = [0x31, 0x72, 0x10, 0x23] := by decide

theorem toByte_small (n : Nat) (h : n < 256) : toByte n = ⟨n, h⟩ := by
  simp [toByte, Nat.mod_eq_of_lt h]

/-! ## C2: the layout of a request -/

/-- C2: for every non-empty detect image `d` and optional non-empty replacement
image `r`, on a stream where every write succeeds (it accepts the whole request and
the flush succeeds) `send_request` returns 0 and the stream afterwards differs from
the stream before by exactly the bytes `31 72 10 23`, one opcode byte (0 without and
1 with a replacement image), `le32 |d|`, `d`, and for a replace request `le32 |r|`
and `r`. For lengths below `2 ^ 32`, as in the claim, `le32` of a length is the
four-byte little-endian encoding of the length itself. -/
theorem C2_send_request_frame_layout (to_ : FILE) (d : List Byte) (r : Option (List Byte))
    (hd : d ≠ []) (hr : ∀ x, r = some x → x ≠ [])
    (hflush : to_.flushOk = true) (hroom : (wire_request d r).length ≤ to_.room) :
    send_request to_ (some d) r = (.returned 0, to_.emit (wire_request d r))
    ∧ written to_ (send_request to_ (some d) r).2 = wire_request d r
    ∧ wire_request d r
        = [0x31, 0x72, 0x10, 0x23] ++ [if r.isSome then 1 else 0] ++ le32 d.length ++ d
          ++ (match r with
              | none => []
              | some x => le32 x.length ++ x) := by
  have hsend : send_request to_ (some d) r = (.returned 0, to_.emit (wire_request d r)) := by
    cases r with
    | none =>
      exact send_request_detect to_ d hd hflush
        (by simpa [wire_request, wire_frame_one_length] using hroom)
    | some x =>
      exact send_request_replace to_ d x hd (hr x rfl) hflush
        (by simpa [wire_request, wire_frame_two_length] using hroom)
  refine ⟨hsend, by rw [hsend, written_emit], ?_⟩
  cases r with
  | none => simp [wire_request, wire_frame, wire_segments, le32_prefix]; rfl
  | some x => simp [wire_request, wire_frame, wire_segments, le32_prefix]; rfl

/-- C2 for the images `07 08 09` and `05 06`. -/
theorem C2_send_request_frame_layout_witness :
    send_request (stream_of [] 20) (some [7, 8, 9]) (some [5, 6])
      = (.returned 0, (stream_of [] 20).emit
          [0x31, 0x72, 0x10, 0x23, 1, 3, 0, 0, 0, 7, 8, 9, 2, 0, 0, 0, 5, 6]) :=
  (C2_send_request_frame_layout (stream_of [] 20) [7, 8, 9] (some [5, 6]) (by decide)
    (by intro x hx; cases hx; decide) rfl (by decide)).1

/-! ## Lemmas on the handler steps -/

theorem send_protocol_error_file_of_room (s : FILE) (msg : List Byte)
    (hlen : msg.length < 2 ^ 32) (hflush : s.flushOk = true)
    (hroom : 9 + msg.length ≤ s.room) :
    send_protocol_error_file s msg = s.emit (wire_frame 3 [msg]) := by
  have hU : toU32 msg.length = msg.length := Nat.mod_eq_of_lt hlen
  simp only [send_protocol_error_file, hU, List.take_length]
  rw [write_uint32_le_of_le s _ (by omega)]
  simp only [ne_eq, not_true_eq_false, if_false]
  rw [fputc_of_pos _ _ (by simp [le32_length]; omega)]
  simp only [fputc_ne_EOF, if_false, emit_emit]
  rw [write_uint32_le_of_le _ _ (by simp [le32_length]; omega)]
  simp only [ne_eq, not_true_eq_false, if_false, emit_emit]
  rw [fwrite_of_le _ _ (by simp [le32_length]; omega)]
  simp only [ne_eq, not_true_eq_false, if_false, emit_emit]
  rw [fflush_of_ok _ (by simpa using hflush)]
  simp [wire_frame, wire_segments, PROTOCOL_PREFIX, OP_ERROR_MSG]

/-- An error frame sent and flushed on a stream that takes it. -/
theorem error_frame_flushed (s : FILE) (msg : List Byte)
    (hlen : msg.length < 2 ^ 32) (hflush : s.flushOk = true)
    (hroom : 9 + msg.length ≤ s.room) :
    (fflush (send_protocol_error_file s msg)).2 = s.emit (wire_frame 3 [msg]) := by
  rw [send_protocol_error_file_of_room s msg hlen hflush hroom,
    fflush_of_ok _ (by simpa using hflush)]

theorem handle_protocol_prefix_ok (env : Env) (c : Conn) (rest : List Byte)
    (h : c.sockf.input = le32 0x23107231 ++ rest) :
    handle_protocol_prefix env c = (PROTOCOL_SUCCESS, c.setSockf (c.sockf.consume 4)) := by
  simp [ handle_protocol_prefix, read_uint32_le_of_le32 c.sockf 0x23107231 (by decide) rest h,
    PROTOCOL_PREFIX, Conn.setSockf]

theorem fgetc_cons (s : FILE) (b : Byte) (rest : List Byte) (h : s.input = b :: rest) :
    fgetc s = ((b.val : Int), s.consume 1) := by
  simp [fgetc, h, FILE.consume]

theorem fgetc_nil (s : FILE) (h : s.input = []) : fgetc s = (EOF, s.hitEnd) := by
  simp [fgetc, h, FILE.hitEnd]

theorem toByte_val (b : Byte) : toByte ((b.val : Int)).toNat = b := by
  apply Fin.ext
  simp [toByte, Nat.mod_eq_of_lt b.isLt]

theorem handle_protocol_header_eof (c : Conn) (h : c.sockf.input = []) :
    handle_protocol_header c
      = (COMMUNICATION_ERROR,
          c.setSockf (send_protocol_error_file c.sockf.hitEnd invalidMessage)) := by
  simp [handle_protocol_header, fgetc_nil c.sockf h, Conn.setSockf]

/-- `handle_protocol_header` once the opcode byte has been read. -/
theorem handle_protocol_header_cons (c : Conn) (op : Byte) (rest : List Byte)
    (h : c.sockf.input = op :: rest) :
    handle_protocol_header c
      = if op.val ≠ 0 ∧ op.val ≠ 1 then
          (PROTOCOL_ERROR,
            c.setSockf (fflush (send_protocol_error_file (c.sockf.consume 1) invalidOpType)).2)
        else if (read_uint32_le (c.sockf.consume 1)).1 ≠ 0 then
          (COMMUNICATION_ERROR,
            c.setSockf (send_protocol_error_file (read_uint32_le (c.sockf.consume 1)).2.2
              invalidMessage))
        else if (read_uint32_le (c.sockf.consume 1)).2.1.getD 0 = 0 then
          (PROTOCOL_ERROR,
            c.setSockf (fflush (send_protocol_error_file
              (read_uint32_le (c.sockf.consume 1)).2.2 imageZeroBytes)).2)
        else if c.clientArgs.params.maxsize ≠ 0
            ∧ (read_uint32_le (c.sockf.consume 1)).2.1.getD 0 > c.clientArgs.params.maxsize then
          (PROTOCOL_ERROR,
            c.setSockf (fflush (send_protocol_error_file
              (read_uint32_le (c.sockf.consume 1)).2.2 imageTooLarge)).2)
        else
          (PROTOCOL_SUCCESS,
            (c.setSockf (read_uint32_le (c.sockf.consume 1)).2.2).setHeader op.val
              ((read_uint32_le (c.sockf.consume 1)).2.1.getD 0)) := by
  simp only [handle_protocol_header, fgetc_cons c.sockf op rest h, fputc_ne_EOF, if_false,
    toByte_val, OP_FACE_DETECT, OP_FACE_REPLACE, Conn.setHeader, Conn.setSockf]

theorem handle_protocol_header_bad_op (c : Conn) (op : Byte) (rest : List Byte)
    (h : c.sockf.input = op :: rest) (h0 : op.val ≠ 0) (h1 : op.val ≠ 1) :
    handle_protocol_header c
      = (PROTOCOL_ERROR,
          c.setSockf (fflush (send_protocol_error_file (c.sockf.consume 1) invalidOpType)).2) := by
  rw [handle_protocol_header_cons c op rest h, if_pos ⟨h0, h1⟩]

theorem handle_protocol_header_size (c : Conn) (op : Byte) (size : Nat) (rest : List Byte)
    (h : c.sockf.input = op :: (le32 size ++ rest)) (hop : op.val = 0 ∨ op.val = 1)
    (hsize : size < 2 ^ 32) :
    handle_protocol_header c
      = if size = 0 then
          (PROTOCOL_ERROR,
            c.setSockf (fflush (send_protocol_error_file (c.sockf.consume 5) imageZeroBytes)).2)
        else if c.clientArgs.params.maxsize ≠ 0 ∧ size > c.clientArgs.params.maxsize then
          (PROTOCOL_ERROR,
            c.setSockf (fflush (send_protocol_error_file (c.sockf.consume 5) imageTooLarge)).2)
        else
          (PROTOCOL_SUCCESS, (c.setSockf (c.sockf.consume 5)).setHeader op.val size) := by
  have hs : (c.sockf.consume 1).input = le32 size ++ rest := by simp [h]
  have hr := read_uint32_le_of_le32 (c.sockf.consume 1) size hsize rest hs
  have hop' : ¬ (op.val ≠ 0 ∧ op.val ≠ 1) := by omega
  rw [handle_protocol_header_cons c op _ h, if_neg hop', hr]
  simp only [ne_eq, not_true_eq_false, if_false, Option.getD_some, consume_consume]

theorem save_image_ok (env : Env) (file : Option (List Byte)) (data : List Byte)
    (hopen : env.fopen_wb_ok = true) (hdisk : data.length ≤ env.disk_room) :
    save_image env file data = (true, some data) := by
  simp [save_image, hopen, Nat.min_eq_left hdisk]

theorem read_and_save_image_ok (env : Env) (s : FILE) (file : Option (List Byte))
    (d rest : List Byte) (h : s.input = d ++ rest) (hmalloc : env.malloc_ok d.length = true)
    (hopen : env.fopen_wb_ok = true) (hdisk : d.length ≤ env.disk_room) :
    read_and_save_image env s file d.length = (true, s.consume d.length, some d) := by
  have hle : d.length ≤ s.input.length := by simp [h]
  simp [read_and_save_image, hmalloc, fread_of_le s d.length hle, h,
    save_image_ok env file d hopen hdisk]

@[simp] theorem setSockf_sockf (c : Conn) (s : FILE) : (c.setSockf s).sockf = s := rfl
@[simp] theorem setSockf_clientArgs (c : Conn) (s : FILE) :
    (c.setSockf s).clientArgs = c.clientArgs := rfl
@[simp] theorem setSockf_isOpen (c : Conn) (s : FILE) : (c.setSockf s).isOpen = c.isOpen := rfl
@[simp] theorem setSockf_setSockf (c : Conn) (s t : FILE) :
    (c.setSockf s).setSockf t = c.setSockf t := rfl
@[simp] theorem setHeader_sockf (c : Conn) (op : Int) (n : Nat) :
    (c.setHeader op n).sockf = c.sockf := rfl
@[simp] theorem setHeader_isOpen (c : Conn) (op : Int) (n : Nat) :
    (c.setHeader op n).isOpen = c.isOpen := rfl
@[simp] theorem setHeader_opType (c : Conn) (op : Int) (n : Nat) :
    (c.setHeader op n).clientArgs.opType = op := rfl
@[simp] theorem setHeader_imgSize (c : Conn) (op : Int) (n : Nat) :
    (c.setHeader op n).clientArgs.imgSize = n := rfl
@[simp] theorem setHeader_params (c : Conn) (op : Int) (n : Nat) :
    (c.setHeader op n).clientArgs.params = c.clientArgs.params := rfl

/-! ## C1: a request survives the trip from the client to the server -/

/-- C1: let `d` be a non-empty detect image with `|d| < 2 ^ 32` and `|d|` at most the
configured maximum size, let the client stream accept the request, so that
`send_request(d, no replacement)` returns 0, and let the input of the connection be
the bytes that call wrote. If the buffer can be allocated and the image file
written, then `handle_protocol_prefix` accepts the prefix after four bytes,
`handle_protocol_header` succeeds after nine bytes and records opcode 0 (detect) and
size `|d|`, `read_and_save_image` succeeds and leaves exactly `d` in the working
image file, and no byte of the request is left unread. -/
theorem C1_request_round_trip (env : Env) (w : World) (to_ : FILE) (c : Conn) (d : List Byte)
    (hd : d ≠ []) (hdlen : d.length < 2 ^ 32) (hmax : d.length ≤ c.clientArgs.params.maxsize)
    (hflush : to_.flushOk = true) (hroom : 9 + d.length ≤ to_.room)
    (hin : c.sockf.input = written to_ (send_request to_ (some d) none).2)
    (hmalloc : env.malloc_ok d.length = true) (hopen : env.fopen_wb_ok = true)
    (hdisk : d.length ≤ env.disk_room) :
    (send_request to_ (some d) none).1 = .returned 0
    ∧ handle_protocol_prefix env c = (PROTOCOL_SUCCESS, c.setSockf (c.sockf.consume 4))
    ∧ handle_protocol_header (c.setSockf (c.sockf.consume 4))
        = (PROTOCOL_SUCCESS, (c.setSockf (c.sockf.consume 9)).setHeader 0 d.length)
    ∧ read_and_save_image env (c.sockf.consume 9) w.imageFile d.length
        = (true, c.sockf.consume (9 + d.length), some d)
    ∧ (c.sockf.consume (9 + d.length)).input = [] := by
  have hsend := send_request_detect to_ d hd hflush hroom
  rw [hsend, written_emit] at hin
  have hin' : c.sockf.input = le32 0x23107231 ++ (0 :: (le32 d.length ++ (d ++ []))) := by
    rw [hin]; simp [wire_frame, wire_segments]; rfl
  refine ⟨by rw [hsend], handle_protocol_prefix_ok env c _ hin', ?_, ?_, ?_⟩
  · have h1 : (c.setSockf (c.sockf.consume 4)).sockf.input
        = (0 : Byte) :: (le32 d.length ++ (d ++ [])) := by
      simp [hin', le32_length]
    rw [handle_protocol_header_size _ 0 d.length _ h1 (Or.inl rfl) hdlen]
    have hd0 : d.length ≠ 0 := by simpa using hd
    have hm : ¬ (c.clientArgs.params.maxsize ≠ 0 ∧ d.length > c.clientArgs.params.maxsize) := by
      omega
    simp [hd0, hm, consume_consume]
  · have h2 : (c.sockf.consume 9).input = d ++ [] := by
      simp [hin', le32]
    rw [read_and_save_image_ok env _ w.imageFile d [] h2 hmalloc hopen hdisk,
      consume_consume]
  · simp [hin', le32]
    omega

/-- C1 for the image `07 08 09` and the maximum size 10. -/
theorem C1_request_round_trip_witness :
    read_and_save_image env_example
        ((conn_of [0x31, 0x72, 0x10, 0x23, 0, 3, 0, 0, 0, 7, 8, 9] 0 10).sockf.consume 9)
        world_zero.imageFile 3
      = (true, (conn_of [0x31, 0x72, 0x10, 0x23, 0, 3, 0, 0, 0, 7, 8, 9] 0 10).sockf.consume 12,
          some [7, 8, 9]) :=
  (C1_request_round_trip env_example world_zero (stream_of [] 12)
    (conn_of [0x31, 0x72, 0x10, 0x23, 0, 3, 0, 0, 0, 7, 8, 9] 0 10) [7, 8, 9]
    (by decide) (by decide) (by decide) rfl (by decide) (by decide) rfl rfl (by decide)).2.2.2.1

/-! ## Lemmas on the handler loop and on the responses -/

theorem invalidImage_length : invalidImage.length = 13 := by decide
theorem invalidNoFaces_length : invalidNoFaces.length = 26 := by decide

/-- The loop leaves at a pass that breaks. -/
theorem client_handler_loop_break (env : Env) (fuel : Nat) (w : World) (c : Conn)
    (h : (client_handler_pass env w c).1 = false) :
    client_handler_loop env (fuel + 1) w c = some (client_handler_pass env w c).2 := by
  simp [client_handler_loop, h]

/-- The loop goes on after a pass that continues. -/
theorem client_handler_loop_continue (env : Env) (fuel : Nat) (w : World) (c : Conn)
    (h : (client_handler_pass env w c).1 = true) :
    client_handler_loop env (fuel + 1) w c
      = client_handler_loop env fuel (client_handler_pass env w c).2.1
          (client_handler_pass env w c).2.2 := by
  simp [client_handler_loop, h]

theorem client_handler_pass_prefix_comm (env : Env) (w : World) (c : Conn)
    (h : ( handle_protocol_prefix env c).1 = COMMUNICATION_ERROR) :
    client_handler_pass env w c = (false, w, ( handle_protocol_prefix env c).2) := by
  simp [client_handler_pass, h]

theorem client_handler_pass_header (env : Env) (w : World) (c c1 : Conn)
    (h : handle_protocol_prefix env c = (PROTOCOL_SUCCESS, c1)) :
    client_handler_pass env w c
      = if (handle_protocol_header c1).1 = COMMUNICATION_ERROR then
          (false, w, (handle_protocol_header c1).2)
        else if (handle_protocol_header c1).1 = PROTOCOL_ERROR then
          (true, w, (handle_protocol_header c1).2)
        else
          (decide ((handle_protocol_image env w (handle_protocol_header c1).2).1
              ≠ COMMUNICATION_ERROR),
            (handle_protocol_image env w (handle_protocol_header c1).2).2) := by
  simp only [client_handler_pass, h]
  simp only [reduceCtorEq, if_false]
  split
  · rfl
  · split
    · rfl
    · cases hi : (handle_protocol_image env w (handle_protocol_header c1).2).1 <;> simp

theorem uint32_to_mem_length (be : Bool) (v : Nat) : (uint32_to_mem be v).length = 4 := by
  cases be <;> rfl

theorem host_image_frame_length (be : Bool) (data : List Byte) :
    (host_image_frame be data).length = 9 + data.length := by
  simp [host_image_frame, uint32_to_mem_length]; omega

theorem handle_protocol_image_detect (env : Env) (w : World) (c : Conn) (d rest : List Byte)
    (hop : c.clientArgs.opType ≠ 1) (hsize : c.clientArgs.imgSize = d.length)
    (hin : c.sockf.input = d ++ rest) (hmalloc : env.malloc_ok d.length = true)
    (hopen : env.fopen_wb_ok = true) (hdisk : d.length ≤ env.disk_room) :
    handle_protocol_image env w c
      = handle_protocol_image_respond env
          (w.setImageFile (env.detect_and_draw_faces (some d)).2) c
          (c.sockf.consume d.length) (env.detect_and_draw_faces (some d)).1 := by
  simp only [handle_protocol_image, hsize,
    read_and_save_image_ok env c.sockf w.imageFile d rest hin hmalloc hopen hdisk,
    OP_FACE_REPLACE, Nat.cast_one, hop, if_false, Bool.not_true, Bool.false_eq_true,
    detect_and_draw_faces_mutexed, World.setImageFile]

theorem handle_protocol_image_replace (env : Env) (w : World) (c : Conn)
    (t r rest : List Byte)
    (hop : c.clientArgs.opType = 1) (hsize : c.clientArgs.imgSize = t.length)
    (hin : c.sockf.input = t ++ (le32 r.length ++ (r ++ rest)))
    (hrlen : r.length < 2 ^ 32)
    (hmt : env.malloc_ok t.length = true) (hmr : env.malloc_ok r.length = true)
    (hopen : env.fopen_wb_ok = true) (hdt : t.length ≤ env.disk_room)
    (hdr : r.length ≤ env.disk_room) :
    handle_protocol_image env w c
      = handle_protocol_image_respond env
          (w.setImageFile (env.replace_faces_in_memory (some r)).2) c
          (c.sockf.consume (t.length + 4 + r.length))
          (env.replace_faces_in_memory (some r)).1 := by
  have h1 : (c.sockf.consume t.length).input = le32 r.length ++ (r ++ rest) := by
    simp [hin]
  have h2 : (c.sockf.consume (t.length + 4)).input = r ++ rest := by
    rw [← consume_consume]; simp [hin, le32]
  simp only [handle_protocol_image, hsize,
    read_and_save_image_ok env c.sockf w.imageFile t _ hin hmt hopen hdt,
    OP_FACE_REPLACE, Nat.cast_one, hop, if_true, Bool.not_true, Bool.false_eq_true, if_false,
    read_uint32_le_of_le32 _ r.length hrlen _ h1, ne_eq, not_true_eq_false,
    Option.getD_some, consume_consume,
    read_and_save_image_ok env _ (some t) r rest h2 hmr hopen hdr,
    replace_faces_mutexed, World.setImageFile]

theorem wire_frame_ne_host_image_frame (msg : List Byte) (be : Bool) (data : List Byte) :
    wire_frame 3 [msg] ≠ host_image_frame be data := by
  intro h
  have h4 := congrArg (fun l => l.getD 4 0) h
  cases be <;> simp [wire_frame, host_image_frame, uint32_to_mem, le32, toByte] at h4

/-! ## Lemmas on a pass of the handler loop -/

theorem wire_frame_detect_append (d rest : List Byte) :
    wire_frame 0 [d] ++ rest
      = le32 0x23107231 ++ ((0 : Byte) :: (le32 d.length ++ (d ++ rest))) := by
  simp [wire_frame, wire_segments]
  rfl

/-- A pass over a detect request whose header is accepted and whose image is read
and saved: the result is that of the second half of `handle_protocol_image` on what
the engine returns for the image. -/
theorem client_handler_pass_detect (env : Env) (w : World) (c : Conn) (d rest : List Byte)
    (hin : c.sockf.input = wire_frame 0 [d] ++ rest) (hd : d ≠ [])
    (hdlen : d.length < 2 ^ 32) (hmax : d.length ≤ c.clientArgs.params.maxsize)
    (hmalloc : env.malloc_ok d.length = true) (hopen : env.fopen_wb_ok = true)
    (hdisk : d.length ≤ env.disk_room) :
    client_handler_pass env w c
      = (decide ((handle_protocol_image_respond env
              (w.setImageFile (env.detect_and_draw_faces (some d)).2)
              ((c.setSockf (c.sockf.consume 9)).setHeader 0 d.length)
              (c.sockf.consume (9 + d.length))
              (env.detect_and_draw_faces (some d)).1).1 ≠ COMMUNICATION_ERROR),
          (handle_protocol_image_respond env
              (w.setImageFile (env.detect_and_draw_faces (some d)).2)
              ((c.setSockf (c.sockf.consume 9)).setHeader 0 d.length)
              (c.sockf.consume (9 + d.length))
              (env.detect_and_draw_faces (some d)).1).2) := by
  rw [wire_frame_detect_append] at hin
  have hp := handle_protocol_prefix_ok env c _ hin
  have h1 : (c.setSockf (c.sockf.consume 4)).sockf.input
      = (0 : Byte) :: (le32 d.length ++ (d ++ rest)) := by
    simp [hin, le32_length]
  have hd0 : d.length ≠ 0 := by simpa using hd
  have hm : ¬ (c.clientArgs.params.maxsize ≠ 0 ∧ d.length > c.clientArgs.params.maxsize) := by
    omega
  have hh : handle_protocol_header (c.setSockf (c.sockf.consume 4))
      = (PROTOCOL_SUCCESS, (c.setSockf (c.sockf.consume 9)).setHeader 0 d.length) := by
    rw [handle_protocol_header_size _ 0 d.length _ h1 (Or.inl rfl) hdlen]
    simp [hd0, hm, consume_consume]
  have h2 : ((c.setSockf (c.sockf.consume 9)).setHeader 0 d.length).sockf.input
      = d ++ rest := by
    simp [hin, le32]
  have hi := handle_protocol_image_detect env w
    ((c.setSockf (c.sockf.consume 9)).setHeader 0 d.length) d rest (by simp) (by simp) h2
    hmalloc hopen hdisk
  rw [client_handler_pass_header env w c _ hp, hh]
  simp only [reduceCtorEq, if_false]
  rw [hi]
  simp only [setHeader_sockf, setSockf_sockf, consume_consume]

/-! ## Lemmas on `send_responsefile` and on short reads -/

/-- The fuel that `send_responsefile` passes to its loop is enough, whatever the
connection accepts. -/
theorem send_responsefile_loop_fuel (fuel : Nat) :
    ∀ (resp sockf : FILE), resp.input.length < fuel →
      ∃ s, send_responsefile_loop fuel resp sockf = some s := by
  induction fuel with
  | zero => intro resp sockf h; omega
  | succ n ih =>
    intro resp sockf h
    simp only [send_responsefile_loop]
    split
    · rename_i hpos
      apply ih
      simp only [fread, List.length_take, List.length_drop, BUFFER_SIZE] at hpos ⊢
      omega
    · exact ⟨_, rfl⟩

theorem client_handler_of_break (env : Env) (w : World) (c : Conn)
    (hfd : env.fdopen_ok = true)
    (h : (client_handler_pass env (client_handler_start env w) c).1 = false) :
    client_handler env w c
      = some (decrement_thread_and_socket_counts env
                (client_handler_pass env (client_handler_start env w) c).2.1,
              (client_handler_pass env (client_handler_start env w) c).2.2.close) := by
  simp only [client_handler, hfd, Bool.not_true, Bool.false_eq_true, if_false]
  rw [client_handler_loop_break env _ _ c h]
  rfl

/-! ## C9: a short read ends the connection -/

/-- The same run evaluated: the request is cut inside its size field, the handler
answers "invalid message" and closes; the two bytes of the size field that had
arrived were read, nothing else is left. -/
theorem client_handler_run_truncated :
    (client_handler env_example world_zero
        (conn_of [0x31, 0x72, 0x10, 0x23, 0, 3, 0] 100 10)).map
          (fun r => (r.2.sockf.output, r.2.sockf.input, r.2.isOpen))
      = some (wire_frame 3 [cstr "invalid message"], [], false) := by
  decide

/-! ## C11: what the engine is given for a replace request -/

/-- C11 fails on the code. For the replace request with the target image
`09 09 09` and the replacement image `05 06 07`, `read_and_save_image` first saves
the target to the working image file and then saves the replacement to the same
file, so that the file handed to `replace_faces_in_memory` holds the replacement
only; the reply carries `07 06 05`, what the engine of `env_example` makes of the
replacement. The same request with the target `02 02 02` leaves the same file and
gets the same reply: the target never reaches the engine
(`handle_protocol_image_replace` states this for every request). -/
theorem C11_replace_engine_gets_replacement_only :
    (read_and_save_image env_example (replace_body_conn [9, 9, 9] [5, 6, 7] 40).sockf
        world_zero.imageFile 3).2.2 = some [9, 9, 9]
    ∧ (read_and_save_image env_example
        ((replace_body_conn [9, 9, 9] [5, 6, 7] 40).sockf.consume 7) (some [9, 9, 9]) 3).2.2
          = some [5, 6, 7]
    ∧ handle_protocol_image env_example world_zero (replace_body_conn [9, 9, 9] [5, 6, 7] 40)
        = handle_protocol_image_respond env_example
            (world_zero.setImageFile (env_example.replace_faces_in_memory (some [5, 6, 7])).2)
            (replace_body_conn [9, 9, 9] [5, 6, 7] 40)
            ((replace_body_conn [9, 9, 9] [5, 6, 7] 40).sockf.consume 10)
            (env_example.replace_faces_in_memory (some [5, 6, 7])).1
    ∧ (handle_protocol_image env_example world_zero
        (replace_body_conn [9, 9, 9] [5, 6, 7] 40)).2.1.imageFile = some [7, 6, 5]
    ∧ written (replace_body_conn [9, 9, 9] [5, 6, 7] 40).sockf
        (handle_protocol_image env_example world_zero
          (replace_body_conn [9, 9, 9] [5, 6, 7] 40)).2.2.sockf = wire_frame 2 [[7, 6, 5]]
    ∧ (handle_protocol_image env_example world_zero
        (replace_body_conn [2, 2, 2] [5, 6, 7] 40)).2.1
          = (handle_protocol_image env_example world_zero
              (replace_body_conn [9, 9, 9] [5, 6, 7] 40)).2.1
    ∧ (handle_protocol_image env_example world_zero
        (replace_body_conn [2, 2, 2] [5, 6, 7] 40)).2.2.sockf.output
          = (handle_protocol_image env_example world_zero
              (replace_body_conn [9, 9, 9] [5, 6, 7] 40)).2.2.sockf.output := by
  decide

/-! ## Lemmas on failed writes and on the outcomes of the handler steps -/

theorem toByte_toU32_div (n k : Nat) (hk : k ≤ 24) :
    toByte (toU32 n / 2 ^ k) = toByte (n / 2 ^ k) := by
  apply Fin.ext
  simp only [toByte, toU32]
  have h32 : (2 : Nat) ^ 32 = 2 ^ k * 2 ^ (32 - k) := by
    rw [← Nat.pow_add]; congr 1; omega
  rw [h32, Nat.mod_mul_right_div_self]
  have h8 : (2 : Nat) ^ (32 - k) = 256 * 2 ^ (24 - k) := by
    have : 32 - k = 8 + (24 - k) := by omega
    rw [this, Nat.pow_add]
  rw [h8, Nat.mod_mul_right_mod]

theorem uint32_to_mem_toU32 (be : Bool) (n : Nat) :
    uint32_to_mem be (toU32 n) = uint32_to_mem be n := by
  have h0 : toByte (toU32 n) = toByte n := by
    have := toByte_toU32_div n 0 (by omega)
    simpa using this
  simp only [uint32_to_mem, h0, toByte_toU32_div n 8 (by omega),
    toByte_toU32_div n 16 (by omega), toByte_toU32_div n 24 (by omega)]

/-- `send_protocol_image` on a connection that takes the frame. -/
theorem send_protocol_image_ok (s : FILE) (data : List Byte) (hflush : s.flushOk = true)
    (hroom : 9 + data.length ≤ s.room) :
    send_protocol_image s data = (true, s.emit (host_image_frame s.bigEndian data)) := by
  simp only [send_protocol_image, uint32_to_mem_toU32]
  rw [fwrite_of_le s _ (by simp [uint32_to_mem_length]; omega)]
  simp only [uint32_to_mem_length, UINT32_NUM_BYTES, ne_eq, not_true_eq_false, if_false]
  rw [fputc_of_pos _ _ (by simp [uint32_to_mem_length]; omega)]
  simp only [fputc_ne_EOF, if_false, emit_emit]
  rw [fwrite_of_le _ _ (by simp [uint32_to_mem_length]; omega)]
  simp only [uint32_to_mem_length, ne_eq, not_true_eq_false, if_false, emit_emit]
  rw [fwrite_of_le _ _ (by simp [uint32_to_mem_length]; omega)]
  simp only [ne_eq, not_true_eq_false, if_false, emit_emit]
  rw [fflush_of_ok _ (by simpa using hflush)]
  simp [host_image_frame, PROTOCOL_PREFIX, OP_OUTPUT_IMAGE]
  rfl

theorem fwrite_full (s : FILE) (data : List Byte) (h : (fwrite s data).1 = data.length) :
    data.length ≤ s.room := by
  simp only [fwrite] at h
  omega

theorem fputc_not_EOF (c : Byte) (s : FILE) (h : ¬ (fputc c s).1 = EOF) : 0 < s.room := by
  by_contra h0
  have : s.room = 0 := by omega
  exact h (by simp [fputc, this])

theorem fflush_zero (s : FILE) (h : (fflush s).1 = 0) : s.flushOk = true := by
  by_contra hf
  simp [fflush, hf, EOF] at h

/-- `send_protocol_image` succeeds only on a connection that takes the whole frame
and whose flush succeeds. -/
theorem send_protocol_image_true (s : FILE) (data : List Byte)
    (h : (send_protocol_image s data).1 = true) :
    9 + data.length ≤ s.room ∧ s.flushOk = true := by
  simp only [send_protocol_image, uint32_to_mem_toU32, UINT32_NUM_BYTES] at h
  split_ifs at h with h1 h2 h3 h4 h5
  simp only [ne_eq, not_not] at h1 h3 h4 h5
  have e1 := fwrite_full s (uint32_to_mem s.bigEndian PROTOCOL_PREFIX)
    (by rw [h1, uint32_to_mem_length])
  rw [fwrite_of_le s _ e1] at h2 h3 h4 h5
  simp only [uint32_to_mem_length] at e1
  have e2 := fputc_not_EOF _ _ h2
  rw [fputc_of_pos _ _ e2] at h3 h4 h5
  simp only [emit_room, uint32_to_mem_length] at e2
  have e3 := fwrite_full _ (uint32_to_mem s.bigEndian data.length)
    (by rw [h3, uint32_to_mem_length])
  rw [fwrite_of_le _ _ e3] at h4 h5
  simp only [emit_room, uint32_to_mem_length, List.length_singleton] at e3
  have e4 := fwrite_full _ data h4
  rw [fwrite_of_le _ _ e4] at h5
  simp only [emit_room, uint32_to_mem_length, List.length_singleton] at e4
  have e5 := fflush_zero _ h5
  simp only [emit_flushOk] at e5
  exact ⟨by omega, e5⟩

/-- `send_protocol_image` on a connection that does not take the whole frame, or
whose flush fails. -/
theorem send_protocol_image_fails (s : FILE) (data : List Byte)
    (h : s.room < 9 + data.length ∨ s.flushOk = false) :
    (send_protocol_image s data).1 = false := by
  cases hr : (send_protocol_image s data).1 with
  | false => rfl
  | true =>
    have := send_protocol_image_true s data hr
    rcases h with h | h
    · omega
    · rw [this.2] at h
      exact absurd h (by decide)

/-- The second half of `handle_protocol_image` for a result of the engine other than
success: an error frame is attempted and the step returns `PROTOCOL_ERROR`, whatever
the connection accepts. -/
theorem respond_error_result (env : Env) (w : World) (c : Conn) (s : FILE) (result : Int)
    (h : result ≠ OPENCV_SUCCESS) :
    handle_protocol_image_respond env w c s result
      = (PROTOCOL_ERROR, w,
          c.setSockf (fflush (send_protocol_error_file s
            (if result = OPENCV_NO_FACES then invalidNoFaces else invalidImage))).2) := by
  have h2 : ¬ (OPENCV_NO_FACES = OPENCV_INVALID_IMAGE) := by decide
  have h2' : ¬ (OPENCV_INVALID_IMAGE = OPENCV_NO_FACES) := by decide
  by_cases h1 : result = OPENCV_INVALID_IMAGE
  · subst h1
    simp only [handle_protocol_image_respond, if_true, h2', if_false, Conn.setSockf]
  · by_cases h3 : result = OPENCV_NO_FACES
    · subst h3
      simp only [handle_protocol_image_respond, if_true, h2, if_false, Conn.setSockf]
    · simp only [handle_protocol_image_respond, h1, h3, h, if_false, Conn.setSockf]

/-- The second half of `handle_protocol_image` for the result success, when the
output file can be loaded and the connection takes the frame. -/
theorem respond_success_sent (env : Env) (w : World) (c : Conn) (s : FILE) (out : List Byte)
    (hfile : w.imageFile = some out) (hmalloc : env.malloc_ok out.length = true)
    (hflush : s.flushOk = true) (hroom : 9 + out.length ≤ s.room) :
    handle_protocol_image_respond env w c s OPENCV_SUCCESS
      = (PROTOCOL_SUCCESS, w, c.setSockf (s.emit (host_image_frame s.bigEndian out))) := by
  have h1 : ¬ (OPENCV_SUCCESS = OPENCV_INVALID_IMAGE) := by decide
  have h2 : ¬ (OPENCV_SUCCESS = OPENCV_NO_FACES) := by decide
  simp only [handle_protocol_image_respond, h1, h2, if_false, if_true, hfile,
    read_file_to_buffer, hmalloc, send_protocol_image_ok s out hflush hroom]
  rfl

theorem respond_world (env : Env) (w : World) (c : Conn) (s : FILE) (result : Int) :
    (handle_protocol_image_respond env w c s result).2.1 = w := by
  unfold handle_protocol_image_respond
  split_ifs
  · rfl
  · rfl
  · split
    · rfl
    · dsimp only
      split <;> rfl
  · rfl

/-! ## C14: a failed write of a response frame -/

theorem respond_success_write_fails (env : Env) (w : World) (c : Conn) (sockf : FILE)
    (out : List Byte) (hfile : w.imageFile = some out)
    (hmalloc : env.malloc_ok out.length = true)
    (h : sockf.room < 9 + out.length ∨ sockf.flushOk = false) :
    (handle_protocol_image_respond env w c sockf OPENCV_SUCCESS).1 = COMMUNICATION_ERROR := by
  have hs := send_protocol_image_fails sockf out h
  have hr : read_file_to_buffer env w.imageFile = some out := by
    simp [read_file_to_buffer, hfile, hmalloc]
  unfold handle_protocol_image_respond
  rw [if_neg (by decide), if_neg (by decide), if_pos rfl, hr]
  simp [hs]

theorem client_handler_pass_bad_op (env : Env) (w : World) (c : Conn) (op : Byte)
    (rest : List Byte) (hin : c.sockf.input = le32 0x23107231 ++ op :: rest)
    (h0 : op.val ≠ 0) (h1 : op.val ≠ 1) :
    client_handler_pass env w c
      = (true, w, c.setSockf
          (fflush (send_protocol_error_file (c.sockf.consume 5) invalidOpType)).2) := by
  have hp := handle_protocol_prefix_ok env c _ hin
  have hi : (c.setSockf (c.sockf.consume 4)).sockf.input = op :: rest := by
    simp [hin, le32_length]
  rw [client_handler_pass_header env w c _ hp,
    handle_protocol_header_bad_op _ op rest hi h0 h1]
  simp [consume_consume]

/-- C14 counterexample: a connection that accepts no byte (room 0) carries the valid
prefix and the opcode byte 7. The error frame "invalid operation type" cannot be
written: nothing reaches the connection and its error indicator is set. Yet
`handle_protocol_header` returns `PROTOCOL_ERROR`, not `COMMUNICATION_ERROR`, the
pass of the handler loop ends in `continue` and the connection stays open. -/
theorem C14_counterexample_failed_error_frame :
    (handle_protocol_header
        ((conn_of [0x31, 0x72, 0x10, 0x23, 7] 0 10).setSockf
          ((conn_of [0x31, 0x72, 0x10, 0x23, 7] 0 10).sockf.consume 4))).1 = PROTOCOL_ERROR
    ∧ (client_handler_pass env_example world_zero
        (conn_of [0x31, 0x72, 0x10, 0x23, 7] 0 10)).1 = true
    ∧ (client_handler_pass env_example world_zero
        (conn_of [0x31, 0x72, 0x10, 0x23, 7] 0 10)).2.2.sockf.output = []
    ∧ (client_handler_pass env_example world_zero
        (conn_of [0x31, 0x72, 0x10, 0x23, 7] 0 10)).2.2.sockf.err = true
    ∧ (client_handler_pass env_example world_zero
        (conn_of [0x31, 0x72, 0x10, 0x23, 7] 0 10)).2.2.isOpen = true := by
  decide

/-- C14, amended: the two kinds of response frame differ. When the output-image
frame cannot be written (the connection has no room for its `9 + |out|` bytes or
the flush fails), `handle_protocol_image` returns `COMMUNICATION_ERROR`, the pass of
the handler loop ends in `break` and `client_handler` closes the connection. When an
error-message frame is due, `send_protocol_error_file` reports nothing, so the
handler step returns `PROTOCOL_ERROR` whatever the connection accepts, also when the
write fails: for an engine result other than success, for an opcode other than 0
and 1, for the size 0 and for a size above a non-zero maximum; the pass then ends in
`continue` and the connection stays open. -/
theorem C14_write_failure_by_frame_kind (env : Env) (w : World) (c : Conn) :
    (∀ (sockf : FILE) (out : List Byte), w.imageFile = some out →
        env.malloc_ok out.length = true →
        (sockf.room < 9 + out.length ∨ sockf.flushOk = false) →
        (handle_protocol_image_respond env w c sockf OPENCV_SUCCESS).1 = COMMUNICATION_ERROR)
    ∧ (∀ (d rest out : List Byte), c.sockf.input = wire_frame 0 [d] ++ rest → d ≠ [] →
        d.length < 2 ^ 32 → d.length ≤ c.clientArgs.params.maxsize →
        env.malloc_ok d.length = true → env.fopen_wb_ok = true → d.length ≤ env.disk_room →
        env.detect_and_draw_faces (some d) = (OPENCV_SUCCESS, some out) →
        env.malloc_ok out.length = true →
        (c.sockf.room < 9 + out.length ∨ c.sockf.flushOk = false) →
        (handle_protocol_image env w
            ((c.setSockf (c.sockf.consume 9)).setHeader 0 d.length)).1 = COMMUNICATION_ERROR
        ∧ (client_handler_pass env w c).1 = false
        ∧ ∀ fuel : Nat, client_handler_loop env (fuel + 1) w c
            = some (client_handler_pass env w c).2)
    ∧ (env.fdopen_ok = true →
        (client_handler_pass env (client_handler_start env w) c).1 = false →
        ∃ r, client_handler env w c = some r ∧ r.2.isOpen = false)
    ∧ (∀ (sockf : FILE) (result : Int), result ≠ OPENCV_SUCCESS →
        (handle_protocol_image_respond env w c sockf result).1 = PROTOCOL_ERROR)
    ∧ (∀ (op : Byte) (rest : List Byte), c.sockf.input = op :: rest → op.val ≠ 0 →
        op.val ≠ 1 → (handle_protocol_header c).1 = PROTOCOL_ERROR)
    ∧ (∀ (op : Byte) (size : Nat) (rest : List Byte),
        c.sockf.input = op :: (le32 size ++ rest) → (op.val = 0 ∨ op.val = 1) →
        size < 2 ^ 32 →
        (size = 0 ∨ (c.clientArgs.params.maxsize ≠ 0 ∧ size > c.clientArgs.params.maxsize)) →
        (handle_protocol_header c).1 = PROTOCOL_ERROR)
    ∧ (∀ (op : Byte) (rest : List Byte), c.sockf.input = le32 0x23107231 ++ op :: rest →
        op.val ≠ 0 → op.val ≠ 1 →
        (client_handler_pass env w c).1 = true
        ∧ (client_handler_pass env w c).2.2.isOpen = c.isOpen
        ∧ ∀ fuel : Nat, client_handler_loop env (fuel + 1) w c
            = client_handler_loop env fuel (client_handler_pass env w c).2.1
                (client_handler_pass env w c).2.2) := by
  refine ⟨fun sockf out hf hm h => respond_success_write_fails env w c sockf out hf hm h,
    ?_, ?_, ?_, ?_, ?_, ?_⟩
  · intro d rest out hin hd hdlen hmax hmalloc hopen hdisk heng hmo hfail
    have hpass := client_handler_pass_detect env w c d rest hin hd hdlen hmax hmalloc hopen hdisk
    rw [wire_frame_detect_append] at hin
    have h2 : ((c.setSockf (c.sockf.consume 9)).setHeader 0 d.length).sockf.input
        = d ++ rest := by
      simp [hin, le32]
    have hi := handle_protocol_image_detect env w
      ((c.setSockf (c.sockf.consume 9)).setHeader 0 d.length) d rest (by simp) (by simp) h2
      hmalloc hopen hdisk
    simp only [setHeader_sockf, setSockf_sockf, consume_consume] at hi
    rw [heng] at hi hpass
    have hr := respond_success_write_fails env (w.setImageFile (some out))
      ((c.setSockf (c.sockf.consume 9)).setHeader 0 d.length)
      (c.sockf.consume (9 + d.length)) out rfl hmo (by simpa using hfail)
    have hp1 : (client_handler_pass env w c).1 = false := by
      rw [hpass]
      simp only [hr]
      decide
    refine ⟨by rw [hi]; exact hr, hp1, fun fuel => client_handler_loop_break env fuel w c hp1⟩
  · intro hfd hbreak
    exact ⟨_, client_handler_of_break env w c hfd hbreak, rfl⟩
  · intro sockf result hres
    rw [respond_error_result env w c sockf result hres]
  · intro op rest hin h0 h1
    rw [handle_protocol_header_bad_op c op rest hin h0 h1]
  · intro op size rest hin hop hsize hbad
    rw [handle_protocol_header_size c op size rest hin hop hsize]
    rcases hbad with h | h
    · rw [if_pos h]
    · by_cases h0 : size = 0
      · rw [if_pos h0]
      · rw [if_neg h0, if_pos h]
  · intro op rest hin h0 h1
    have hp := client_handler_pass_bad_op env w c op rest hin h0 h1
    have hp1 : (client_handler_pass env w c).1 = true := by rw [hp]
    exact ⟨hp1, by rw [hp]; rfl, fun fuel => client_handler_loop_continue env fuel w c hp1⟩

/-- C14 at a connection with room 0: the output-image frame of the file `07 06 05`
is not written and the step returns `COMMUNICATION_ERROR`. -/
theorem C14_write_failure_by_frame_kind_witness :
    (handle_protocol_image_respond env_example (world_zero.setImageFile (some [7, 6, 5]))
        (conn_of [] 0 10) (conn_of [] 0 10).sockf OPENCV_SUCCESS).1 = COMMUNICATION_ERROR :=
  (C14_write_failure_by_frame_kind env_example (world_zero.setImageFile (some [7, 6, 5]))
    (conn_of [] 0 10)).1 (conn_of [] 0 10).sockf [7, 6, 5] rfl rfl (Or.inl (by decide))

/-! ## Lemmas on `receive_request` -/

@[simp] theorem communication_error_status (st : Client) :
    (communication_error st).1 = .exited 13 := rfl

@[simp] theorem communication_error_outputFile (st : Client) :
    (communication_error st).2.outputFile = st.outputFile := rfl

/-- The bytes of a response frame behind the prefix are the opcode, the length and
the payload. -/
theorem wire_frame_one (op : Nat) (p : List Byte) :
    wire_frame op [p] = le32 0x23107231 ++ toByte op :: (le32 p.length ++ p) := by
  simp [wire_frame, wire_segments, PROTOCOL_PREFIX]

/-- The run of `receive_request` on a complete frame with one non-empty segment, up
to the test of the opcode. -/
theorem receive_request_frame (env : ClientEnv) (st : Client) (op : Byte) (p rest : List Byte)
    (hin : st.from_.input = le32 0x23107231 ++ op :: (le32 p.length ++ (p ++ rest)))
    (hp : p ≠ []) (hlen : p.length < 2 ^ 32) (hmalloc : env.malloc_ok p.length = true) :
    receive_request env st
      = if op.val = OP_OUTPUT_IMAGE then
          if (write_all st.outputFile p).1 ≠ 0 then
            communication_error (Client.mk (st.from_.consume (9 + p.length))
              (write_all st.outputFile p).2 st.stderr)
          else if (fflush (write_all st.outputFile p).2).1 ≠ 0 then
            communication_error (Client.mk (st.from_.consume (9 + p.length))
              (fflush (write_all st.outputFile p).2).2 st.stderr)
          else (.returned 0, Client.mk (st.from_.consume (9 + p.length))
              (fflush (write_all st.outputFile p).2).2 st.stderr)
        else if op.val = OP_ERROR_MSG then
          (.exited 9, Client.mk (st.from_.consume (9 + p.length)) st.outputFile
              (st.stderr ++ (serverErrorMessage_head
                ++ c_string (p ++ env.after_buffer) ++ serverErrorMessage_tail)))
        else communication_error (Client.mk (st.from_.consume (9 + p.length)) st.outputFile
              st.stderr) := by
  have h1 := read_uint32_le_of_le32 st.from_ 0x23107231 (by decide) _ hin
  have hi1 : (st.from_.consume 4).input = op :: (le32 p.length ++ (p ++ rest)) := by
    simp [hin, le32_length]
  have h2 := fgetc_cons (st.from_.consume 4) op _ hi1
  have hi2 : ((st.from_.consume 4).consume 1).input = le32 p.length ++ (p ++ rest) := by
    simp [hin, le32_length]
  have h3 := read_uint32_le_of_le32 ((st.from_.consume 4).consume 1) p.length hlen _ hi2
  have hi3 : p.length ≤ (((st.from_.consume 4).consume 1).consume 4).input.length := by
    simp [hin, le32_length]
  have h4 := read_all_of_le _ p.length hi3
  have ht : (((st.from_.consume 4).consume 1).consume 4).input.take p.length = p := by
    simp [hin, le32_length]
  have hp0 : p.length ≠ 0 := by simpa using hp
  have hne : ¬ ((op.val : Int) = EOF) := by
    simp only [EOF]; omega
  simp only [consume_consume, Nat.reduceAdd] at h2 h3 h4 ht
  unfold receive_request
  simp only [h1, h2, h3, h4, ht, hne, hp0, hmalloc, toByte_val, Option.getD_some,
    PROTOCOL_PREFIX, consume_consume, Nat.reduceAdd, EXIT_ERRMESSAGE_STATUS, Client.advance,
    emit_nil, ne_eq, not_true_eq_false, or_self, if_false, ite_false, Bool.true_eq_false]

theorem receive_request_prefix_short (env : ClientEnv) (st : Client)
    (h : st.from_.input.length < 4) :
    receive_request env st = communication_error (Client.mk st.from_.hitEnd st.outputFile
      st.stderr) := by
  have h1 := read_uint32_le_of_short st.from_ h
  unfold receive_request
  simp only [h1]
  rw [if_pos (Or.inl (by decide))]

theorem receive_request_prefix_other (env : ClientEnv) (st : Client) (b0 b1 b2 b3 : Byte)
    (rest : List Byte) (h : st.from_.input = b0 :: b1 :: b2 :: b3 :: rest)
    (hne : b0.val + 2 ^ 8 * b1.val + 2 ^ 16 * b2.val + 2 ^ 24 * b3.val ≠ 0x23107231) :
    receive_request env st = communication_error (Client.mk (st.from_.consume 4) st.outputFile
      st.stderr) := by
  have h1 := read_uint32_le_of_bytes st.from_ b0 b1 b2 b3 rest h
  unfold receive_request
  simp only [h1, Option.getD_some, PROTOCOL_PREFIX]
  rw [if_pos (Or.inr hne)]

theorem receive_request_no_opcode (env : ClientEnv) (st : Client)
    (h : st.from_.input = le32 0x23107231) :
    receive_request env st = communication_error (Client.mk (st.from_.consume 4).hitEnd
      st.outputFile st.stderr) := by
  have h1 := read_uint32_le_of_le32 st.from_ 0x23107231 (by decide) [] (by simpa using h)
  have h2 := fgetc_nil (st.from_.consume 4) (by simp [h, le32_length])
  unfold receive_request
  simp only [h1, h2, Option.getD_some, PROTOCOL_PREFIX, ne_eq, not_true_eq_false, or_self,
    if_false, ite_false, if_true, ite_true]

theorem receive_request_short_length (env : ClientEnv) (st : Client) (op : Byte)
    (rest : List Byte) (h : st.from_.input = le32 0x23107231 ++ op :: rest)
    (hrest : rest.length < 4) :
    receive_request env st = communication_error (Client.mk (st.from_.consume 5).hitEnd
      st.outputFile st.stderr) := by
  have h1 := read_uint32_le_of_le32 st.from_ 0x23107231 (by decide) _ h
  have hi1 : (st.from_.consume 4).input = op :: rest := by simp [h, le32_length]
  have h2 := fgetc_cons (st.from_.consume 4) op _ hi1
  have h3 := read_uint32_le_of_short ((st.from_.consume 4).consume 1)
    (by simpa [h, le32_length] using hrest)
  have hne : ¬ ((op.val : Int) = EOF) := by
    simp only [EOF]; omega
  simp only [consume_consume, Nat.reduceAdd] at h2 h3
  unfold receive_request
  simp only [h1, h2, h3, hne, Option.getD_some, PROTOCOL_PREFIX, ne_eq, not_true_eq_false,
    or_self, if_false, ite_false]
  rw [if_pos (by decide)]

theorem receive_request_short_payload (env : ClientEnv) (st : Client) (op : Byte) (n : Nat)
    (rest : List Byte) (h : st.from_.input = le32 0x23107231 ++ op :: (le32 n ++ rest))
    (hn : n < 2 ^ 32) (hrest : rest.length < n) :
    (receive_request env st).1 = .exited 13
    ∧ (receive_request env st).2.outputFile = st.outputFile := by
  have h1 := read_uint32_le_of_le32 st.from_ 0x23107231 (by decide) _ h
  have hi1 : (st.from_.consume 4).input = op :: (le32 n ++ rest) := by
    simp [h, le32_length]
  have h2 := fgetc_cons (st.from_.consume 4) op _ hi1
  have hi2 : ((st.from_.consume 4).consume 1).input = le32 n ++ rest := by
    simp [h, le32_length]
  have h3 := read_uint32_le_of_le32 ((st.from_.consume 4).consume 1) n hn _ hi2
  have h4 := read_all_of_lt (((st.from_.consume 4).consume 1).consume 4) n
    (by simpa [h, le32_length] using hrest)
  have hne : ¬ ((op.val : Int) = EOF) := by
    simp only [EOF]; omega
  have hn0 : n ≠ 0 := by omega
  simp only [consume_consume, Nat.reduceAdd] at h2 h3 h4
  unfold receive_request
  simp only [h1, h2, h3, h4, hne, hn0, Option.getD_some, PROTOCOL_PREFIX, ne_eq,
    not_true_eq_false, or_self, if_false, ite_false]
  by_cases hm : env.malloc_ok n = false
  · rw [if_pos hm]
    exact ⟨rfl, rfl⟩
  · rw [if_neg hm, if_pos (by decide)]
    exact ⟨rfl, rfl⟩

/-! ## C15: an output-image response is written to the output stream -/

/-- C15: let the input of the client start with a response frame that consists of
the prefix, the opcode 2, a length `n = |p|` with `0 < n < 2 ^ 32` and the `n` bytes
`p`, and let the environment work: the buffer is allocated, and the output stream
takes `n` bytes and is flushed. Then `receive_request` returns 0, has read exactly
the `9 + n` bytes of the frame, has written exactly `p` to the output stream and has
printed nothing to `stderr`. -/
theorem C15_output_image_is_written (env : ClientEnv) (st : Client) (p rest : List Byte)
    (hin : st.from_.input = wire_frame 2 [p] ++ rest) (hp : p ≠ [])
    (hlen : p.length < 2 ^ 32) (hmalloc : env.malloc_ok p.length = true)
    (hroom : p.length ≤ st.outputFile.room) (hflush : st.outputFile.flushOk = true) :
    receive_request env st = (.returned 0, st.advance (9 + p.length) p)
    ∧ written st.outputFile (receive_request env st).2.outputFile = p
    ∧ (receive_request env st).2.stderr = st.stderr := by
  have hin2 : st.from_.input = le32 0x23107231 ++ (2 : Byte) :: (le32 p.length ++ (p ++ rest)) := by
    rw [hin, wire_frame_one]
    simp [toByte]
  have h := receive_request_frame env st 2 p rest hin2 hp hlen hmalloc
  have hw := write_all_of_le st.outputFile p hroom
  have hf := fflush_of_ok (st.outputFile.emit p) (by simpa using hflush)
  have hr : receive_request env st = (.returned 0, st.advance (9 + p.length) p) := by
    rw [h, if_pos (by decide), hw, hf]
    simp [Client.advance]
  rw [hr]
  exact ⟨rfl, by simp [Client.advance, written_emit], rfl⟩

/-- C15 for the payload `05 06 07`. -/
theorem C15_output_image_is_written_witness :
    receive_request (client_env []) (client_of (wire_frame 2 [[5, 6, 7]] ++ []) 10)
      = (.returned 0, (client_of (wire_frame 2 [[5, 6, 7]] ++ []) 10).advance (9 + 3) [5, 6, 7]) :=
  (C15_output_image_is_written (client_env []) (client_of (wire_frame 2 [[5, 6, 7]] ++ []) 10)
    [5, 6, 7] [] rfl (by decide) (by decide) rfl (by decide) rfl).1

/-! ## C16: the text of an error response -/

/-- C16 fails on the code: `receive_request` prints the payload of an error frame
with `fprintf(stderr, "...%s...", buffer)`, and the buffer of `dataSize` bytes holds
the text without a NUL byte behind it, so `%s` reads on into the memory behind the
buffer until it meets a NUL byte. For the frame that `send_protocol_error_file`
writes for "invalid image", with the bytes `58 00` behind the buffer, the client
prints the text "invalid imageX", not "invalid image"; the status is 9 and nothing
is written to the output stream. The text is the one of the frame only when a NUL
byte happens to follow the buffer. For the empty text the frame has the length 0
and the client ends with the status 13. -/
theorem C16_error_text_reads_past_buffer :
    written (stream_of [] 40) (send_protocol_error_file (stream_of [] 40) (cstr "invalid image"))
      = wire_frame 3 [cstr "invalid image"]
    ∧ (receive_request (client_env [0x58, 0])
        (client_of (wire_frame 3 [cstr "invalid image"]) 10)).1 = .exited 9
    ∧ (receive_request (client_env [0x58, 0])
        (client_of (wire_frame 3 [cstr "invalid image"]) 10)).2.stderr
      = cstr "uqfaceclient: received the following error message: \"invalid imageX\"\n"
    ∧ (receive_request (client_env [0x58, 0])
        (client_of (wire_frame 3 [cstr "invalid image"]) 10)).2.outputFile.output = []
    ∧ (receive_request (client_env [0, 0x58])
        (client_of (wire_frame 3 [cstr "invalid image"]) 10)).2.stderr
      = cstr "uqfaceclient: received the following error message: \"invalid image\"\n"
    ∧ (receive_request (client_env [0])
        (client_of (wire_frame 3 [cstr ""]) 10)).1 = .exited 13 := by
  decide

/-! ## C17: a malformed or truncated response -/

/-- C17: `receive_request` ends the process with the status 13 of a communication
error, and leaves the output stream as it was, in each of these cases: the input
ends before the four bytes of the prefix; the first four bytes do not decode to
`0x23107231`; the input ends after the prefix; it ends before the four bytes of the
length; it ends before all `n` bytes of the announced length `n`. -/
theorem C17_malformed_response_is_fatal (env : ClientEnv) (st : Client) :
    (st.from_.input.length < 4 →
      (receive_request env st).1 = .exited 13
      ∧ (receive_request env st).2.outputFile = st.outputFile)
    ∧ (∀ (b0 b1 b2 b3 : Byte) (rest : List Byte),
        st.from_.input = b0 :: b1 :: b2 :: b3 :: rest →
        b0.val + 2 ^ 8 * b1.val + 2 ^ 16 * b2.val + 2 ^ 24 * b3.val ≠ 0x23107231 →
        (receive_request env st).1 = .exited 13
        ∧ (receive_request env st).2.outputFile = st.outputFile)
    ∧ (st.from_.input = le32 0x23107231 →
        (receive_request env st).1 = .exited 13
        ∧ (receive_request env st).2.outputFile = st.outputFile)
    ∧ (∀ (op : Byte) (rest : List Byte),
        st.from_.input = le32 0x23107231 ++ op :: rest → rest.length < 4 →
        (receive_request env st).1 = .exited 13
        ∧ (receive_request env st).2.outputFile = st.outputFile)
    ∧ (∀ (op : Byte) (n : Nat) (rest : List Byte),
        st.from_.input = le32 0x23107231 ++ op :: (le32 n ++ rest) → n < 2 ^ 32 →
        rest.length < n →
        (receive_request env st).1 = .exited 13
        ∧ (receive_request env st).2.outputFile = st.outputFile) := by
  refine ⟨fun h => ?_, fun b0 b1 b2 b3 rest h hne => ?_, fun h => ?_,
    fun op rest h hrest => ?_, fun op n rest h hn hrest => ?_⟩
  · rw [receive_request_prefix_short env st h]; exact ⟨rfl, rfl⟩
  · rw [receive_request_prefix_other env st b0 b1 b2 b3 rest h hne]; exact ⟨rfl, rfl⟩
  · rw [receive_request_no_opcode env st h]; exact ⟨rfl, rfl⟩
  · rw [receive_request_short_length env st op rest h hrest]; exact ⟨rfl, rfl⟩
  · exact receive_request_short_payload env st op n rest h hn hrest

/-- C17 for a response that announces 5 payload bytes and carries 2. -/
theorem C17_malformed_response_is_fatal_witness :
    (receive_request (client_env [])
        (client_of (le32 0x23107231 ++ 2 :: (le32 5 ++ [1, 2])) 10)).1 = .exited 13
    ∧ (receive_request (client_env [])
        (client_of (le32 0x23107231 ++ 2 :: (le32 5 ++ [1, 2])) 10)).2.outputFile
      = (client_of (le32 0x23107231 ++ 2 :: (le32 5 ++ [1, 2])) 10).outputFile :=
  (C17_malformed_response_is_fatal (client_env [])
    (client_of (le32 0x23107231 ++ 2 :: (le32 5 ++ [1, 2])) 10)).2.2.2.2 2 5 [1, 2] rfl
      (by decide) (by decide)

/-! ## C18: the byte order of the output-image frame -/

/-- C18 fails on the code for a big-endian host: `send_protocol_image` writes the
prefix and the size with `fwrite(&prefix, 1, 4, sockf)` and
`fwrite(&imageSize, 1, 4, sockf)`, that is, in the byte order of the host. For the
one-byte image `AA` a big-endian host sends `23 10 72 31 02 00 00 00 01 AA`, while
the frame of the wire format is `31 72 10 23 02 01 00 00 00 AA`, which is what a
little-endian host sends. -/
theorem C18_image_frame_in_host_byte_order :
    send_protocol_image (stream_of [] 20).onBigEndianHost [0xAA]
      = (true, (stream_of [] 20).onBigEndianHost.emit
          [0x23, 0x10, 0x72, 0x31, 2, 0, 0, 0, 1, 0xAA])
    ∧ wire_frame 2 [[0xAA]] = [0x31, 0x72, 0x10, 0x23, 2, 1, 0, 0, 0, 0xAA]
    ∧ written (stream_of [] 20).onBigEndianHost
        (send_protocol_image (stream_of [] 20).onBigEndianHost [0xAA]).2
      ≠ wire_frame 2 [[0xAA]]
    ∧ written (stream_of [] 20) (send_protocol_image (stream_of [] 20) [0xAA]).2
      = wire_frame 2 [[0xAA]] := by
  decide

/-! ## C19: the kind of request that `send_request` writes -/

theorem send_request_empty_replacement (s : FILE) (d : List Byte) (hd : d ≠ [])
    (hflush : s.flushOk = true) (hroom : 9 + d.length ≤ s.room) :
    send_request s (some d) (some []) = (.returned 0, s.emit (wire_frame 0 [d])) := by
  have hd0 : d.length ≠ 0 := by simpa using hd
  simp only [send_request, hd0, if_false]
  rw [write_uint32_le_of_le s _ (by omega)]
  simp only [ne_eq, not_true_eq_false, if_false, List.length_nil, gt_iff_lt,
    lt_self_iff_false]
  rw [fputc_of_pos _ _ (by simp [le32_length]; omega)]
  simp only [fputc_ne_EOF, if_false, emit_emit]
  rw [write_uint32_le_of_le _ _ (by simp [le32_length]; omega)]
  simp only [ne_eq, not_true_eq_false, if_false, emit_emit]
  rw [write_all_of_le _ _ (by simp [le32_length]; omega)]
  simp only [ne_eq, not_true_eq_false, if_false, emit_emit, OP_FACE_DETECT, OP_FACE_REPLACE,
    Nat.zero_ne_one]
  rw [fflush_of_ok _ (by simpa using hflush)]
  simp [wire_frame, wire_segments, le32_toU32, PROTOCOL_PREFIX]

/-- C19 counterexample: `send_request` is given the detect image `07 08 09` and a
non-NULL `replaceData` of size 0 (what `read_file` returns for an empty replacement
file). The request it writes is the detect request with opcode 0 and one segment,
`31 72 10 23 00 03 00 00 00 07 08 09`, not a replace request. -/
theorem C19_counterexample_empty_replacement :
    send_request (stream_of [] 20) (some [7, 8, 9]) (some [])
      = (.returned 0, (stream_of [] 20).emit (wire_frame 0 [[7, 8, 9]]))
    ∧ wire_frame 0 [[7, 8, 9]] = [0x31, 0x72, 0x10, 0x23, 0, 3, 0, 0, 0, 7, 8, 9] := by
  decide

/-- C19, amended: for a non-empty detect image `d` on a stream that takes the
request, `send_request` writes a replace request (opcode 1, the target image `d`
first and the replacement image second) exactly when `replaceData` is non-NULL and
`replaceSize` is above 0; when `replaceData` is NULL or its size is 0 it writes a
detect request (opcode 0, the one segment `d`). -/
theorem C19_request_kind_by_replacement (s : FILE) (d : List Byte)
    (r : Option (List Byte)) (hd : d ≠ []) (hflush : s.flushOk = true)
    (hroom : 13 + d.length + (r.getD []).length ≤ s.room) :
    (∀ x, r = some x → x ≠ [] →
      send_request s (some d) r = (.returned 0, s.emit (wire_frame 1 [d, x])))
    ∧ ((r = none ∨ r = some []) →
      send_request s (some d) r = (.returned 0, s.emit (wire_frame 0 [d]))) := by
  constructor
  · intro x hr hx
    subst hr
    exact send_request_replace s d x hd hx hflush (by simpa using hroom)
  · rintro (hr | hr)
    · subst hr
      exact send_request_detect s d hd hflush (by omega)
    · subst hr
      exact send_request_empty_replacement s d hd hflush (by omega)

/-- C19 for the target image `07 08 09` and the replacement image `05 06`. -/
theorem C19_request_kind_by_replacement_witness :
    send_request (stream_of [] 20) (some [7, 8, 9]) (some [5, 6])
      = (.returned 0, (stream_of [] 20).emit (wire_frame 1 [[7, 8, 9], [5, 6]])) :=
  (C19_request_kind_by_replacement (stream_of [] 20) [7, 8, 9] (some [5, 6]) (by decide) rfl
    (by decide)).1 [5, 6] rfl (by decide)

/-! ## C20: a detect image of size 0 -/

/-- C20: `send_request` with a detect image of size 0 ends the process with the
status 13 of a communication error before it writes anything: the stream is as it
was, whatever the replacement image is. The same holds for a NULL `detectData`. -/
theorem C20_empty_detect_image_rejected (to_ : FILE) (r : Option (List Byte)) :
    send_request to_ (some []) r = (.exited 13, to_)
    ∧ written to_ (send_request to_ (some []) r).2 = []
    ∧ send_request to_ none r = (.exited 13, to_) := by
  simp [send_request, written, EXIT_COMMERR_STATUS]

/-! ## C21: the counters over the life of a connection -/

/-- C21 fails on the code: `activeSocketCount` is incremented for every accepted
connection, but three ways out do not decrement it. (1) When `fdopen` fails,
`client_handler` closes the descriptor and returns before
`decrement_thread_and_socket_counts`. (2) When `malloc` fails and (3) when
`pthread_create` fails, `start_server` closes the descriptor and goes on with
`continue`. In each case one connection from a server with all counters 0 ends
closed with `activeSocketCount = 1`. On the way through a handler that starts, the
counters are back at 0 and `totalThreadCount` is 1. -/
theorem C21_socket_count_not_decremented_on_early_exit :
    (connection_life env_fdopen_fails accept_ok ⟨10, 10⟩ world_zero
        (conn_of (wire_frame 0 [[5, 6, 7]]) 40 10)).map
          (fun r => (r.1.shared, r.2.isOpen)) = some (⟨0, 0, 1⟩, false)
    ∧ (connection_life env_example ⟨false, true⟩ ⟨10, 10⟩ world_zero
        (conn_of (wire_frame 0 [[5, 6, 7]]) 40 10)).map
          (fun r => (r.1.shared, r.2.isOpen)) = some (⟨0, 0, 1⟩, false)
    ∧ (connection_life env_example ⟨true, false⟩ ⟨10, 10⟩ world_zero
        (conn_of (wire_frame 0 [[5, 6, 7]]) 40 10)).map
          (fun r => (r.1.shared, r.2.isOpen)) = some (⟨0, 0, 1⟩, false)
    ∧ (connection_life env_example accept_ok ⟨10, 10⟩ world_zero
        (conn_of (wire_frame 0 [[5, 6, 7]]) 40 10)).map
          (fun r => (r.1.shared, r.2.isOpen)) = some (⟨1, 0, 0⟩, false) := by
  decide

/-! ## Lemmas on the counters -/

theorem handle_protocol_image_shared (env : Env) (w : World) (c : Conn) :
    (handle_protocol_image env w c).2.1.shared = w.shared := by
  unfold handle_protocol_image
  dsimp only
  split_ifs <;> simp only [respond_world]

theorem client_handler_pass_shared (env : Env) (w : World) (c : Conn) :
    (client_handler_pass env w c).2.1.shared = w.shared := by
  unfold client_handler_pass
  dsimp only
  split_ifs <;> first | rfl | exact handle_protocol_image_shared env w _

theorem start_server_pass_shared (env : Env) (a : AcceptEnv) (params : CmdLineParams)
    (w : World) (c : Conn) :
    (start_server_pass env a params w (some c)).1.shared
      = ⟨w.shared.totalThreadCount, w.shared.activeThreadCount,
          w.shared.activeSocketCount + 1⟩ := by
  unfold start_server_pass
  dsimp only
  split_ifs <;> rfl

theorem Server.step_counts_ok (env : Env) (st : ServerStep) (s s1 : Server)
    (h : s.step env st = some s1) (hs : s.counts_ok) : s1.counts_ok := by
  obtain ⟨h1, h2, h3⟩ := hs
  cases st with
  | accept a params c =>
    simp only [Server.step] at h
    have hw := start_server_pass_shared env a params s.w c
    split_ifs at h <;> cases h <;>
      simp only [Server.counts_ok, hw, h1, h2, h3] <;> refine ⟨?_, trivial, trivial⟩ <;>
      push_cast <;> ring
  | handler_start =>
    simp only [Server.step] at h
    split_ifs at h with h0 hf
    · cases h
      refine ⟨?_, h2, h3⟩
      simp only [h1]
      omega
    · cases h
      simp only [Server.counts_ok, client_handler_start, h1, h2, h3]
      refine ⟨?_, ?_, ?_⟩ <;> omega
  | handler_pass c =>
    simp only [Server.step] at h
    split_ifs at h
    cases h
    simp only [Server.counts_ok, client_handler_pass_shared]
    exact ⟨h1, h2, h3⟩
  | handler_close =>
    simp only [Server.step] at h
    split_ifs at h with h0
    cases h
    simp only [Server.counts_ok, h1, h2, h3]
    refine ⟨?_, ?_, ?_⟩ <;> omega
  | handler_exit =>
    simp only [Server.step] at h
    split_ifs at h with h0
    cases h
    simp only [Server.counts_ok, decrement_thread_and_socket_counts, h1, h2, h3]
    refine ⟨?_, ?_, ?_⟩ <;> omega

theorem Server.run_counts_ok (steps : List (Env × ServerStep)) (s s1 : Server)
    (h : Server.run steps s = some s1) (hs : s.counts_ok) : s1.counts_ok := by
  induction steps generalizing s with
  | nil =>
    simp only [Server.run, Option.some.injEq] at h
    exact h ▸ hs
  | cons x rest ih =>
    obtain ⟨env, st⟩ := x
    simp only [Server.run] at h
    cases hstep : s.step env st with
    | none => simp [hstep] at h
    | some s2 =>
      rw [hstep] at h
      exact ih s2 h (Server.step_counts_ok env st s s2 hstep hs)

theorem Server.start_counts_ok (env : Env) (w0 : World) : (Server.start env w0).counts_ok := by
  simp [Server.counts_ok, Server.start, main_init]

/-- What holds in every state of the server that a run reaches from the start:
the counters are not negative; `activeThreadCount` exceeds the number of open
connections by at most the number of handlers that are between their `fclose` and
`decrement_thread_and_socket_counts`; and `activeSocketCount` exceeds it by that
number and the number of connections that were closed without the decrement. Once no
connection is open and no handler is between the two, `activeThreadCount` is 0,
`totalThreadCount` is the number of handlers that started and left, and
`activeSocketCount` is the number of the connections closed without the
decrement. -/
theorem Server.reachable_bounds (env : Env) (w0 : World) (steps : List (Env × ServerStep))
    (s : Server) (h : Server.run steps (Server.start env w0) = some s) :
    0 ≤ s.w.shared.activeThreadCount ∧ 0 ≤ s.w.shared.activeSocketCount
    ∧ 0 ≤ s.w.shared.totalThreadCount
    ∧ s.w.shared.activeThreadCount ≤ (s.open_connections + s.closing : Nat)
    ∧ s.w.shared.activeSocketCount = (s.open_connections + s.closing + s.dropped : Nat)
    ∧ (s.open_connections = 0 → s.closing = 0 →
        s.w.shared.activeThreadCount = 0 ∧ s.w.shared.activeSocketCount = (s.dropped : Nat)
        ∧ s.w.shared.totalThreadCount = (s.ended : Nat)) := by
  obtain ⟨h1, h2, h3⟩ := Server.run_counts_ok steps _ s h (Server.start_counts_ok env w0)
  simp only [Server.open_connections]
  refine ⟨by omega, by omega, by omega, by omega, by omega, fun h0 hc => ?_⟩
  have hsp : s.spawned = 0 := by omega
  have hru : s.running = 0 := by omega
  simp only [h1, h2, h3, hsp, hru, hc]
  refine ⟨rfl, by simp, by simp⟩

/-- A handler that has closed its connection is still counted until it enters
`decrement_thread_and_socket_counts`: after an accept pass, a handler start and the
`fclose` of the handler, both `activeThreadCount` and `activeSocketCount` are 1 and
no connection is open; the exit section of the handler brings both to 0. -/
theorem Server.counts_between_close_and_exit :
    (Server.run [(env_example, .accept accept_ok ⟨10, 10⟩ (conn_of [] 40 10)),
          (env_example, .handler_start), (env_example, .handler_close)]
        (Server.start env_example world_zero)).map
          (fun s => (s.w.shared.activeThreadCount, s.w.shared.activeSocketCount,
            s.open_connections)) = some (1, 1, 0)
    ∧ (Server.run [(env_example, .accept accept_ok ⟨10, 10⟩ (conn_of [] 40 10)),
          (env_example, .handler_start), (env_example, .handler_close),
          (env_example, .handler_exit)]
        (Server.start env_example world_zero)).map
          (fun s => (s.w.shared.activeThreadCount, s.w.shared.activeSocketCount,
            s.open_connections)) = some (0, 0, 0) := by
  decide

/-! ## C22: the counters and the open connections -/

/-- C22 fails on the code for `activeSocketCount`: a state in which it exceeds the
number of open connections is reached in one step, a pass of the accept loop in
which `malloc` fails (the connection is counted, then closed), and as well in two
steps, an accept pass and a handler start in which `fdopen` fails. In both states
`activeSocketCount` is 1 and no connection is open. The defect is the one of C21,
the missing decrement on the early ways out. (`Server.reachable_bounds` has the
parts of the claim that hold in every reachable state.) -/
theorem C22_socket_count_exceeds_open_connections :
    (Server.run [(env_example, .accept ⟨false, true⟩ ⟨10, 10⟩ (conn_of [] 40 10))]
        (Server.start env_example world_zero)).map
          (fun s => (s.w.shared.activeSocketCount, s.open_connections)) = some (1, 0)
    ∧ (Server.run [(env_example, .accept accept_ok ⟨10, 10⟩ (conn_of [] 40 10)),
          (env_fdopen_fails, .handler_start)]
        (Server.start env_example world_zero)).map
          (fun s => (s.w.shared.activeSocketCount, s.open_connections)) = some (1, 0) := by
  decide

/-! ## Lemmas on the locked sections and on the mutex -/

theorem handle_protocol_image_world (env : Env) (w : World) (c : Conn) :
    ∃ f, (handle_protocol_image env w c).2.1 = w.setImageFile f := by
  unfold handle_protocol_image
  dsimp only
  split_ifs <;> first | exact ⟨_, rfl⟩ | (rw [respond_world]; exact ⟨_, rfl⟩)

theorem client_handler_pass_world (env : Env) (w : World) (c : Conn) :
    ∃ f, (client_handler_pass env w c).2.1 = w.setImageFile f := by
  unfold client_handler_pass
  dsimp only
  split_ifs <;> first | exact ⟨w.imageFile, rfl⟩ | exact handle_protocol_image_world env w _

theorem mirrors_agree_setImageFile (w : World) (f : Option (List Byte))
    (h : mirrors_agree w) : mirrors_agree (w.setImageFile f) := h

theorem mirrors_agree_main_init (env : Env) (hfiles : env.count_files_ok = true)
    (w0 : World) : mirrors_agree (main_init env w0) := by
  simp [mirrors_agree, main_init, write_count_to_file, hfiles]

theorem mirrors_agree_start_server_count (env : Env) (hfiles : env.count_files_ok = true)
    (w : World) (h : mirrors_agree w) : mirrors_agree (start_server_count env w) := by
  obtain ⟨h1, h2, _⟩ := h
  simp [mirrors_agree, start_server_count, write_count_to_file, hfiles, h1, h2]

theorem mirrors_agree_client_handler_start (env : Env) (hfiles : env.count_files_ok = true)
    (w : World) (h : mirrors_agree w) : mirrors_agree (client_handler_start env w) := by
  obtain ⟨_, _, h3⟩ := h
  simp [mirrors_agree, client_handler_start, write_count_to_file, hfiles, h3]

theorem mirrors_agree_decrement (env : Env) (hfiles : env.count_files_ok = true)
    (w : World) (h : mirrors_agree w) :
    mirrors_agree (decrement_thread_and_socket_counts env w) := by
  obtain ⟨h1, _, _⟩ := h
  simp [mirrors_agree, decrement_thread_and_socket_counts, write_count_to_file, hfiles, h1]

theorem Server.step_mirrors_agree (env : Env) (hfiles : env.count_files_ok = true)
    (st : ServerStep) (s s1 : Server) (h : s.step env st = some s1)
    (hs : mirrors_agree s.w) : mirrors_agree s1.w := by
  cases st with
  | accept a params c =>
    have hw : (start_server_pass env a params s.w (some c)).1 = start_server_count env s.w := by
      unfold start_server_pass
      dsimp only
      split_ifs <;> rfl
    simp only [Server.step, hw] at h
    split_ifs at h <;> cases h <;> exact mirrors_agree_start_server_count env hfiles _ hs
  | handler_start =>
    simp only [Server.step] at h
    split_ifs at h
    · cases h; exact hs
    · cases h; exact mirrors_agree_client_handler_start env hfiles _ hs
  | handler_pass c =>
    simp only [Server.step] at h
    split_ifs at h
    cases h
    obtain ⟨f, hf⟩ := client_handler_pass_world env s.w c
    simp only [hf]
    exact hs
  | handler_close =>
    simp only [Server.step] at h
    split_ifs at h
    cases h
    exact hs
  | handler_exit =>
    simp only [Server.step] at h
    split_ifs at h
    cases h
    exact mirrors_agree_decrement env hfiles _ hs

theorem Server.run_mirrors_agree (steps : List (Env × ServerStep))
    (hfiles : ∀ x ∈ steps, x.1.count_files_ok = true) (s s1 : Server)
    (h : Server.run steps s = some s1) (hs : mirrors_agree s.w) : mirrors_agree s1.w := by
  induction steps generalizing s with
  | nil =>
    simp only [Server.run, Option.some.injEq] at h
    exact h ▸ hs
  | cons x rest ih =>
    obtain ⟨env, st⟩ := x
    simp only [Server.run] at h
    cases hstep : s.step env st with
    | none => simp [hstep] at h
    | some s2 =>
      rw [hstep] at h
      exact ih (fun y hy => hfiles y (List.mem_cons_of_mem _ hy)) s2 h
        (Server.step_mirrors_agree env (hfiles (env, st) (List.mem_cons_self _ _)) st s s2
          hstep hs)

theorem guarded_held (held inside : Bool) (op : Op) (rest : List Op)
    (h : guarded held inside (op :: rest) = true) (hop : op ≠ .lock) : held = true := by
  cases op <;> simp_all [guarded]

theorem guarded_lock (held inside : Bool) (rest : List Op)
    (h : guarded held inside (.lock :: rest) = true) : held = false := by
  simp_all [guarded]

theorem guarded_inside (held : Bool) (ops : List Op)
    (h : guarded held true ops = true) : held = true := by
  cases ops with
  | nil => simp [guarded] at h
  | cons op rest => cases op <;> simp_all [guarded]

theorem guarded_next (held inside : Bool) (op : Op) (rest : List Op)
    (h : guarded held inside (op :: rest) = true) :
    guarded (decide (op ≠ .unlock)) (op.inside_after inside) rest = true := by
  cases held <;> cases inside <;> cases op <;> simp_all [guarded, Op.inside_after]

theorem guarded_append (held inside : Bool) (a b : List Op)
    (ha : guarded held inside a = true) (hb : guarded false false b = true) :
    guarded held inside (a ++ b) = true := by
  induction a generalizing held inside with
  | nil =>
    simp only [guarded, Bool.and_eq_true, Bool.not_eq_true'] at ha
    obtain ⟨h1, h2⟩ := ha
    subst h1 h2
    exact hb
  | cons op rest ih =>
    cases op <;>
      (simp only [List.cons_append, guarded, Bool.and_eq_true] at ha ⊢
       exact ⟨ha.1, ih _ _ ha.2⟩)

theorem guarded_engine_ops (calls : List Bool) : guarded false false (engine_ops calls) = true := by
  induction calls with
  | nil => rfl
  | cons r rest ih =>
    cases r
    · exact guarded_append _ _ _ _ (by decide) ih
    · exact guarded_append _ _ _ _ (by decide) ih

theorem guarded_handler_ops (calls : List Bool) :
    guarded false false (handler_ops calls) = true :=
  guarded_append _ _ _ _ (by decide)
    (guarded_append _ _ _ _ (guarded_engine_ops calls) (by decide))

theorem guarded_start_server_ops (n : Nat) :
    guarded false false (start_server_ops n) = true := by
  induction n with
  | zero => rfl
  | succ n ih => exact guarded_append _ _ _ _ (by decide) ih

theorem mutex_after_self (i : Nat) (mutex : Option Nat) (inside : Bool) (op : Op)
    (rest : List Op) (h : guarded (decide (mutex = some i)) inside (op :: rest) = true) :
    decide (op.mutex_after i mutex = some i) = decide (op ≠ .unlock) := by
  have hh := fun hop => guarded_held _ _ op rest h hop
  cases op <;> simp_all [Op.mutex_after]

theorem mutex_after_other (i j : Nat) (hij : i ≠ j) (mutex : Option Nat) (inside : Bool)
    (op : Op) (rest : List Op)
    (h : guarded (decide (mutex = some i)) inside (op :: rest) = true)
    (hfree : ¬ (op = .lock ∧ mutex.isSome = true)) :
    decide (op.mutex_after i mutex = some j) = decide (mutex = some j) := by
  have hh := fun hop => guarded_held _ _ op rest h hop
  cases op <;> simp_all [Op.mutex_after]

theorem Machine.step_inv (env : Env) (m m1 : Machine) (i : Nat)
    (h : m.step env i = some m1) (hm : m.inv) : m1.inv := by
  unfold Machine.step at h
  cases ht : m.threads[i]? with
  | none => simp [ht] at h
  | some t =>
    cases htodo : t.todo with
    | nil => simp [ht, htodo] at h
    | cons op rest =>
      simp only [ht, htodo] at h
      split_ifs at h with hblocked
      cases h
      have hg := hm i t ht
      rw [htodo] at hg
      intro j tj hj
      by_cases hij : i = j
      · subst hij
        have hlt : i < m.threads.length := by
          by_contra hge
          rw [List.getElem?_eq_none (by omega)] at ht
          cases ht
        simp only [List.getElem?_set_self hlt, Option.some.injEq] at hj
        subst hj
        simp only [mutex_after_self i m.mutex t.inside op rest hg]
        exact guarded_next _ _ op rest hg
      · simp only [List.getElem?_set_ne hij] at hj
        simp only [mutex_after_other i j hij m.mutex t.inside op rest hg hblocked]
        exact hm j tj hj

theorem Machine.run_inv (env : Env) (schedule : List Nat) (m m1 : Machine)
    (h : Machine.run env schedule m = some m1) (hm : m.inv) : m1.inv := by
  induction schedule generalizing m with
  | nil =>
    simp only [Machine.run, Option.some.injEq] at h
    exact h ▸ hm
  | cons i rest ih =>
    simp only [Machine.run] at h
    cases hstep : m.step env i with
    | none => simp [hstep] at h
    | some m2 =>
      rw [hstep] at h
      exact ih m2 h (Machine.step_inv env m m2 i hstep hm)

theorem Machine.init_inv (w : World) (programs : List (List Op))
    (hp : ∀ p ∈ programs, guarded false false p = true) : (Machine.init w programs).inv := by
  intro i t ht
  simp only [Machine.init, List.getElem?_map, Option.map_eq_some'] at ht
  obtain ⟨p, hp1, hp2⟩ := ht
  subst hp2
  simpa [Machine.init] using hp p (List.getElem?_mem hp1)

/-- In every state that the threads of the server reach, a thread that is inside an
engine function, or whose next statement is any other than `lock`, holds the
mutex; so at most one thread is at such a point. -/
theorem Machine.reachable_holder (env : Env) (w : World) (programs : List (List Op))
    (hp : ∀ p ∈ programs, guarded false false p = true) (schedule : List Nat) (m : Machine)
    (h : Machine.run env schedule (Machine.init w programs) = some m) (i : Nat) (t : Thread)
    (ht : m.threads[i]? = some t) :
    (t.inside = true → m.mutex = some i)
    ∧ (∀ (op : Op) (rest : List Op), t.todo = op :: rest → op ≠ .lock → m.mutex = some i) := by
  have hinv := Machine.run_inv env schedule _ m h (Machine.init_inv w programs hp) i t ht
  constructor
  · intro hin
    rw [hin] at hinv
    simpa using guarded_inside _ _ hinv
  · intro op rest htodo hop
    rw [htodo] at hinv
    simpa using guarded_held _ _ op rest hinv hop

theorem server_programs_guarded (n : Nat) (handlers : List (List Bool)) :
    ∀ p ∈ start_server_ops n :: handlers.map handler_ops, guarded false false p = true := by
  intro p hp
  rcases List.mem_cons.1 hp with h | h
  · rw [h]; exact guarded_start_server_ops n
  · obtain ⟨calls, _, hc⟩ := List.mem_map.1 h
    rw [← hc]; exact guarded_handler_ops calls

/-! ## C23: the counter files follow the counters -/

/-- C23: let the counter files be writable (`write_count_to_file` does nothing when
`fopen` fails). `main` starts the server with the three files equal to the three
counters, and each of the three locked sections (in the accept loop, at the start
of a handler, in `decrement_thread_and_socket_counts`) ends with the three files
equal to the three counters again; so they are equal in every state that the
server reaches by such steps. Each section is the list of statements given for it
(`exec_ops`), and in each list every `write_count_to_file` lies between `lock` and
`unlock` (`guarded`). When the threads run interleaved, a thread whose next
statement is a counter update or a mirror write holds the mutex. -/
theorem C23_mirrors_follow_counters (env : Env) (hfiles : env.count_files_ok = true) :
    (∀ w0 : World, mirrors_agree (main_init env w0))
    ∧ (∀ w : World, mirrors_agree w →
        mirrors_agree (start_server_count env w)
        ∧ mirrors_agree (client_handler_start env w)
        ∧ mirrors_agree (decrement_thread_and_socket_counts env w))
    ∧ (∀ (w0 : World) (steps : List (Env × ServerStep)) (s : Server),
        (∀ x ∈ steps, x.1.count_files_ok = true) →
        Server.run steps (Server.start env w0) = some s → mirrors_agree s.w)
    ∧ (∀ w : World,
        exec_ops env w start_server_count_ops = start_server_count env w
        ∧ exec_ops env w client_handler_start_ops = client_handler_start env w
        ∧ exec_ops env w decrement_thread_and_socket_counts_ops
            = decrement_thread_and_socket_counts env w)
    ∧ (guarded false false start_server_count_ops = true
        ∧ guarded false false client_handler_start_ops = true
        ∧ guarded false false decrement_thread_and_socket_counts_ops = true)
    ∧ (∀ (w : World) (n : Nat) (handlers : List (List Bool)) (schedule : List Nat)
        (m : Machine),
        Machine.run env schedule
          (Machine.init w (start_server_ops n :: handlers.map handler_ops)) = some m →
        ∀ (i : Nat) (t : Thread) (op : Op) (rest : List Op), m.threads[i]? = some t →
          t.todo = op :: rest → op ≠ .lock → m.mutex = some i) := by
  refine ⟨mirrors_agree_main_init env hfiles, fun w hw => ?_, fun w0 steps s hs hrun => ?_,
    fun w => ⟨rfl, rfl, rfl⟩, by decide, fun w n handlers schedule m hrun i t op rest ht => ?_⟩
  · exact ⟨mirrors_agree_start_server_count env hfiles w hw,
      mirrors_agree_client_handler_start env hfiles w hw,
      mirrors_agree_decrement env hfiles w hw⟩
  · exact Server.run_mirrors_agree steps hs _ s hrun (mirrors_agree_main_init env hfiles w0)
  · exact (Machine.reachable_holder env w _ (server_programs_guarded n handlers) schedule m
      hrun i t ht).2 op rest

/-- C23 for the section of the accept loop on the world in which all counters and
files are 0. -/
theorem C23_mirrors_follow_counters_witness :
    mirrors_agree (start_server_count env_example world_zero) :=
  ((C23_mirrors_follow_counters env_example rfl).2.1 world_zero ⟨rfl, rfl, rfl⟩).1

/-! ## C24: the engine runs under the mutex -/

/-- C24: let the threads of the server, the accept loop with `n` passes and any
number of handlers with any engine calls, run interleaved under any schedule from
a state in which the mutex is free. In every state reached, at most one thread is
inside an engine function; a thread inside an engine function, and a thread about
to enter one, holds the mutex. The engine is called only in the bodies of
`detect_and_draw_faces_mutexed` and `replace_faces_mutexed`, where the call lies
between `lock` and `unlock`, and which leave in the image file what the engine
leaves there. -/
theorem C24_engine_runs_under_the_mutex (env : Env) (w : World) (n : Nat)
    (handlers : List (List Bool)) (schedule : List Nat) (m : Machine)
    (hrun : Machine.run env schedule
      (Machine.init w (start_server_ops n :: handlers.map handler_ops)) = some m) :
    (∀ (i j : Nat) (ti tj : Thread), m.threads[i]? = some ti → m.threads[j]? = some tj →
        ti.inside = true → tj.inside = true → i = j)
    ∧ (∀ (i : Nat) (t : Thread), m.threads[i]? = some t → t.inside = true →
        m.mutex = some i)
    ∧ (∀ (i : Nat) (t : Thread) (r : Bool) (rest : List Op), m.threads[i]? = some t →
        t.todo = .enter_engine r :: rest → m.mutex = some i)
    ∧ guarded false false detect_and_draw_faces_mutexed_ops = true
    ∧ guarded false false replace_faces_mutexed_ops = true
    ∧ (∀ w1 : World,
        exec_ops env w1 detect_and_draw_faces_mutexed_ops
          = w1.setImageFile (detect_and_draw_faces_mutexed env w1.imageFile).2
        ∧ exec_ops env w1 replace_faces_mutexed_ops
          = w1.setImageFile (replace_faces_mutexed env w1.imageFile).2) := by
  have hold := Machine.reachable_holder env w _ (server_programs_guarded n handlers)
    schedule m hrun
  refine ⟨fun i j ti tj hi hj hti htj => ?_, fun i t ht hin => (hold i t ht).1 hin,
    fun i t r rest ht htodo => (hold i t ht).2 _ rest htodo (by simp), by decide, by decide,
    fun w1 => ⟨rfl, rfl⟩⟩
  have h1 := (hold i ti hi).1 hti
  have h2 := (hold j tj hj).1 htj
  rw [h1] at h2
  exact Option.some.inj h2

/-- C24 for a server with two handlers in which the first handler has entered the
engine: the mutex is held by that thread. -/
theorem C24_engine_runs_under_the_mutex_witness :
    ∃ m, Machine.run env_example [0, 0, 0, 0, 1, 1, 1, 1, 1, 1, 1, 1]
        (Machine.init world_zero (start_server_ops 2 :: [[false], [true]].map handler_ops))
          = some m
      ∧ (m.threads[1]?.map (fun t => t.inside)) = some true ∧ m.mutex = some 1 :=
  ⟨(Machine.run env_example [0, 0, 0, 0, 1, 1, 1, 1, 1, 1, 1, 1]
      (Machine.init world_zero
        (start_server_ops 2 :: [[false], [true]].map handler_ops))).get (by decide),
    by simp, by decide,
    (C24_engine_runs_under_the_mutex env_example world_zero 2 [[false], [true]]
      [0, 0, 0, 0, 1, 1, 1, 1, 1, 1, 1, 1] _ (by simp)).2.1 1 ⟨[.leave_engine false, .unlock,
        .lock, .dec_activeThreadCount, .write_activeThreadCount, .dec_activeSocketCount,
        .write_activeSocketCount, .unlock], true⟩ (by decide) rfl⟩

/-! ## C25: the byte order of `validate_prefix` -/

theorem uint32_of_mem_to_mem (bigEndian : Bool) (v : Nat) (hv : v < 2 ^ 32) :
    uint32_of_mem bigEndian (uint32_to_mem bigEndian v) = v := by
  cases bigEndian <;> simp [uint32_of_mem, uint32_to_mem] <;> exact le32_value v hv

/-- On every host `validate_prefix` accepts the four bytes that the host itself
writes for the prefix with `fwrite(&prefix, 1, 4, s)`, as `send_protocol_image`
does, and answers -2 to fewer than four bytes. -/
theorem validate_prefix_of_host (s : FILE) :
    (∀ rest, s.input = uint32_to_mem s.bigEndian 0x23107231 ++ rest →
      validate_prefix s = (0, s.consume 4))
    ∧ (s.input.length < 4 → validate_prefix s = (-2, s.hitEnd)) := by
  constructor
  · intro rest h
    have hlen : 4 ≤ s.input.length := by
      rw [h]; simp [uint32_to_mem_length]
    have ht : s.input.take 4 = uint32_to_mem s.bigEndian 0x23107231 := by
      rw [h, List.take_append_of_le_length (by simp [uint32_to_mem_length]),
        List.take_of_length_le (by simp [uint32_to_mem_length])]
    simp only [ validate_prefix, fread_of_le s 4 hlen, ht, uint32_to_mem_length,
      uint32_of_mem_to_mem s.bigEndian 0x23107231 (by decide), PROTOCOL_PREFIX]
    simp
  · intro h
    have hne : s.input.length ≠ 4 := by omega
    simp only [ validate_prefix, fread_of_lt s 4 h, hne, ne_eq, not_false_eq_true, if_true]

/-- C25 fails on the code for a big-endian host: `validate_prefix` reads the four
bytes into a `uint32_t` with `fread(&prefix, 1, 4, from)` and compares the variable
with `0x23107231`, so the outcome depends on the byte order of the host. On a
big-endian host the bytes `31 72 10 23`, the little-endian encoding of the prefix,
are answered with -1, and the bytes `23 10 72 31` with 0. On a little-endian host
`31 72 10 23` gives 0 and `23 10 72 31` gives -1; fewer than four bytes give -2 on
both. -/
theorem C25_validate_prefix_in_host_byte_order :
    ( validate_prefix (stream_of [0x31, 0x72, 0x10, 0x23, 0] 0).onBigEndianHost).1 = -1
    ∧ ( validate_prefix (stream_of [0x23, 0x10, 0x72, 0x31, 0] 0).onBigEndianHost).1 = 0
    ∧ ( validate_prefix (stream_of [0x31, 0x72, 0x10, 0x23, 0] 0)).1 = 0
    ∧ ( validate_prefix (stream_of [0x23, 0x10, 0x72, 0x31, 0] 0)).1 = -1
    ∧ ( validate_prefix (stream_of [0x31, 0x72, 0x10] 0)).1 = -2
    ∧ ( validate_prefix (stream_of [0x31, 0x72, 0x10] 0).onBigEndianHost).1 = -2
    ∧ (read_uint32_le (stream_of [0x31, 0x72, 0x10, 0x23, 0] 0).onBigEndianHost).2.1
        = some 0x23107231 := by
  decide

/-! ## Lemmas on partial reads -/

theorem read_all_chunked_loop_spec (fuel : Nat) :
    ∀ (s : ChunkedFILE) (buf : List Byte) (size : Nat), s.eof = false → s.err = false →
      (size - buf.length) + s.chunks.length < fuel →
      ∃ r, read_all_chunked_loop fuel s buf size = some r
        ∧ (size ≤ buf.length + (all_bytes s.chunks).length →
            r.1 = 0 ∧ r.2.1 = buf ++ (all_bytes s.chunks).take (size - buf.length)
            ∧ all_bytes r.2.2.chunks = (all_bytes s.chunks).drop (size - buf.length))
        ∧ (buf.length + (all_bytes s.chunks).length < size →
            r.1 = -1 ∧ r.2.1 = buf ++ all_bytes s.chunks) := by
  induction fuel with
  | zero => intro s buf size _ _ h; omega
  | succ n ih =>
    intro s buf size heof herr hfuel
    obtain ⟨chunks, rf, eof, err⟩ := s
    dsimp only at heof herr hfuel ⊢
    subst heof herr
    by_cases hlt : buf.length < size
    · cases chunks with
      | nil =>
        refine ⟨(-1, buf, ⟨[], rf, !rf, rf⟩), ?_, fun h => ?_, fun _ => ⟨rfl, by simp [all_bytes]⟩⟩
        · cases rf <;> simp [read_all_chunked_loop, hlt, fread_chunked]
        · simp only [all_bytes, List.length_nil] at h
          omega
      | cons c rest =>
        by_cases hcn : c.length ≤ size - buf.length
        · have hfuel2 : (size - (buf ++ c).length) + rest.length < n := by
            simp only [List.length_cons, List.length_append] at hfuel ⊢
            omega
          obtain ⟨r, hr1, hr2, hr3⟩ := ih ⟨rest, rf, false, false⟩ (buf ++ c) size rfl rfl hfuel2
          have hloop : read_all_chunked_loop (n + 1) ⟨c :: rest, rf, false, false⟩ buf size
              = some r := by
            simp only [read_all_chunked_loop, hlt, if_true, fread_chunked, hcn]
            split <;> simpa using hr1
          refine ⟨r, hloop, ?_, ?_⟩
          · intro hle
            simp only [all_bytes, List.length_append] at hle hr2 hr3 ⊢
            obtain ⟨h1, h2, h3⟩ := hr2 (by omega)
            refine ⟨h1, ?_, ?_⟩
            · rw [h2, List.take_append_eq_append_take, List.take_of_length_le hcn,
                List.append_assoc]
              rw [Nat.sub_add_eq]
            · rw [h3, List.drop_append_eq_append_drop, List.drop_of_length_le hcn,
                List.nil_append]
              rw [Nat.sub_add_eq]
          · intro hgt
            simp only [all_bytes, List.length_append] at hgt hr2 hr3 ⊢
            obtain ⟨h1, h2⟩ := hr3 (by omega)
            exact ⟨h1, by rw [h2, List.append_assoc]⟩
        · have hcn2 : size - buf.length < c.length := by omega
          have hlen : (buf ++ c.take (size - buf.length)).length = size := by
            simp only [List.length_append, List.length_take]
            omega
          have hfuel2 : (size - (buf ++ c.take (size - buf.length)).length)
              + (c.drop (size - buf.length) :: rest).length < n := by
            simp only [List.length_cons] at hfuel ⊢
            omega
          obtain ⟨r, hr1, hr2, _⟩ := ih ⟨c.drop (size - buf.length) :: rest, rf, false, false⟩
            (buf ++ c.take (size - buf.length)) size rfl rfl hfuel2
          have hloop : read_all_chunked_loop (n + 1) ⟨c :: rest, rf, false, false⟩ buf size
              = some r := by
            simp only [read_all_chunked_loop, hlt, if_true, fread_chunked, hcn, if_false, hlen,
              Nat.lt_irrefl]
            exact hr1
          refine ⟨r, hloop, ?_, ?_⟩
          · intro _
            simp only [all_bytes, hlen, Nat.sub_self, List.take_zero, List.append_nil,
              List.drop_zero, List.length_append] at hr2 ⊢
            obtain ⟨h1, h2, h3⟩ := hr2 (by omega)
            refine ⟨h1, ?_, ?_⟩
            · rw [h2, List.take_append_of_le_length (by omega)]
            · rw [h3, List.drop_append_of_le_length (by omega)]
          · intro hgt
            simp only [all_bytes, List.length_append] at hgt
            omega
    · refine ⟨(0, buf, ⟨chunks, rf, false, false⟩), by simp [read_all_chunked_loop, hlt],
        fun _ => ?_, fun h => by omega⟩
      have h0 : size - buf.length = 0 := by omega
      simp [h0]

theorem read_all_chunked_spec (s : ChunkedFILE) (size : Nat) (heof : s.eof = false)
    (herr : s.err = false) :
    read_all_chunked_loop (size + s.chunks.length + 1) s [] size
        = some (read_all_chunked s size)
    ∧ (size ≤ (all_bytes s.chunks).length →
        (read_all_chunked s size).1 = 0
        ∧ (read_all_chunked s size).2.1 = (all_bytes s.chunks).take size
        ∧ all_bytes (read_all_chunked s size).2.2.chunks = (all_bytes s.chunks).drop size)
    ∧ ((all_bytes s.chunks).length < size →
        (read_all_chunked s size).1 = -1
        ∧ (read_all_chunked s size).2.1 = all_bytes s.chunks) := by
  obtain ⟨r, hr1, hr2, hr3⟩ := read_all_chunked_loop_spec (size + s.chunks.length + 1) s []
    size heof herr (by simp)
  have hr : read_all_chunked s size = r := by
    simp [read_all_chunked, hr1]
  rw [hr]
  refine ⟨hr1, fun h => ?_, fun h => ?_⟩
  · simpa using hr2 (by simpa using h)
  · simpa using hr3 (by simpa using h)

/-- On a `FILE`, the one-piece case, `read_all` returns what `read_all` on the stream
in pieces returns. -/
theorem read_all_chunked_ofFILE (f : FILE) (size : Nat) (heof : f.eof = false)
    (herr : f.err = false) :
    (read_all_chunked (ChunkedFILE.ofFILE f) size).1 = (read_all f size).1
    ∧ (read_all_chunked (ChunkedFILE.ofFILE f) size).2.1 = (read_all f size).2.1 := by
  obtain ⟨_, h2, h3⟩ := read_all_chunked_spec (ChunkedFILE.ofFILE f) size heof herr
  have hb : all_bytes (ChunkedFILE.ofFILE f).chunks = f.input := by
    simp [ChunkedFILE.ofFILE, all_bytes]
  rw [hb] at h2 h3
  rcases Nat.lt_or_ge f.input.length size with h | h
  · rw [read_all_of_lt f size h]
    exact h3 h
  · rw [read_all_of_le f size h]
    exact ⟨(h2 h).1, (h2 h).2.1⟩

/-! ## C26: `read_all` accumulates partial reads -/

/-- C26: let a stream with clear indicators deliver its bytes in any pieces
(`chunks`), each `fread` returning at most the next piece. Then the loop of
`read_all` ends, with 0 or with -1. It returns 0 exactly when the pieces hold at
least `size` bytes together, and then the buffer holds the first `size` bytes of
the stream and the bytes behind them are still to be read; otherwise it returns -1.
The result is the same for every other split of the same bytes into pieces. -/
theorem C26_read_all_accumulates_partial_reads (s : ChunkedFILE) (size : Nat)
    (heof : s.eof = false) (herr : s.err = false) :
    read_all_chunked_loop (size + s.chunks.length + 1) s [] size
        = some (read_all_chunked s size)
    ∧ ((read_all_chunked s size).1 = 0 ↔ size ≤ (all_bytes s.chunks).length)
    ∧ ((read_all_chunked s size).1 = -1 ↔ (all_bytes s.chunks).length < size)
    ∧ (size ≤ (all_bytes s.chunks).length →
        (read_all_chunked s size).2.1 = (all_bytes s.chunks).take size
        ∧ all_bytes (read_all_chunked s size).2.2.chunks = (all_bytes s.chunks).drop size)
    ∧ (∀ s2 : ChunkedFILE, s2.eof = false → s2.err = false →
        all_bytes s2.chunks = all_bytes s.chunks →
        (read_all_chunked s2 size).1 = (read_all_chunked s size).1
        ∧ (read_all_chunked s2 size).2.1 = (read_all_chunked s size).2.1) := by
  obtain ⟨h1, h2, h3⟩ := read_all_chunked_spec s size heof herr
  refine ⟨h1, ?_, ?_, fun h => (h2 h).2, ?_⟩
  · constructor
    · intro h0
      by_contra hlt
      rw [(h3 (by omega)).1] at h0
      exact absurd h0 (by decide)
    · exact fun h => (h2 h).1
  · constructor
    · intro h0
      by_contra hge
      rw [(h2 (by omega)).1] at h0
      exact absurd h0 (by decide)
    · exact fun h => (h3 h).1
  · intro s2 heof2 herr2 hb
    obtain ⟨_, k2, k3⟩ := read_all_chunked_spec s2 size heof2 herr2
    rw [hb] at k2 k3
    rcases Nat.lt_or_ge (all_bytes s.chunks).length size with h | h
    · exact ⟨by rw [(k3 h).1, (h3 h).1], by rw [(k3 h).2, (h3 h).2]⟩
    · exact ⟨by rw [(k2 h).1, (h2 h).1], by rw [(k2 h).2.1, (h2 h).2.1]⟩

/-- C26 for the bytes `01 .. 06` in the pieces `01 02`, `03`, `04 05 06` and the
size 4: the buffer holds `01 02 03 04` and `05 06` are still to be read. -/
theorem C26_read_all_accumulates_partial_reads_witness :
    (read_all_chunked ⟨[[1, 2], [3], [4, 5, 6]], false, false, false⟩ 4).2.1
        = [1, 2, 3, 4]
    ∧ all_bytes (read_all_chunked ⟨[[1, 2], [3], [4, 5, 6]], false, false, false⟩ 4).2.2.chunks
        = [5, 6] :=
  (C26_read_all_accumulates_partial_reads ⟨[[1, 2], [3], [4, 5, 6]], false, false, false⟩ 4
    rfl rfl).2.2.2.1 (by decide)

/-! ## Lemmas on the fuel of the handler loop in the simple stream model -/

theorem fwrite_input (s : FILE) (data : List Byte) : (fwrite s data).2.input = s.input := rfl

theorem fflush_input (s : FILE) : (fflush s).2.input = s.input := by
  unfold fflush; split <;> rfl

theorem exists_four_of_length (l : List Byte) (h : 4 ≤ l.length) :
    ∃ b0 b1 b2 b3 rest, l = b0 :: b1 :: b2 :: b3 :: rest := by
  match l, h with
  | b0 :: b1 :: b2 :: b3 :: rest, _ => exact ⟨b0, b1, b2, b3, rest, rfl⟩

/-- The two ways `read_uint32_le` can end. -/
theorem read_uint32_le_cases (s : FILE) :
    (s.input.length < 4 ∧ read_uint32_le s = (-1, none, s.hitEnd))
    ∨ ∃ v, read_uint32_le s = (0, some v, s.consume 4) := by
  rcases Nat.lt_or_ge s.input.length 4 with h | h
  · exact Or.inl ⟨h, read_uint32_le_of_short s h⟩
  · obtain ⟨b0, b1, b2, b3, rest, hl⟩ := exists_four_of_length s.input h
    exact Or.inr ⟨_, read_uint32_le_of_bytes s b0 b1 b2 b3 rest hl⟩

/-- `handle_protocol_prefix` never returns `PROTOCOL_ERROR`: it fails with
`COMMUNICATION_ERROR` or accepts the four bytes. -/
theorem handle_protocol_prefix_cases (env : Env) (c : Conn) :
    ( handle_protocol_prefix env c).1 = COMMUNICATION_ERROR
    ∨ handle_protocol_prefix env c = (PROTOCOL_SUCCESS, c.setSockf (c.sockf.consume 4)) := by
  rcases read_uint32_le_cases c.sockf with ⟨_, hr⟩ | ⟨v, hr⟩
  · left
    simp [ handle_protocol_prefix, hr]
  · by_cases hv : v = PROTOCOL_PREFIX
    · right
      simp [ handle_protocol_prefix, hr, hv, Conn.setSockf]
    · left
      simp [ handle_protocol_prefix, hr, hv]

theorem fputc_input (b : Byte) (s : FILE) : (fputc b s).2.input = s.input := by
  unfold fputc
  split <;> rfl

theorem write_uint32_le_input (s : FILE) (v : Nat) : (write_uint32_le s v).2.input = s.input :=
  rfl

theorem send_protocol_error_file_input (s : FILE) (msg : List Byte) :
    (send_protocol_error_file s msg).input = s.input := by
  unfold send_protocol_error_file
  dsimp only
  split_ifs <;>
    simp only [fflush_input, fwrite_input, fputc_input, write_uint32_le_input]

theorem send_protocol_image_input (s : FILE) (data : List Byte) :
    (send_protocol_image s data).2.input = s.input := by
  unfold send_protocol_image
  dsimp only
  split_ifs <;> simp only [fflush_input, fwrite_input, fputc_input]

theorem respond_input (env : Env) (w : World) (c : Conn) (s : FILE) (result : Int) :
    (handle_protocol_image_respond env w c s result).2.2.sockf.input = s.input := by
  unfold handle_protocol_image_respond
  dsimp only
  split_ifs
  all_goals first
    | simp only [fflush_input, send_protocol_error_file_input]
    | (split
       · rfl
       · split_ifs <;> simp only [send_protocol_image_input])

theorem read_uint32_le_input_le (s : FILE) :
    (read_uint32_le s).2.2.input.length ≤ s.input.length := by
  rcases read_uint32_le_cases s with ⟨_, hr⟩ | ⟨v, hr⟩ <;> rw [hr] <;>
    simp [FILE.hitEnd, FILE.consume]

theorem read_and_save_image_input_le (env : Env) (s : FILE) (file : Option (List Byte))
    (size : Nat) :
    (read_and_save_image env s file size).2.1.input.length ≤ s.input.length := by
  unfold read_and_save_image
  dsimp only
  split_ifs <;> simp [fread]

theorem handle_protocol_image_input_le (env : Env) (w : World) (c : Conn) :
    (handle_protocol_image env w c).2.2.sockf.input.length ≤ c.sockf.input.length := by
  have h1 := read_and_save_image_input_le env c.sockf w.imageFile c.clientArgs.imgSize
  have h2 := read_uint32_le_input_le
    (read_and_save_image env c.sockf w.imageFile c.clientArgs.imgSize).2.1
  have h3 := read_and_save_image_input_le env
    (read_uint32_le (read_and_save_image env c.sockf w.imageFile c.clientArgs.imgSize).2.1).2.2
    (read_and_save_image env c.sockf w.imageFile c.clientArgs.imgSize).2.2
    ((read_uint32_le
      (read_and_save_image env c.sockf w.imageFile c.clientArgs.imgSize).2.1).2.1.getD 0)
  unfold handle_protocol_image
  dsimp only
  split_ifs <;> simp only [respond_input] <;> omega

theorem handle_protocol_prefix_success (env : Env) (c : Conn)
    (h : ( handle_protocol_prefix env c).1 ≠ COMMUNICATION_ERROR) :
    4 ≤ c.sockf.input.length
    ∧ handle_protocol_prefix env c = (PROTOCOL_SUCCESS, c.setSockf (c.sockf.consume 4)) := by
  rcases read_uint32_le_cases c.sockf with ⟨_, hr⟩ | ⟨v, hr⟩
  · exact absurd (by simp [ handle_protocol_prefix, hr]) h
  · have hlen : 4 ≤ c.sockf.input.length := by
      by_contra hlt
      rw [read_uint32_le_of_short c.sockf (by omega)] at hr
      have h1 := congrArg Prod.fst hr
      simp at h1
    rcases handle_protocol_prefix_cases env c with hc | hc
    · exact absurd hc h
    · exact ⟨hlen, hc⟩

theorem handle_protocol_header_input (c : Conn)
    (h : (handle_protocol_header c).1 ≠ COMMUNICATION_ERROR) :
    (handle_protocol_header c).2.sockf.input.length + 1 ≤ c.sockf.input.length := by
  cases hin : c.sockf.input with
  | nil =>
    rw [handle_protocol_header_eof c hin] at h
    exact absurd rfl h
  | cons op rest =>
    have hle := read_uint32_le_input_le (c.sockf.consume 1)
    have hc1 : (c.sockf.consume 1).input.length = rest.length := by
      simp [FILE.consume, hin]
    rw [handle_protocol_header_cons c op rest hin] at h ⊢
    split_ifs at h ⊢ <;>
      simp only [setSockf_sockf, setHeader_sockf, fflush_input, send_protocol_error_file_input,
        List.length_cons] <;>
      omega

/-- In the simple stream model a pass of the handler loop that goes on has consumed
at least five bytes of the input. -/
theorem client_handler_pass_consumes (env : Env) (w : World) (c : Conn)
    (h : (client_handler_pass env w c).1 = true) :
    (client_handler_pass env w c).2.2.sockf.input.length + 5 ≤ c.sockf.input.length := by
  by_cases hp : ( handle_protocol_prefix env c).1 = COMMUNICATION_ERROR
  · rw [client_handler_pass_prefix_comm env w c hp] at h
    simp at h
  · obtain ⟨hlen, hp2⟩ := handle_protocol_prefix_success env c hp
    have h4 : (c.setSockf (c.sockf.consume 4)).sockf.input.length + 4 = c.sockf.input.length := by
      simp only [setSockf_sockf, FILE.consume, List.length_drop]
      omega
    have hi := handle_protocol_image_input_le env w
      (handle_protocol_header (c.setSockf (c.sockf.consume 4))).2
    rw [client_handler_pass_header env w c _ hp2] at h ⊢
    split_ifs at h ⊢
    all_goals first
      | (simp at h; done)
      | (have hh := handle_protocol_header_input (c.setSockf (c.sockf.consume 4))
           (by assumption)
         simp only
         omega)

/-- The fuel of `client_handler` is enough in the simple stream model: the loop ends
within `input.length + 1` passes. (On the socket stream with its buffer the loop
need not end: `sock_loop_spins`.) -/
theorem client_handler_loop_terminates (env : Env) (fuel : Nat) :
    ∀ (w : World) (c : Conn), c.sockf.input.length < 5 * fuel →
      ∃ r, client_handler_loop env fuel w c = some r := by
  induction fuel with
  | zero => intro w c h; omega
  | succ n ih =>
    intro w c h
    cases hp : (client_handler_pass env w c).1 with
    | false => exact ⟨_, client_handler_loop_break env n w c hp⟩
    | true =>
      rw [client_handler_loop_continue env n w c hp]
      have hc := client_handler_pass_consumes env w c hp
      exact ih _ _ (by omega)

/-! ## C29: the replacement segment is not validated -/

theorem written_self (s : FILE) : written s s = [] := by
  simp [written]

theorem respond_written_cases (env : Env) (w : World) (c : Conn) (s : FILE) (result : Int)
    (hflush : s.flushOk = true) (hroom : 35 ≤ s.room)
    (himg : ∀ out, w.imageFile = some out → 9 + out.length ≤ s.room) :
    written s (handle_protocol_image_respond env w c s result).2.2.sockf = []
    ∨ written s (handle_protocol_image_respond env w c s result).2.2.sockf
        = wire_frame 3 [invalidImage]
    ∨ written s (handle_protocol_image_respond env w c s result).2.2.sockf
        = wire_frame 3 [invalidNoFaces]
    ∨ ∃ out, written s (handle_protocol_image_respond env w c s result).2.2.sockf
        = host_image_frame s.bigEndian out := by
  by_cases hres : result = OPENCV_SUCCESS
  · subst hres
    cases hfile : read_file_to_buffer env w.imageFile with
    | none =>
      left
      unfold handle_protocol_image_respond
      rw [if_neg (by decide), if_neg (by decide), if_pos rfl, hfile]
      exact written_self s
    | some out =>
      right; right; right
      have hw : w.imageFile = some out ∧ env.malloc_ok out.length = true := by
        unfold read_file_to_buffer at hfile
        cases hf : w.imageFile with
        | none => simp [hf] at hfile
        | some content =>
          simp only [hf] at hfile
          split_ifs at hfile with hm
          cases hfile
          exact ⟨rfl, hm⟩
      refine ⟨out, ?_⟩
      rw [respond_success_sent env w c s out hw.1 hw.2 hflush (himg out hw.1)]
      simp [written_emit]
  · rw [respond_error_result env w c s result hres]
    by_cases hnf : result = OPENCV_NO_FACES
    · right; right; left
      rw [if_pos hnf, error_frame_flushed s invalidNoFaces (by decide) hflush
        (by simpa [invalidNoFaces_length] using hroom)]
      simp [written_emit]
    · right; left
      rw [if_neg hnf, error_frame_flushed s invalidImage (by decide) hflush
        (by rw [invalidImage_length]; omega)]
      simp [written_emit]

/-- C29: let the header of a replace request be accepted with a target image `t`,
and let the rest of the input hold `t`, a length below `2 ^ 32` and that many bytes
`r`, whatever the length is: 0 and lengths above the maximum size included. When
the buffers are allocated and the image file is written, `handle_protocol_image`
reads the `|t| + 4 + |r|` bytes, saves `r` to the image file and runs the engine on
it. On a connection that takes the answer, what it writes is nothing, the error
frame "invalid image", the error frame "no faces detected in image", or an
output-image frame: never the error frame "image is 0 bytes" or "image too
large". -/
theorem C29_replacement_length_not_checked (env : Env) (w : World) (c : Conn)
    (t r rest : List Byte)
    (hop : c.clientArgs.opType = 1) (hsize : c.clientArgs.imgSize = t.length)
    (hin : c.sockf.input = t ++ (le32 r.length ++ (r ++ rest)))
    (hrlen : r.length < 2 ^ 32)
    (hmt : env.malloc_ok t.length = true) (hmr : env.malloc_ok r.length = true)
    (hopen : env.fopen_wb_ok = true) (hdt : t.length ≤ env.disk_room)
    (hdr : r.length ≤ env.disk_room)
    (hflush : c.sockf.flushOk = true) (hroom : 35 ≤ c.sockf.room)
    (himg : ∀ out, (env.replace_faces_in_memory (some r)).2 = some out →
      9 + out.length ≤ c.sockf.room) :
    (read_and_save_image env ((c.sockf.consume t.length).consume 4) (some t) r.length)
        = (true, c.sockf.consume (t.length + 4 + r.length), some r)
    ∧ handle_protocol_image env w c
        = handle_protocol_image_respond env
            (w.setImageFile (env.replace_faces_in_memory (some r)).2) c
            (c.sockf.consume (t.length + 4 + r.length))
            (env.replace_faces_in_memory (some r)).1
    ∧ written c.sockf (handle_protocol_image env w c).2.2.sockf
        ≠ wire_frame 3 [cstr "image is 0 bytes"]
    ∧ written c.sockf (handle_protocol_image env w c).2.2.sockf
        ≠ wire_frame 3 [cstr "image too large"] := by
  have hi := handle_protocol_image_replace env w c t r rest hop hsize hin hrlen hmt hmr hopen
    hdt hdr
  have hrs : read_and_save_image env ((c.sockf.consume t.length).consume 4) (some t) r.length
      = (true, c.sockf.consume (t.length + 4 + r.length), some r) := by
    rw [read_and_save_image_ok env _ (some t) r rest (by simp [hin, le32_length]) hmr hopen hdr]
    simp [consume_consume]
  have hcases := respond_written_cases env
    (w.setImageFile (env.replace_faces_in_memory (some r)).2) c
    (c.sockf.consume (t.length + 4 + r.length)) (env.replace_faces_in_memory (some r)).1
    (by simpa using hflush) (by simpa using hroom) (fun out ho => by simpa using himg out ho)
  have hwr : ∀ s1 : FILE, written c.sockf s1
      = written (c.sockf.consume (t.length + 4 + r.length)) s1 := fun s1 => by
    simp [written]
  rw [hi, hwr]
  refine ⟨hrs, rfl, ?_, ?_⟩
  · rcases hcases with h | h | h | ⟨out, h⟩ <;> rw [h]
    · decide
    · decide
    · decide
    · exact fun he => wire_frame_ne_host_image_frame _ _ _ he.symm
  · rcases hcases with h | h | h | ⟨out, h⟩ <;> rw [h]
    · decide
    · decide
    · decide
    · exact fun he => wire_frame_ne_host_image_frame _ _ _ he.symm

/-- C29 for a replacement segment of length 0 under the maximum size 10: the
segment is read and saved and the engine is run on it. -/
theorem C29_replacement_length_not_checked_witness :
    handle_protocol_image env_example world_zero (replace_body_conn [9, 9, 9] [] 40)
      = handle_protocol_image_respond env_example
          (world_zero.setImageFile (env_example.replace_faces_in_memory (some [])).2)
          (replace_body_conn [9, 9, 9] [] 40)
          ((replace_body_conn [9, 9, 9] [] 40).sockf.consume (3 + 4 + 0))
          (env_example.replace_faces_in_memory (some [])).1 :=
  (C29_replacement_length_not_checked env_example world_zero
    (replace_body_conn [9, 9, 9] [] 40) [9, 9, 9] [] [] rfl rfl rfl (by decide) rfl rfl rfl
    (by decide) (by decide) rfl (by decide) (fun out ho => by
      have h : out = [] := by
        have h2 : (env_example.replace_faces_in_memory (some [])).2 = some [] := rfl
        rw [h2] at ho
        exact (Option.some.inj ho).symm
      subst h
      decide)).2.1

/-! ## Lemmas on decimal strings -/

theorem decimal_value_from_eq (s : List Byte) :
    ∀ acc : Nat, decimal_value_from acc s = acc * 10 ^ s.length + decimal_value_from 0 s := by
  induction s with
  | nil =>
    intro acc
    show acc = acc * 10 ^ 0 + 0
    omega
  | cons c rest ih =>
    intro acc
    show decimal_value_from (10 * acc + (c.val - 48)) rest
      = acc * 10 ^ (rest.length + 1) + decimal_value_from (10 * 0 + (c.val - 48)) rest
    rw [ih (10 * acc + (c.val - 48)), ih (10 * 0 + (c.val - 48))]
    ring

theorem decimal_value_cons (c : Byte) (rest : List Byte) :
    decimal_value (c :: rest) = (c.val - 48) * 10 ^ rest.length + decimal_value rest := by
  show decimal_value_from (10 * 0 + (c.val - 48)) rest
    = (c.val - 48) * 10 ^ rest.length + decimal_value_from 0 rest
  rw [decimal_value_from_eq rest]
  simp

theorem decimal_value_lt (s : List Byte) (hs : all_digits s = true) :
    decimal_value s < 10 ^ s.length := by
  induction s with
  | nil =>
    show 0 < 10 ^ 0
    decide
  | cons c rest ih =>
    simp only [all_digits, List.all_cons, Bool.and_eq_true, isdigit, decide_eq_true_eq] at hs
    have h1 := ih (by simpa [all_digits] using hs.2)
    rw [decimal_value_cons, List.length_cons, pow_succ]
    have hc : c.val - 48 ≤ 9 := by omega
    nlinarith [Nat.mul_le_mul_right (10 ^ rest.length) hc]

theorem strcmp_le_iff (a : List Byte) :
    ∀ b : List Byte, a.length = b.length → all_digits a = true → all_digits b = true →
      (strcmp a b ≤ 0 ↔ decimal_value a ≤ decimal_value b) := by
  induction a with
  | nil =>
    intro b hlen _ _
    cases b with
    | nil => simp [strcmp]
    | cons _ _ => simp at hlen
  | cons x xs ih =>
    intro b hlen ha hb
    cases b with
    | nil => simp at hlen
    | cons y ys =>
      simp only [List.length_cons, Nat.add_right_cancel_iff] at hlen
      simp only [all_digits, List.all_cons, Bool.and_eq_true, isdigit, decide_eq_true_eq]
        at ha hb
      have hax : all_digits xs = true := by simpa [all_digits] using ha.2
      have hby : all_digits ys = true := by simpa [all_digits] using hb.2
      have hlx := decimal_value_lt xs hax
      have hly := decimal_value_lt ys hby
      rw [decimal_value_cons, decimal_value_cons, hlen]
      rw [hlen] at hlx
      by_cases hxy : x = y
      · subst hxy
        simp only [strcmp, if_true]
        rw [ih ys hlen hax hby]
        omega
      · have hv : x.val ≠ y.val := fun h => hxy (Fin.ext h)
        simp only [strcmp, hxy, if_false]
        constructor
        · intro h
          have hlt : x.val - 48 + 1 ≤ y.val - 48 := by omega
          nlinarith [Nat.mul_le_mul_right (10 ^ ys.length) hlt]
        · intro h
          by_contra hgt
          have hlt : y.val - 48 + 1 ≤ x.val - 48 := by omega
          nlinarith [Nat.mul_le_mul_right (10 ^ ys.length) hlt]

/-- Where `valid_range` decides as its comment says: for digit strings, a maximum
without a leading zero, and a string that is not longer than the maximum or has no
leading zero itself, it returns true exactly when the number of `str` is at most
the number of `maxValue`. -/
theorem valid_range_spec (str maxValue : List Byte) (c : Byte) (rest : List Byte)
    (hstr : all_digits str = true) (hmax : all_digits maxValue = true)
    (hm : maxValue = c :: rest) (hc : c.val ≠ 48)
    (hlead : str.length ≤ maxValue.length ∨ ∃ d tail, str = d :: tail ∧ d.val ≠ 48) :
    valid_range str maxValue = true ↔ decimal_value str ≤ decimal_value maxValue := by
  subst hm
  have hmax2 := hmax
  simp only [all_digits, List.all_cons, Bool.and_eq_true, isdigit, decide_eq_true_eq] at hmax2
  have hrest : all_digits rest = true := by simpa [all_digits] using hmax2.2
  have hmlow : 10 ^ rest.length ≤ decimal_value (c :: rest) := by
    rw [decimal_value_cons]
    have h1 : 1 ≤ c.val - 48 := by omega
    nlinarith [Nat.mul_le_mul_right (10 ^ rest.length) h1]
  have hmhigh := decimal_value_lt (c :: rest) hmax
  have hslt := decimal_value_lt str hstr
  rcases Nat.lt_trichotomy str.length (c :: rest).length with hl | hl | hl
  · simp only [valid_range, hl, if_true, true_iff]
    have hp : 10 ^ str.length ≤ 10 ^ rest.length :=
      Nat.pow_le_pow_right (by decide) (by simp only [List.length_cons] at hl; omega)
    omega
  · have hnl : ¬ str.length < (c :: rest).length := by omega
    have hng : ¬ str.length > (c :: rest).length := by omega
    simp only [valid_range, hnl, hng, if_false, decide_eq_true_eq]
    exact strcmp_le_iff str (c :: rest) hl hstr hmax
  · have hnl : ¬ str.length < (c :: rest).length := by omega
    simp only [valid_range, hnl, hl, if_false, if_true, Bool.false_eq_true, false_iff, not_le]
    rcases hlead with h | ⟨d, tail, hd, hd0⟩
    · omega
    · subst hd
      have hstr2 := hstr
      simp only [all_digits, List.all_cons, Bool.and_eq_true, isdigit, decide_eq_true_eq]
        at hstr2
      have hlow : 10 ^ tail.length ≤ decimal_value (d :: tail) := by
        rw [decimal_value_cons]
        have h1 : 1 ≤ d.val - 48 := by omega
        nlinarith [Nat.mul_le_mul_right (10 ^ tail.length) h1]
      have hp : 10 ^ (c :: rest).length ≤ 10 ^ tail.length :=
        Nat.pow_le_pow_right (by decide) (by simp only [List.length_cons] at hl ⊢; omega)
      omega

/-! ## C30: `valid_range` and leading zeros -/

/-- C30 fails on the code for a string with leading zeros that is longer than the
maximum: `valid_range` compares the lengths first and returns false for "000001"
against "10000", although the number 1 is below 10000; the comment of `valid_range`
says it returns true if `str` represents a number `<= maxValue`. `is_number`
accepts "000001", so `cmd_line_parser` reaches `valid_range` with it and ends in a
usage error. Against "10000" the strings "00001" and "9999" and "10000" are
accepted and "10001" is not. -/
theorem C30_valid_range_rejects_leading_zeros :
    is_number (cstr "000001") = true
    ∧ all_digits (cstr "000001") = true
    ∧ valid_range (cstr "000001") maxConnections = false
    ∧ decimal_value (cstr "000001") = 1
    ∧ decimal_value maxConnections = 10000
    ∧ valid_range (cstr "00000000001") maxSize = false
    ∧ valid_range (cstr "00001") maxConnections = true
    ∧ valid_range (cstr "9999") maxConnections = true
    ∧ valid_range (cstr "10000") maxConnections = true
    ∧ valid_range (cstr "10001") maxConnections = false := by
  decide

/-! ## Lemmas on the socket stream -/

/-- A read on a wedged stream with pending bytes gets nothing and leaves the stream
as it was. -/
theorem sock_fread_wedged (s : Sock.FILE) (hp : s.putting = true) (hw : s.wedged = true)
    (hpe : s.pending ≠ []) (n : Nat) (hn : n ≠ 0) : Sock.fread s n = ([], s) := by
  simp [Sock.fread, Sock.to_get_mode, Sock.do_flush, hp, hw, hpe, hn]

/-- On a wedged stream with pending bytes and clear indicators the loop of
`read_all` does not end, whatever the fuel. -/
theorem sock_read_all_loop_spins (s : Sock.FILE) (hp : s.putting = true)
    (hw : s.wedged = true) (hpe : s.pending ≠ []) (he : s.eof = false) (hr : s.err = false)
    (buf : List Byte) (size : Nat) (hlt : buf.length < size) :
    ∀ fuel : Nat, Sock.read_all_loop fuel s buf size = none := by
  intro fuel
  induction fuel with
  | zero => rfl
  | succ n ih =>
    have hf := sock_fread_wedged s hp hw hpe (size - buf.length) (by omega)
    simp only [Sock.read_all_loop, hlt, if_true, hf, List.append_nil, he, hr]
    simpa using ih

/-- The bytes that `take_bytes` gets are as many as asked for, or fewer with the end
of the pieces met. -/
theorem sock_take_bytes_length (pieces : List (List Byte)) :
    ∀ (buffered : List Byte) (n : Nat),
      (Sock.take_bytes pieces buffered n).1.length = n
      ∨ ((Sock.take_bytes pieces buffered n).1.length < n
          ∧ (Sock.take_bytes pieces buffered n).2.2.2 = true) := by
  induction pieces with
  | nil =>
    intro buffered n
    by_cases h : n ≤ buffered.length
    · left; simp [Sock.take_bytes, h]
    · right; simp [Sock.take_bytes, h]; omega
  | cons piece rest ih =>
    intro buffered n
    by_cases h : n ≤ buffered.length
    · left; simp [Sock.take_bytes, h]
    · rcases ih piece (n - buffered.length) with h1 | h1
      · left; simp [Sock.take_bytes, h, h1]; omega
      · right; simp [Sock.take_bytes, h, h1]; omega

/-- What a `fread` of `n > 0` bytes can do: get `n` bytes; get fewer and leave an
indicator set; or, on a wedged stream with pending bytes, get nothing and leave the
stream as it was. -/
theorem sock_fread_cases (s : Sock.FILE) (n : Nat) (hn : n ≠ 0) :
    (Sock.fread s n).1.length = n
    ∨ ((Sock.fread s n).1.length < n
        ∧ ((Sock.fread s n).2.eof = true ∨ (Sock.fread s n).2.err = true))
    ∨ (Sock.fread s n = ([], s) ∧ s.putting = true ∧ s.wedged = true ∧ s.pending ≠ []) := by
  have key : ∀ g : Sock.FILE,
      (Sock.take_bytes g.arriving g.buffered n).1.length = n
      ∨ ((Sock.take_bytes g.arriving g.buffered n).1.length < n
          ∧ ((g.eof || ((Sock.take_bytes g.arriving g.buffered n).2.2.2 && !g.readFails)) = true
            ∨ (g.err || ((Sock.take_bytes g.arriving g.buffered n).2.2.2 && g.readFails))
                = true)) := by
    intro g
    rcases sock_take_bytes_length g.arriving g.buffered n with h | h
    · exact Or.inl h
    · refine Or.inr ⟨h.1, ?_⟩
      rw [h.2]
      cases g.readFails <;> simp
  by_cases hp : s.putting = true
  · by_cases hpe : s.pending = []
    · have hg : Sock.to_get_mode s = (true, { s with putting := false }) := by
        simp [Sock.to_get_mode, Sock.do_flush, hp, hpe]
      rcases key { s with putting := false } with h | h
      · left; simpa [Sock.fread, hn, hg] using h
      · right; left; simpa [Sock.fread, hn, hg] using h
    · by_cases hw : s.wedged = true
      · right; right
        exact ⟨sock_fread_wedged s hp hw hpe n hn, hp, hw, hpe⟩
      · by_cases hroom : min s.pending.length s.room < s.pending.length
        · right; left
          have hpos : 0 < n := Nat.pos_of_ne_zero hn
          simp [Sock.fread, Sock.to_get_mode, Sock.do_flush, hp, hpe, hw, hroom, hn, hpos]
        · have hg : Sock.to_get_mode s
              = (true, { s with sent := s.sent ++ s.pending,
                                room := s.room - min s.pending.length s.room,
                                pending := [], putting := false }) := by
            simp [Sock.to_get_mode, Sock.do_flush, hp, hpe, hw, hroom]
          rcases key { s with sent := s.sent ++ s.pending,
                              room := s.room - min s.pending.length s.room,
                              pending := [], putting := false } with h | h
          · left; simpa [Sock.fread, hn, hg] using h
          · right; left; simpa [Sock.fread, hn, hg] using h
  · have hg : Sock.to_get_mode s = (true, s) := by
      simp [Sock.to_get_mode, hp]
    rcases key s with h | h
    · left; simpa [Sock.fread, hn, hg] using h
    · right; left; simpa [Sock.fread, hn, hg] using h

/-- The fuel of `read_all` is enough: more fuel gives the same result. So `read_all`
gives `none` only where the loop of the source does not end. -/
theorem sock_read_all_loop_fuel (s : Sock.FILE) (buf : List Byte) (size fuel : Nat) :
    Sock.read_all_loop (fuel + 2) s buf size = Sock.read_all_loop 2 s buf size := by
  by_cases hlt : buf.length < size
  · have hn : size - buf.length ≠ 0 := by omega
    rcases sock_fread_cases s (size - buf.length) hn with h | h | h
    · have h1 : ¬ (buf ++ (Sock.fread s (size - buf.length)).1).length < size := by
        simp [h]; omega
      have h2 : Sock.read_all_loop (fuel + 2) s buf size
          = Sock.read_all_loop (fuel + 1) (Sock.fread s (size - buf.length)).2
              (buf ++ (Sock.fread s (size - buf.length)).1) size := by
        rw [Sock.read_all_loop]; simp only [hlt, if_true, h1, if_false]
      have h3 : Sock.read_all_loop 2 s buf size
          = Sock.read_all_loop 1 (Sock.fread s (size - buf.length)).2
              (buf ++ (Sock.fread s (size - buf.length)).1) size := by
        rw [Sock.read_all_loop]; simp only [hlt, if_true, h1, if_false]
      rw [h2, h3, Sock.read_all_loop, Sock.read_all_loop]
      simp only [h1, if_false]
    · have h1 : (buf ++ (Sock.fread s (size - buf.length)).1).length < size := by
        simp; omega
      rw [Sock.read_all_loop, Sock.read_all_loop]
      simp only [hlt, if_true, h1]
      rcases h.2 with he | he
      · simp [he]
      · simp [he]
    · by_cases he : s.eof = true
      · rw [Sock.read_all_loop, Sock.read_all_loop]
        simp [hlt, h.1, he]
      · by_cases hr : s.err = true
        · rw [Sock.read_all_loop, Sock.read_all_loop]
          simp [hlt, h.1, hr]
        · have hs := sock_read_all_loop_spins s h.2.1 h.2.2.1 h.2.2.2 (by simpa using he)
            (by simpa using hr) buf size hlt
          rw [hs, hs]
  · rw [Sock.read_all_loop, Sock.read_all_loop]
    simp [hlt]

/-- The fuel that `send_responsefile` passes to its loop is enough. -/
theorem sock_send_responsefile_loop_fuel (fuel : Nat) :
    ∀ (resp : FILE) (sockf : Sock.FILE), resp.input.length < fuel →
      ∃ s, Sock.send_responsefile_loop fuel resp sockf = some s := by
  induction fuel with
  | zero => intro resp sockf h; omega
  | succ n ih =>
    intro resp sockf h
    simp only [Sock.send_responsefile_loop]
    split
    · rename_i hpos
      apply ih
      simp only [fread, List.length_take, List.length_drop, BUFFER_SIZE] at hpos ⊢
      omega
    · exact ⟨_, rfl⟩

/-- A pass of the handler loop on a wedged stream with pending bytes and clear
indicators does not end. -/
theorem sock_pass_spins (env : Env) (w : World) (c : Sock.Conn)
    (hp : c.sockf.putting = true) (hw : c.sockf.wedged = true) (hpe : c.sockf.pending ≠ [])
    (he : c.sockf.eof = false) (hr : c.sockf.err = false) :
    Sock.client_handler_pass env w c = none := by
  have h := sock_read_all_loop_spins c.sockf hp hw hpe he hr [] 4 (by decide) 2
  simp [Sock.client_handler_pass, Sock.handle_protocol_prefix, Sock.read_uint32_le,
    Sock.read_all, UINT32_NUM_BYTES, h]

/-- The handler loop on such a stream does not end, whatever the fuel. -/
theorem sock_loop_spins (env : Env) (w : World) (c : Sock.Conn)
    (hp : c.sockf.putting = true) (hw : c.sockf.wedged = true) (hpe : c.sockf.pending ≠ [])
    (he : c.sockf.eof = false) (hr : c.sockf.err = false) (fuel : Nat) :
    Sock.client_handler_loop env fuel w c = none := by
  cases fuel with
  | zero => rfl
  | succ n => simp [Sock.client_handler_loop, sock_pass_spins env w c hp hw hpe he hr]

/-- When a pass of the handler loop goes on and leaves the stream wedged with
pending bytes and clear indicators, the loop does not end, whatever the fuel. -/
theorem sock_loop_spins_after (env : Env) (w : World) (c : Sock.Conn)
    (h : (Sock.client_handler_pass env w c).map
        (fun r => (r.1, r.2.2.sockf.putting && r.2.2.sockf.wedged
                          && !r.2.2.sockf.eof && !r.2.2.sockf.err,
                   r.2.2.sockf.pending.isEmpty)) = some (true, true, false))
    (fuel : Nat) : Sock.client_handler_loop env fuel w c = none := by
  cases fuel with
  | zero => rfl
  | succ n =>
    cases hpass : Sock.client_handler_pass env w c with
    | none => simp [Sock.client_handler_loop, hpass]
    | some r =>
      rw [hpass] at h
      simp only [Option.map_some', Option.some.injEq, Prod.mk.injEq, Bool.and_eq_true,
        Bool.not_eq_true', List.isEmpty_eq_false] at h
      obtain ⟨h1, ⟨⟨⟨hp, hw⟩, he⟩, hr⟩, hpe⟩ := h
      simp only [Sock.client_handler_loop, hpass, h1, if_true]
      exact sock_loop_spins env r.2.1 r.2.2 hp hw (by simpa using hpe) he hr n

/-- The same for `client_handler`. -/
theorem sock_handler_spins_after (env : Env) (w : World) (c : Sock.Conn)
    (hopen : env.fdopen_ok = true)
    (h : (Sock.client_handler_pass env (client_handler_start env w) c).map
        (fun r => (r.1, r.2.2.sockf.putting && r.2.2.sockf.wedged
                          && !r.2.2.sockf.eof && !r.2.2.sockf.err,
                   r.2.2.sockf.pending.isEmpty)) = some (true, true, false))
    (fuel : Nat) : Sock.client_handler env fuel w c = none := by
  simp [Sock.client_handler, hopen,
    sock_loop_spins_after env (client_handler_start env w) c h fuel]

/-- When enough bytes are unread, `take_bytes` gets the first `n` of them, leaves
the others unread, and does not meet the end of the pieces. -/
theorem sock_take_bytes_enough (pieces : List (List Byte)) :
    ∀ (buffered : List Byte) (n : Nat), n ≤ (buffered ++ pieces.flatten).length →
      (Sock.take_bytes pieces buffered n).1 = (buffered ++ pieces.flatten).take n
      ∧ (Sock.take_bytes pieces buffered n).2.1
            ++ (Sock.take_bytes pieces buffered n).2.2.1.flatten
          = (buffered ++ pieces.flatten).drop n
      ∧ (Sock.take_bytes pieces buffered n).2.2.2 = false := by
  induction pieces with
  | nil =>
    intro buffered n h
    have h1 : n ≤ buffered.length := by simpa using h
    simp [Sock.take_bytes, h1]
  | cons piece rest ih =>
    intro buffered n h
    by_cases h1 : n ≤ buffered.length
    · simp [Sock.take_bytes, h1, List.take_append_of_le_length,
        List.drop_append_of_le_length]
    · have h2 : n - buffered.length ≤ (piece ++ rest.flatten).length := by
        simp at h ⊢; omega
      obtain ⟨ha, hb, hc⟩ := ih piece (n - buffered.length) h2
      have h3 : buffered.length ≤ n := by omega
      have e1 : List.take n (buffered ++ (piece ++ rest.flatten))
          = buffered ++ List.take (n - buffered.length) (piece ++ rest.flatten) := by
        rw [List.take_append_eq_append_take, List.take_of_length_le h3]
      have e2 : List.drop n (buffered ++ (piece ++ rest.flatten))
          = List.drop (n - buffered.length) (piece ++ rest.flatten) := by
        rw [List.drop_append_eq_append_drop, List.drop_of_length_le h3, List.nil_append]
      simp only [Sock.take_bytes, h1, if_false, List.flatten_cons, e1, e2]
      exact ⟨by rw [ha], hb, hc⟩

/-- A read on a stream with nothing pending leaves the output side of the stream
as it was, and the stream in read mode. -/
theorem sock_fread_quiet (s : Sock.FILE) (n : Nat) (hpe : s.pending = []) (hn : n ≠ 0) :
    (Sock.fread s n).2.pending = [] ∧ (Sock.fread s n).2.wedged = s.wedged
    ∧ (Sock.fread s n).2.putting = false ∧ (Sock.fread s n).2.sent = s.sent
    ∧ (Sock.fread s n).2.room = s.room ∧ (Sock.fread s n).2.bigEndian = s.bigEndian := by
  cases hp : s.putting <;>
    simp [Sock.fread, Sock.to_get_mode, Sock.do_flush, hpe, hn, hp]

/-- A read of `n` bytes on a stream with nothing pending and at least `n` bytes
unread gets the first `n` of them and sets no indicator. -/
theorem sock_fread_enough (s : Sock.FILE) (n : Nat) (hpe : s.pending = [])
    (hlen : n ≤ s.unread.length) :
    (Sock.fread s n).1 = s.unread.take n ∧ (Sock.fread s n).2.unread = s.unread.drop n
    ∧ (Sock.fread s n).2.eof = s.eof ∧ (Sock.fread s n).2.err = s.err := by
  by_cases hn : n = 0
  · subst hn; simp [Sock.fread]
  · obtain ⟨ha, hb, hc⟩ := sock_take_bytes_enough s.arriving s.buffered n hlen
    cases hp : s.putting <;>
      simp [Sock.fread, Sock.to_get_mode, Sock.do_flush, hpe, hn, hp, Sock.FILE.unread,
        ha, hb, hc]

/-- `read_uint32_le` on a stream with nothing pending whose unread bytes start with
`le32 v` returns 0 and stores `v`. -/
theorem sock_read_uint32_le_of_le32 (s : Sock.FILE) (hpe : s.pending = []) (v : Nat)
    (hv : v < 2 ^ 32) (rest : List Byte) (h : s.unread = le32 v ++ rest) :
    Sock.read_uint32_le s = some (0, some v, (Sock.fread s 4).2)
    ∧ (Sock.fread s 4).2.unread = rest := by
  have hlen : 4 ≤ s.unread.length := by simp [h, le32_length]
  obtain ⟨h1, h2, _, _⟩ := sock_fread_enough s 4 hpe hlen
  have h3 : (Sock.fread s 4).1 = le32 v := by
    rw [h1, h]; simp [le32]
  have h4 : ¬ (Sock.fread s 4).1.length < 4 := by rw [h3]; simp [le32_length]
  refine ⟨?_, ?_⟩
  · simp only [Sock.read_uint32_le, Sock.read_all, Sock.read_all_loop, UINT32_NUM_BYTES,
      List.length_nil, List.nil_append, Nat.sub_zero, h4, if_false]
    simp only [Nat.lt_irrefl, Nat.zero_lt_succ, if_true, if_false, ne_eq, not_true_eq_false,
      h3, le32, List.getD_cons_zero, List.getD_cons_succ, le_value, toU32]
    have := le32_value v hv
    simp only [this, Nat.mod_eq_of_lt hv]
  · rw [h2, h]; simp [le32]

/-- `fgetc` on a stream with nothing pending and a byte unread gets that byte. -/
theorem sock_fgetc_of_cons (s : Sock.FILE) (hpe : s.pending = []) (b : Byte)
    (rest : List Byte) (h : s.unread = b :: rest) :
    Sock.fgetc s = ((b.val : Int), (Sock.fread s 1).2) ∧ (Sock.fread s 1).2.unread = rest := by
  have hlen : 1 ≤ s.unread.length := by simp [h]
  obtain ⟨h1, h2, _, _⟩ := sock_fread_enough s 1 hpe hlen
  rw [h] at h1 h2
  simp only [List.take_succ_cons, List.take_zero, List.drop_succ_cons, List.drop_zero] at h1 h2
  exact ⟨by simp [Sock.fgetc, h1], h2⟩

/-- A flush with nothing pending does nothing. -/
theorem sock_fflush_nothing_pending (s : Sock.FILE) (hpe : s.pending = []) :
    Sock.fflush s = (0, s) := by
  simp [Sock.fflush, Sock.do_flush, hpe]

/-- An error frame that is written in read mode with no unread byte in the buffer, on
a socket that accepts it, reaches the peer. -/
theorem sock_error_frame_sent (s : Sock.FILE) (msg : List Byte)
    (hput : s.putting = false) (hpe : s.pending = []) (hw : s.wedged = false)
    (hb : s.buffered = []) (hlen : msg.length < 2 ^ 32) (hroom : 9 + msg.length ≤ s.room) :
    (Sock.send_protocol_error_file s msg).sent = s.sent ++ wire_frame 3 [msg]
    ∧ (Sock.send_protocol_error_file s msg).pending = []
    ∧ (Sock.send_protocol_error_file s msg).wedged = false
    ∧ (Sock.send_protocol_error_file s msg).unread = s.unread := by
  have hU : toU32 msg.length = msg.length := Nat.mod_eq_of_lt hlen
  have hle : ∀ v, le32 v ≠ [] := fun v => by simp [le32]
  simp only [Sock.send_protocol_error_file, Sock.write_uint32_le, write_bytes_eq, hU,
    List.take_length]
  by_cases hm : msg = []
  · subst hm
    have : ¬ (min 9 s.room < 9) := by simp at hroom; omega
    simp [Sock.fwrite, Sock.fputc, Sock.fflush, Sock.do_flush, Sock.to_put_mode, hput, hpe,
      hb, hw, hle, le32_length, UINT32_NUM_BYTES, wire_frame, wire_segments, PROTOCOL_PREFIX,
      OP_ERROR_MSG, EOF, this, Sock.FILE.unread]
  · have : ¬ s.room < 4 + (4 + msg.length + 1) := by omega
    simp [Sock.fwrite, Sock.fputc, Sock.fflush, Sock.do_flush, Sock.to_put_mode, hput, hpe,
      hb, hw, hle, hm, le32_length, UINT32_NUM_BYTES, wire_frame, wire_segments,
      PROTOCOL_PREFIX, OP_ERROR_MSG, EOF, this, Sock.FILE.unread]

/-- What `handle_protocol_header` returns on a stream with nothing pending whose
unread bytes start with a valid opcode and a size other than 0. -/
theorem sock_handle_protocol_header_size (c : Sock.Conn) (op : Byte) (size : Nat)
    (rest : List Byte) (hop : op.val = 0 ∨ op.val = 1) (hsize0 : size ≠ 0)
    (hsize : size < 2 ^ 32) (hpe : c.sockf.pending = [])
    (hin : c.sockf.unread = op :: (le32 size ++ rest)) :
    Sock.handle_protocol_header c
      = some (if c.clientArgs.params.maxsize ≠ 0 ∧ size > c.clientArgs.params.maxsize then
          (PROTOCOL_ERROR,
            c.setSockf (Sock.fflush (Sock.send_protocol_error_file
              (Sock.fread (Sock.fread c.sockf 1).2 4).2 imageTooLarge)).2)
        else
          (PROTOCOL_SUCCESS,
            (c.setSockf (Sock.fread (Sock.fread c.sockf 1).2 4).2).setHeader op.val size))
    ∧ (Sock.fread (Sock.fread c.sockf 1).2 4).2.unread = rest := by
  obtain ⟨hg, hu1⟩ := sock_fgetc_of_cons c.sockf hpe op (le32 size ++ rest) hin
  have hq1 := sock_fread_quiet c.sockf 1 hpe (by decide)
  obtain ⟨hr, hu2⟩ := sock_read_uint32_le_of_le32 (Sock.fread c.sockf 1).2 hq1.1 size hsize
    rest hu1
  refine ⟨?_, hu2⟩
  have hne : ((op.val : Nat) : Int) ≠ EOF := by simp [EOF]
  have hopb : ¬ (¬ op.val = OP_FACE_DETECT ∧ ¬ op.val = OP_FACE_REPLACE) := by
    simp only [OP_FACE_DETECT, OP_FACE_REPLACE]
    omega
  simp only [Sock.handle_protocol_header, hg, hne, if_false, hopb, hr, Option.getD_some,
    hsize0, ne_eq, not_true_eq_false, not_false_eq_true, toByte_val]
  by_cases hbig : c.clientArgs.params.maxsize ≠ 0 ∧ size > c.clientArgs.params.maxsize
  · rw [if_pos (show _ ∧ _ from hbig), if_pos (show _ ∧ _ from hbig)]
    rfl
  · rw [if_neg hbig, if_neg hbig]
    rfl

theorem sock_reads_to_start (s : Sock.FILE) (n : Nat) (hpe : s.pending = []) (hn : n ≠ 0) :
    s.reads_to (Sock.fread s n).2 :=
  sock_fread_quiet s n hpe hn

theorem sock_reads_to_fread (s s1 : Sock.FILE) (n : Nat) (h : s.reads_to s1) :
    s.reads_to (Sock.fread s1 n).2 := by
  by_cases hn : n = 0
  · subst hn
    simpa [Sock.fread] using h
  · obtain ⟨h1, h2, h3, h4, h5, h6⟩ := sock_fread_quiet s1 n h.1 hn
    obtain ⟨_, g2, _, g4, g5, g6⟩ := h
    exact ⟨h1, h2.trans g2, h3, h4.trans g4, h5.trans g5, h6.trans g6⟩

/-- C7, as stated, fails for the maximum size 0: a detect request of size 1 exceeds
that maximum, yet `handle_protocol_header` returns `PROTOCOL_SUCCESS`, records the
size 1 and writes nothing. -/
theorem C7_counterexample_maxsize_zero :
    (conn_of [0, 1, 0, 0, 0, 0xAA] 100 0).clientArgs.params.maxsize < 1
    ∧ handle_protocol_header (conn_of [0, 1, 0, 0, 0, 0xAA] 100 0)
        = (PROTOCOL_SUCCESS,
            ((conn_of [0, 1, 0, 0, 0, 0xAA] 100 0).setSockf
              ((conn_of [0, 1, 0, 0, 0, 0xAA] 100 0).sockf.consume 5)).setHeader 0 1)
    ∧ ¬ ((handle_protocol_header (conn_of [0, 1, 0, 0, 0, 0xAA] 100 0)).1 = PROTOCOL_ERROR
          ↔ 1 > (conn_of [0, 1, 0, 0, 0, 0xAA] 100 0).clientArgs.params.maxsize) := by
  decide

/-- C7, amended: the stream of the connection has nothing pending and is not wedged,
and its unread bytes start with a valid opcode byte and a size field other than 0.
Then `handle_protocol_header` returns, and it returns `PROTOCOL_ERROR` if and only if
the configured maximum is not 0 and the size exceeds it. In that case the error frame
"image too large" is sent to the peer, when no unread byte is left in the buffer of
the stream once the size field is read and the connection accepts the 24 bytes of
the frame; the bytes behind the size field are then still unread. In every other
case (the size does not exceed the maximum, or the maximum is 0, which switches the
check off) it returns `PROTOCOL_SUCCESS` and records that opcode and size, with
nothing sent and the bytes behind the size field unread. -/
theorem C7_size_limit_unless_zero (c : Sock.Conn) (op : Byte) (size : Nat) (rest : List Byte)
    (hop : op.val = 0 ∨ op.val = 1) (hsize0 : size ≠ 0) (hsize : size < 2 ^ 32)
    (hpe : c.sockf.pending = []) (hw : c.sockf.wedged = false)
    (hin : c.sockf.unread = op :: (le32 size ++ rest)) :
    ∃ r, Sock.handle_protocol_header c = some r
      ∧ (r.1 = PROTOCOL_ERROR
          ↔ (c.clientArgs.params.maxsize ≠ 0 ∧ size > c.clientArgs.params.maxsize))
      ∧ (c.clientArgs.params.maxsize ≠ 0 ∧ size > c.clientArgs.params.maxsize →
          (Sock.fread (Sock.fread c.sockf 1).2 4).2.buffered = [] → 24 ≤ c.sockf.room →
          r.2.sockf.sent = c.sockf.sent ++ wire_frame 3 [cstr "image too large"]
          ∧ r.2.sockf.pending = [] ∧ r.2.sockf.unread = rest)
      ∧ (¬ (c.clientArgs.params.maxsize ≠ 0 ∧ size > c.clientArgs.params.maxsize) →
          r.1 = PROTOCOL_SUCCESS ∧ r.2.clientArgs.opType = (op.val : Int)
          ∧ r.2.clientArgs.imgSize = size ∧ r.2.clientArgs.params = c.clientArgs.params
          ∧ r.2.sockf.sent = c.sockf.sent ∧ r.2.sockf.unread = rest) := by
  obtain ⟨hh, hu⟩ := sock_handle_protocol_header_size c op size rest hop hsize0 hsize hpe hin
  have hq : c.sockf.reads_to (Sock.fread (Sock.fread c.sockf 1).2 4).2 :=
    sock_reads_to_fread c.sockf _ 4 (sock_reads_to_start c.sockf 1 hpe (by decide))
  refine ⟨_, hh, ?_, ?_, ?_⟩
  · by_cases hbig : c.clientArgs.params.maxsize ≠ 0 ∧ size > c.clientArgs.params.maxsize
    · rw [if_pos (show _ ∧ _ from hbig)]
      exact ⟨fun _ => hbig, fun _ => rfl⟩
    · rw [if_neg hbig]
      exact Iff.intro (fun h => nomatch h) (fun h => absurd h hbig)
  · intro hbig hb hroom
    rw [if_pos (show _ ∧ _ from hbig)]
    obtain ⟨g1, g2, g3, g4, g5, g6⟩ := hq
    obtain ⟨h1, h2, _, h4⟩ := sock_error_frame_sent (Sock.fread (Sock.fread c.sockf 1).2 4).2
      imageTooLarge g3 g1 (g2.trans hw) hb (by decide)
      (by rw [g5]; exact Nat.le_trans (by decide) hroom)
    show (Sock.fflush _).2.sent = _ ∧ (Sock.fflush _).2.pending = _ ∧ (Sock.fflush _).2.unread = _
    rw [sock_fflush_nothing_pending _ h2]
    exact ⟨by rw [h1, g4]; rfl, h2, by rw [h4, hu]⟩
  · intro hbig
    rw [if_neg hbig]
    exact ⟨rfl, rfl, rfl, rfl, hq.2.2.2.1, hu⟩

/-- C7, amended, for a replace request of the size 11 on a connection with the
maximum size 10, with a byte that arrives after the size field has been read:
`PROTOCOL_ERROR`, the frame "image too large" is sent, and the byte is still
unread. -/
theorem C7_size_limit_unless_zero_witness :
    ∃ r, Sock.handle_protocol_header (Sock.conn_of [[1, 11, 0, 0, 0], [0xAA]] 24 10) = some r
      ∧ r.1 = PROTOCOL_ERROR
      ∧ r.2.sockf.sent = wire_frame 3 [cstr "image too large"]
      ∧ r.2.sockf.pending = [] ∧ r.2.sockf.unread = [0xAA] :=
  match C7_size_limit_unless_zero (Sock.conn_of [[1, 11, 0, 0, 0], [0xAA]] 24 10) 1 11 [0xAA]
      (by decide) (by decide) (by decide) rfl rfl (by decide) with
  | ⟨r, h1, h2, h3, _⟩ =>
    ⟨r, h1, h2.2 ⟨by decide, by decide⟩,
      (h3 ⟨by decide, by decide⟩ (by decide) (by decide)).1,
      (h3 ⟨by decide, by decide⟩ (by decide) (by decide)).2⟩

/-! ## C13: one frame for every recoverable pass -/

/-- C5: the request `31 72 10 23 07` (the prefix and the opcode 7) reaches the handler
in one piece with the bytes `01 02` behind it. `handle_protocol_header` returns
`PROTOCOL_ERROR`, and the pass of the loop goes on with the connection open, as the
claim says; but the error frame "invalid operation type" has not been sent: it is
pending in the buffer of the stream, which is wedged, and nothing has reached the
peer. When `01 02` arrive in a later piece, the frame is sent. -/
theorem C5_error_frame_not_sent_behind_unread_input :
    (( Sock.handle_protocol_prefix env_example
          (Sock.conn_of [[0x31, 0x72, 0x10, 0x23, 7, 1, 2]] 40 10)).bind
        (fun p => Sock.handle_protocol_header p.2)).map
          (fun r => (r.1, r.2.sockf.sent, r.2.sockf.pending))
      = some (PROTOCOL_ERROR, [], wire_frame 3 [cstr "invalid operation type"])
    ∧ (Sock.client_handler_pass env_example world_zero
          (Sock.conn_of [[0x31, 0x72, 0x10, 0x23, 7, 1, 2]] 40 10)).map
          (fun r => (r.1, r.2.2.isOpen, r.2.2.sockf.wedged))
      = some (true, true, true)
    ∧ (( Sock.handle_protocol_prefix env_example
          (Sock.conn_of [[0x31, 0x72, 0x10, 0x23, 7], [1, 2]] 40 10)).bind
        (fun p => Sock.handle_protocol_header p.2)).map
          (fun r => (r.1, r.2.sockf.sent, r.2.sockf.pending))
      = some (PROTOCOL_ERROR, wire_frame 3 [cstr "invalid operation type"], []) := by
  decide

/-- C6: a detect request with the size 0 and a well-formed detect request with the
image `05 06 07` reach the handler in one piece. The first pass of the loop goes on,
but it has sent nothing, and the bytes of the second request are gone from the
buffer; `client_handler` does not return, whatever the number of passes allowed, so
the second request is never answered. When the second request arrives in a piece of
its own, both are answered: the error frame "image is 0 bytes", then the image
frame. -/
theorem C6_request_behind_zero_size_not_answered :
    (Sock.client_handler_pass env_example world_zero
          (Sock.conn_of [wire_frame 0 [[]] ++ wire_frame 0 [[5, 6, 7]]] 80 10)).map
          (fun r => (r.1, r.2.2.sockf.sent, r.2.2.sockf.buffered))
      = some (true, [], [])
    ∧ (∀ fuel : Nat, Sock.client_handler env_example fuel world_zero
          (Sock.conn_of [wire_frame 0 [[]] ++ wire_frame 0 [[5, 6, 7]]] 80 10) = none)
    ∧ (Sock.client_handler env_example 3 world_zero
          (Sock.conn_of [wire_frame 0 [[]], wire_frame 0 [[5, 6, 7]]] 80 10)).map
          (fun r => (r.2.sockf.sent, r.2.isOpen))
      = some (wire_frame 3 [cstr "image is 0 bytes"] ++ wire_frame 2 [[7, 6, 5]]
                ++ wire_frame 3 [cstr "invalid message"], false) :=
  ⟨by decide,
   sock_handler_spins_after env_example world_zero _ rfl (by decide),
   by decide⟩

/-- C8: the five bytes `GET /` reach the handler in one piece. `handle_protocol_prefix`
reads `GET ` as a prefix, returns `COMMUNICATION_ERROR` and shuts the socket down for
writing, and `client_handler` leaves its loop and closes the connection, as the
claim says; but no byte of the fallback payload has reached the peer. When only
`GET ` has arrived, the payload is sent. -/
theorem C8_fallback_not_served_behind_unread_input :
    ( Sock.handle_protocol_prefix env_example (Sock.conn_of [cstr "GET /"] 40 10)).map
          (fun r => (r.1, r.2.sockf.sent, r.2.shutWr))
      = some (COMMUNICATION_ERROR, [], true)
    ∧ (Sock.client_handler env_example 1 world_zero (Sock.conn_of [cstr "GET /"] 40 10)).map
          (fun r => (r.2.sockf.sent, r.2.isOpen))
      = some ([], false)
    ∧ ( Sock.handle_protocol_prefix env_example (Sock.conn_of [cstr "GET "] 40 10)).map
          (fun r => (r.1, r.2.sockf.sent, r.2.shutWr))
      = some (COMMUNICATION_ERROR, cstr "HTTP/1.1 400 Bad Request", true) := by
  decide

/-- C10: the header of a detect request with the size 3 has been accepted, and the
body reaches `handle_protocol_image` in one piece with the bytes `aa bb` behind it.
With the body `05 06 07` the engine succeeds and leaves `07 06 05` in the image
file, but the result is `COMMUNICATION_ERROR` and no frame is sent. With the body
`01 06 07` the engine finds no faces, with `00 06 07` the image is invalid: the
result is `PROTOCOL_ERROR`, but no error frame is sent. With nothing behind the body
`05 06 07` the result is `PROTOCOL_SUCCESS` and the image frame is sent. -/
theorem C10_response_not_sent_behind_unread_input :
    (Sock.handle_protocol_image env_example world_zero
          ((Sock.conn_of [[5, 6, 7, 0xAA, 0xBB]] 40 10).setHeader 0 3)).map
          (fun r => (r.1, r.2.1.imageFile, r.2.2.sockf.sent))
      = some (COMMUNICATION_ERROR, some [7, 6, 5], [])
    ∧ (Sock.handle_protocol_image env_example world_zero
          ((Sock.conn_of [[1, 6, 7, 0xAA, 0xBB]] 40 10).setHeader 0 3)).map
          (fun r => (r.1, r.2.2.sockf.sent))
      = some (PROTOCOL_ERROR, [])
    ∧ (Sock.handle_protocol_image env_example world_zero
          ((Sock.conn_of [[0, 6, 7, 0xAA, 0xBB]] 40 10).setHeader 0 3)).map
          (fun r => (r.1, r.2.2.sockf.sent))
      = some (PROTOCOL_ERROR, [])
    ∧ (Sock.handle_protocol_image env_example world_zero
          ((Sock.conn_of [[5, 6, 7]] 40 10).setHeader 0 3)).map
          (fun r => (r.1, r.2.1.imageFile, r.2.2.sockf.sent))
      = some (PROTOCOL_SUCCESS, some [7, 6, 5], wire_frame 2 [[7, 6, 5]]) := by
  decide

/-- C12: a detect request with the complete payload `05 06 07`, within the maximum
size 10, reaches the handler in one piece with the byte `aa` behind it; the engine
succeeds on the payload. The pass of the loop ends in `COMMUNICATION_ERROR` with
nothing sent, and `client_handler` closes the connection. With nothing behind the
payload the pass goes on and the image frame is sent. -/
theorem C12_complete_request_dropped_behind_unread_input :
    (( Sock.handle_protocol_prefix env_example
          (Sock.conn_of [wire_frame 0 [[5, 6, 7]] ++ [0xAA]] 40 10)).bind
        (fun p => (Sock.handle_protocol_header p.2).bind
          (fun h => Sock.handle_protocol_image env_example world_zero h.2))).map
          (fun r => (r.1, r.2.1.imageFile, r.2.2.sockf.sent))
      = some (COMMUNICATION_ERROR, some [7, 6, 5], [])
    ∧ (Sock.client_handler_pass env_example world_zero
          (Sock.conn_of [wire_frame 0 [[5, 6, 7]] ++ [0xAA]] 40 10)).map (fun r => r.1)
      = some false
    ∧ (Sock.client_handler env_example 1 world_zero
          (Sock.conn_of [wire_frame 0 [[5, 6, 7]] ++ [0xAA]] 40 10)).map
          (fun r => (r.2.sockf.sent, r.2.isOpen))
      = some ([], false)
    ∧ (Sock.client_handler_pass env_example world_zero
          (Sock.conn_of [wire_frame 0 [[5, 6, 7]]] 40 10)).map
          (fun r => (r.1, r.2.2.sockf.sent))
      = some (true, wire_frame 2 [[7, 6, 5]]) := by
  decide

/-- C27: a request is rejected while the rest of it is in the buffer of the stream:
the opcode 7 with a size field and a payload behind it, or, with the maximum size 2,
a detect request of the size 3 with its payload. The pass of the loop goes on, but
the rest of the request is neither on the stream nor read by the next pass: the
buffer is empty, no further piece is to come, nothing has been sent, and the loop
does not end, whatever the number of passes allowed. When the payload arrives in a
later piece it stays on the stream and the error frame is sent. -/
theorem C27_rest_of_rejected_request_dropped :
    (Sock.client_handler_pass env_example world_zero
          (Sock.conn_of [[0x31, 0x72, 0x10, 0x23, 7, 3, 0, 0, 0, 5, 6, 7]] 40 10)).map
          (fun r => (r.1, r.2.2.sockf.buffered ++ r.2.2.sockf.arriving.flatten,
                     r.2.2.sockf.sent))
      = some (true, [], [])
    ∧ (Sock.client_handler_pass env_example world_zero
          (Sock.conn_of [wire_frame 0 [[5, 6, 7]]] 40 2)).map
          (fun r => (r.1, r.2.2.sockf.buffered ++ r.2.2.sockf.arriving.flatten,
                     r.2.2.sockf.sent))
      = some (true, [], [])
    ∧ (∀ fuel : Nat, Sock.client_handler_loop env_example fuel world_zero
          (Sock.conn_of [wire_frame 0 [[5, 6, 7]]] 40 2) = none)
    ∧ (Sock.client_handler_pass env_example world_zero
          (Sock.conn_of [[0x31, 0x72, 0x10, 0x23, 0, 3, 0, 0, 0], [5, 6, 7]] 40 2)).map
          (fun r => (r.1, r.2.2.sockf.buffered ++ r.2.2.sockf.arriving.flatten,
                     r.2.2.sockf.sent))
      = some (true, [5, 6, 7], wire_frame 3 [cstr "image too large"]) :=
  ⟨by decide, by decide,
   sock_loop_spins_after env_example world_zero _ (by decide),
   by decide⟩

/-- C28: on the finite input `31 72 10 23 07 01 02`, which reaches the handler in one
piece, the request loop of `client_handler` does not terminate. The first pass goes
on with neither indicator of the stream set; the `read_all` of the second pass does
not return, since each `fread` gets no byte and sets no indicator
(`sock_read_all_loop_spins`): for every number of passes allowed, the loop and
`client_handler` have not returned. -/
theorem C28_request_loop_does_not_terminate :
    (Sock.client_handler_pass env_example world_zero
          (Sock.conn_of [[0x31, 0x72, 0x10, 0x23, 7, 1, 2]] 40 10)).map
          (fun r => (r.1, r.2.2.sockf.eof, r.2.2.sockf.err))
      = some (true, false, false)
    ∧ (Sock.client_handler_pass env_example world_zero
          (Sock.conn_of [[0x31, 0x72, 0x10, 0x23, 7, 1, 2]] 40 10)).bind
          (fun r => Sock.read_all r.2.2.sockf 4)
      = none
    ∧ (∀ fuel : Nat, Sock.client_handler_loop env_example fuel world_zero
          (Sock.conn_of [[0x31, 0x72, 0x10, 0x23, 7, 1, 2]] 40 10) = none)
    ∧ (∀ fuel : Nat, Sock.client_handler env_example fuel world_zero
          (Sock.conn_of [[0x31, 0x72, 0x10, 0x23, 7, 1, 2]] 40 10) = none) :=
  ⟨by decide, by decide,
   sock_loop_spins_after env_example world_zero _ (by decide),
   sock_handler_spins_after env_example world_zero _ rfl (by decide)⟩

end UQFace
